import Mathlib

/-!
Verification development for the PatrickStar chunk-based memory manager
(file src/patrickstar/core/client.py, class PatrickStarClient).

The orchestrator methods of client.py (access, access_dist, release,
release_dist, append_tensor, set_all_tensors_status_in_chunk,
fetch_remote_chunks) are translated directly from the source.  The
collaborating components that client.py calls into (Chunk, ChunkList,
ChunkTensorIndex, the parameter registration records, and the two
collective primitives of torch.distributed) are not part of the given
sources; their operations are modelled from the specification and each
such definition carries a doc comment that says so.

States are finite association lists, all definitions are executable, and
every fallible code path is an Except value whose error mirrors the
exception the Python code would raise at the same point.  Collective
calls, pin and unpin operations and payload allocation and release are
recorded in an event trace so that claims about which collectives run,
and in which order relative to pin operations, can be stated.
-/

namespace PStar

/-- Tensor lifecycle status, from patrickstar.core.const.TensorStatus
(module not in the sources; the six states are named by the spec). -/
inductive TensorStatus
  | FREE | COMPUTE | HOLD | HOLD_AFTER_FWD | HOLD_AFTER_BWD | RELEASED
deriving DecidableEq

/-- Chunk aggregate status, from patrickstar.core.const.ChunkStatus
(module not in the sources; mirrors the tensor statuses per the spec). -/
inductive ChunkStatus
  | FREE | COMPUTE | HOLD | HOLD_AFTER_FWD | HOLD_AFTER_BWD | RELEASED
deriving DecidableEq

/-- Access kind of a tensor visit, from patrickstar.core.const.AccessType. -/
inductive AccessType
  | DATA | GRAD
deriving DecidableEq

/-- Training stage passed to release_dist, from patrickstar.core.const. -/
inductive TrainingStage
  | FWD | BWD | ADAM
deriving DecidableEq

/-- Parameter kind, from patrickstar.core.parameter.ParamType. -/
inductive ParamType
  | CHUNK_BASED | TORCH_BASED
deriving DecidableEq

/-- Chunk category, from patrickstar.core.chunk_list.ChunkType. -/
inductive ChunkType
  | PARAM_FP16 | PARAM_FP32 | MOMENTUM | VARIANCE
deriving DecidableEq

/-- Compute device. -/
inductive Device
  | cpu | cuda (idx : Nat)
deriving DecidableEq

/-- Chunk storage contents; tensor elements are modelled as rationals so
that the reduce-scatter average (sum divided by process count) is exact. -/
abbrev Payload := List Rat

/-- Modelled from the spec: the Chunk record (spec section 3) — capacity,
dummy flag, optional storage handle with its device, and a pin count.
The pin count is an integer so that an unpin that was not preceded by a
pin is observable, exactly as in the reference counter of the missing
chunk.py.  The chunk identity is the key of the association list holding
the chunk, and the element type is not modelled. -/
structure Chunk where
  capacity : Nat
  is_dummy : Bool
  payload : Option Payload
  device : Device
  pin_cnt : Int
deriving DecidableEq

/-- Modelled from the spec: the tensor registration record kept by the
missing chunk_tensor_index.py — chunk id, offset, length, and the owning
parameter with the access kind of this slot. -/
structure TensorInfo where
  chunk_id : Nat
  start_offset : Nat
  numel : Nat
  param_id : Nat
  access_type : AccessType
deriving DecidableEq

/-- Modelled from the spec: the per-parameter state kept by the missing
parameter.py (ps_attr) together with the two framework-visible views.
data and grad are the torch-level param.data and param.grad; the
ps_data_tensor and ps_grad_tensor slots are the live chunk views that
ps_attr.set_tensor installs and ps_attr.access_tensor reads. -/
structure PSParam where
  param_type : ParamType
  numel : Nat
  data_status : TensorStatus
  grad_status : TensorStatus
  ps_data_tensor : Option Payload
  ps_grad_tensor : Option Payload
  data : Payload
  grad : Option Payload
deriving DecidableEq

/-- Association list lookup (first binding wins). -/
def alget {κ α : Type} [DecidableEq κ] : List (κ × α) → κ → Option α
  | [], _ => none
  | e :: r, k => if e.1 = k then some e.2 else alget r k

/-- Association list update of an existing key; bindings of other keys
are untouched and no binding is created. -/
def alset {κ α : Type} [DecidableEq κ] : List (κ × α) → κ → α → List (κ × α)
  | [], _, _ => []
  | e :: r, k, v => (if e.1 = k then (k, v) else e) :: alset r k v

/-- Association list update that inserts the binding when the key is
absent. -/
def alput {κ α : Type} [DecidableEq κ] (m : List (κ × α)) (k : κ) (v : α) :
    List (κ × α) :=
  if (alget m k).isSome then alset m k v else m ++ [(k, v)]

/-- Events recorded by the orchestrator operations: pin and unpin of a
chunk, payload allocation and release, and the two collectives. -/
inductive Event
  | pinE (cid : Nat)
  | unpinE (cid : Nat)
  | allocE (cid : Nat)
  | releaseE (cid : Nat)
  | gatherE (cids : List Nat)
  | reduceScatterE (cids : List Nat)
deriving DecidableEq

/-- Number of all-gather collectives in a trace. -/
def gatherCount (tr : List Event) : Nat :=
  (tr.filter (fun e => match e with | Event.gatherE _ => true | _ => false)).length

/-- Number of payload allocations in a trace. -/
def allocCount (tr : List Event) : Nat :=
  (tr.filter (fun e => match e with | Event.allocE _ => true | _ => false)).length

/-- Number of reduce-scatter collectives in a trace. -/
def reduceCount (tr : List Event) : Nat :=
  (tr.filter (fun e => match e with | Event.reduceScatterE _ => true | _ => false)).length

/-- The whole client state: the process configuration, the chunk
directory, the registered parameters, and the tensor-to-chunk index.
comm_inited models torch.distributed.is_initialized().  alloc_fill is a
model parameter: the unspecified contents of freshly allocated storage
(spec section 4.1 requires a first touch not to expose stale memory, so
fresh storage is deliberately not assumed to be zero). -/
structure ClientState where
  world_size : Nat
  rank : Nat
  local_rank : Nat
  comm_inited : Bool
  alloc_fill : Rat
  default_chunk_size : Nat
  chunks : List (Nat × Chunk)
  params : List (Nat × PSParam)
  tensor_id_to_info : List (Nat × TensorInfo)
  chunk_id_to_tensor_ids : List (Nat × List Nat)
  chunk_id_to_comm_group : List (Nat × List Nat)
  chunk_type_lists : List (ChunkType × List Nat)
  next_chunk_id : Nat
deriving DecidableEq

/-- Tensor id of a parameter slot, as assigned at registration: the data
and grad slots of one parameter get distinct global ids. -/
def tensor_id (pid : Nat) (acc : AccessType) : Nat :=
  2 * pid + (match acc with | AccessType.DATA => 0 | AccessType.GRAD => 1)

def getParam (st : ClientState) (pid : Nat) : Option PSParam :=
  alget st.params pid

def get_chunk (st : ClientState) (cid : Nat) : Option Chunk :=
  alget st.chunks cid

def setParam (st : ClientState) (pid : Nat) (p : PSParam) : ClientState :=
  { st with params := alset st.params pid p }

def setChunk (st : ClientState) (cid : Nat) (c : Chunk) : ClientState :=
  { st with chunks := alset st.chunks cid c }

/-- ChunkTensorIndex.get_chunk_id: chunk of the tensor slot of a param,
none when the slot was never registered in the index. -/
def get_chunk_id (st : ClientState) (pid : Nat) (acc : AccessType) : Option Nat :=
  (alget st.tensor_id_to_info (tensor_id pid acc)).map (fun i => i.chunk_id)

/-- ChunkTensorIndex.chunk_ids_of_comm_group: the ordered communication
group of a chunk, none when the chunk is unknown to the index. -/
def chunk_ids_of_comm_group (st : ClientState) (cid : Nat) : Option (List Nat) :=
  alget st.chunk_id_to_comm_group cid

def PSParam.get_status (p : PSParam) (acc : AccessType) : TensorStatus :=
  match acc with
  | AccessType.DATA => p.data_status
  | AccessType.GRAD => p.grad_status

def PSParam.set_status (p : PSParam) (s : TensorStatus) (acc : AccessType) : PSParam :=
  match acc with
  | AccessType.DATA => { p with data_status := s }
  | AccessType.GRAD => { p with grad_status := s }

def PSParam.set_tensor (p : PSParam) (v : Payload) (acc : AccessType) : PSParam :=
  match acc with
  | AccessType.DATA => { p with ps_data_tensor := some v }
  | AccessType.GRAD => { p with ps_grad_tensor := some v }

def PSParam.access_tensor (p : PSParam) (acc : AccessType) : Option Payload :=
  match acc with
  | AccessType.DATA => p.ps_data_tensor
  | AccessType.GRAD => p.ps_grad_tensor

/-- Modelled from the spec: ChunkTensorIndex.generate_tensor_info_in_order
— the registration records of the tensors mapped into a chunk, in
insertion order. -/
def chunk_tensor_infos (st : ClientState) (cid : Nat) : List TensorInfo :=
  ((alget st.chunk_id_to_tensor_ids cid).getD []).filterMap
    (fun tid => alget st.tensor_id_to_info tid)

/-- Status of the param slot a registration record points at. -/
def info_status (st : ClientState) (info : TensorInfo) : Option TensorStatus :=
  (getParam st info.param_id).map (fun p => p.get_status info.access_type)

/-- Statuses of all tensors mapped into a chunk. -/
def chunk_tensor_statuses (st : ClientState) (cid : Nat) : List TensorStatus :=
  (chunk_tensor_infos st cid).filterMap (fun i => info_status st i)

/-- Modelled from the spec: Chunk.get_status — RELEASED when the storage
handle is absent (spec section 3: storage is absent exactly when the
chunk is RELEASED or unallocated; section 9 notes a fully collapsed
chunk is observed as RELEASED); otherwise the least-idle aggregate of
the mapped tensor statuses: COMPUTE if any tensor computes, RELEASED
when all mapped tensors are RELEASED, then the hold variants, FREE when
nothing is held. -/
def chunk_get_status (st : ClientState) (cid : Nat) : Option ChunkStatus :=
  (get_chunk st cid).map (fun c =>
    match c.payload with
    | none => ChunkStatus.RELEASED
    | some _ =>
      let ss := chunk_tensor_statuses st cid
      if TensorStatus.COMPUTE ∈ ss then ChunkStatus.COMPUTE
      else if ss ≠ [] ∧ ∀ s ∈ ss, s = TensorStatus.RELEASED then ChunkStatus.RELEASED
      else if TensorStatus.HOLD ∈ ss then ChunkStatus.HOLD
      else if TensorStatus.HOLD_AFTER_FWD ∈ ss then ChunkStatus.HOLD_AFTER_FWD
      else if TensorStatus.HOLD_AFTER_BWD ∈ ss then ChunkStatus.HOLD_AFTER_BWD
      else ChunkStatus.FREE)

/-- Modelled from the spec: Chunk.all_tensor_status — true iff every
tensor mapped into the chunk has the given status. -/
def all_tensor_status (st : ClientState) (cid : Nat) (s : TensorStatus) : Bool :=
  decide (∀ t ∈ chunk_tensor_statuses st cid, t = s)

/-- Modelled from the spec: Chunk.is_dummy. -/
def chunk_is_dummy (st : ClientState) (cid : Nat) : Bool :=
  ((get_chunk st cid).map (fun c => c.is_dummy)).getD false

/-- Payload of a chunk, none when the chunk is unknown or unallocated. -/
def chunk_payload (st : ClientState) (cid : Nat) : Option Payload :=
  (get_chunk st cid).bind (fun c => c.payload)

/-- Pin count of a chunk. -/
def chunk_pin (st : ClientState) (cid : Nat) : Option Int :=
  (get_chunk st cid).map (fun c => c.pin_cnt)

/-- Modelled from the spec: Chunk.pin — increment the reference count
guarding the chunk against eviction and migration. -/
def pin_chunk (st : ClientState) (cid : Nat) : Except String ClientState :=
  match get_chunk st cid with
  | none => Except.error ("KeyError: chunk not found on pin")
  | some c => Except.ok (setChunk st cid { c with pin_cnt := c.pin_cnt + 1 })

/-- Modelled from the spec: Chunk.unpin — decrement the reference count. -/
def unpin_chunk (st : ClientState) (cid : Nat) : Except String ClientState :=
  match get_chunk st cid with
  | none => Except.error ("KeyError: chunk not found on unpin")
  | some c => Except.ok (setChunk st cid { c with pin_cnt := c.pin_cnt - 1 })

/-- Modelled from the spec: Chunk.allocate_payload — allocate storage of
the chunk capacity on the given device.  Fresh contents are the model
parameter alloc_fill (unspecified memory, not assumed zero). -/
def allocate_payload (st : ClientState) (cid : Nat) (dev : Device) :
    Except String ClientState :=
  match get_chunk st cid with
  | none => Except.error ("KeyError: chunk not found on allocate")
  | some c =>
      Except.ok (setChunk st cid
        { c with payload := some (List.replicate c.capacity st.alloc_fill),
                 device := dev })

/-- Modelled from the spec: Chunk.release_payload — free the storage. -/
def release_payload (st : ClientState) (cid : Nat) : Except String ClientState :=
  match get_chunk st cid with
  | none => Except.error ("KeyError: chunk not found on release")
  | some c => Except.ok (setChunk st cid { c with payload := none })

/-- Modelled from the spec: ChunkList.access_chunk / ensureResident (spec
section 4.2) — allocate absent storage on the device, otherwise migrate
the chunk to the device (contents preserved).  Device capacity is
modelled as always sufficient; the eviction policy is outside the claims
settled here. -/
def access_chunk (st : ClientState) (cid : Nat) (dev : Device) :
    Except String (ClientState × List Event) :=
  match get_chunk st cid with
  | none => Except.error ("KeyError: chunk not found on access_chunk")
  | some c =>
      match c.payload with
      | none =>
          (allocate_payload st cid dev).map (fun st2 => (st2, [Event.allocE cid]))
      | some _ =>
          if c.device = dev then Except.ok (st, [])
          else Except.ok (setChunk st cid { c with device := dev }, [])

/-- Modelled from the spec: ChunkList.update_status — the incremental
aggregate bookkeeping.  In this model the aggregate is recomputed from
the tensor statuses (the spec, section 9, records the counter form as a
performance redesign, not a behavior change), so the operation only
checks that the chunk exists, failing like the KeyError the Python
lookup would raise, including on a None chunk id. -/
def update_status (st : ClientState) (cid : Option Nat)
    (_old _new : TensorStatus) : Except String ClientState :=
  match cid with
  | none => Except.error ("KeyError: None chunk id in update_status")
  | some c =>
      if (get_chunk st c).isSome then Except.ok st
      else Except.error ("KeyError: chunk not found in update_status")

/-- One step of set_all_tensors_status_in_chunk: set the status of the
param slot one registration record points at (client.py lines 217-222;
the chunk aggregate update is derived in this model). -/
def set_one_tensor_status (st : ClientState) (info : TensorInfo)
    (s : TensorStatus) : ClientState :=
  match getParam st info.param_id with
  | none => st
  | some p => setParam st info.param_id (p.set_status s info.access_type)

def set_status_list (s : TensorStatus) : List TensorInfo → ClientState → ClientState
  | [], st => st
  | i :: r, st => set_status_list s r (set_one_tensor_status st i s)

/-- PatrickStarClient.set_all_tensors_status_in_chunk (client.py lines
210-222): set the status of every tensor mapped into the chunk.  The
iteration order is the index order; the record list is computed once, as
the Python generator iterates the index, which the loop never mutates. -/
def set_all_tensors_status_in_chunk (st : ClientState) (cid : Nat)
    (s : TensorStatus) : ClientState :=
  set_status_list s (chunk_tensor_infos st cid) st

/-- Torch narrow on a payload: the view of numel elements from
start_offset, an error when the range exceeds the storage. -/
def narrow (p : Payload) (start numel : Nat) : Except String Payload :=
  if start + numel ≤ p.length then Except.ok ((p.drop start).take numel)
  else Except.error ("narrow: range out of bounds")

/-- Zero-fill of the region of a payload backing one tensor. -/
def zero_region (p : Payload) (start numel : Nat) : Payload :=
  p.take start ++ List.replicate numel (0 : Rat) ++ p.drop (start + numel)

/-- First loop of PatrickStarClient._fetch_remote_chunks (client.py lines
276-287): for each chunk of the group, when it is not the local chunk,
prepare space (modelled as a no-op, devices being unbounded here),
allocate its payload on the compute device and pin it; in all cases mark
every tensor of the chunk HOLD.  The payload collection into the gather
buffer list is implicit: the buffers are the group chunk payloads. -/
def fetch_alloc_loop (dev : Device) (local_chunk_id : Nat) :
    List Nat → ClientState → Except String (ClientState × List Event)
  | [], st => Except.ok (st, [])
  | cid :: rest, st =>
      if cid = local_chunk_id then
        (fetch_alloc_loop dev local_chunk_id rest
            (set_all_tensors_status_in_chunk st cid TensorStatus.HOLD))
      else
        match allocate_payload st cid dev with
        | Except.error e => Except.error e
        | Except.ok st1 =>
            match pin_chunk st1 cid with
            | Except.error e => Except.error e
            | Except.ok st2 =>
                (fetch_alloc_loop dev local_chunk_id rest
                    (set_all_tensors_status_in_chunk st2 cid
                      TensorStatus.HOLD)).map
                  (fun r => (r.1, Event.allocE cid :: Event.pinE cid :: r.2))

/-- Second loop of PatrickStarClient._fetch_remote_chunks (client.py
lines 291-292): unpin every chunk of the group — the local chunk
included, and before the all-gather is issued. -/
def unpin_loop : List Nat → ClientState → Except String (ClientState × List Event)
  | [], st => Except.ok (st, [])
  | cid :: rest, st =>
      match unpin_chunk st cid with
      | Except.error e => Except.error e
      | Except.ok st1 =>
          (unpin_loop rest st1).map (fun r => (r.1, Event.unpinE cid :: r.2))

/-- Modelled from the spec: the effect of torch.distributed.all_gather on
the buffer list (spec section 6 and glossary) — buffer j receives the
local shard of rank j.  gather_data lists, per group position, the data
the collective delivers; the buffer at the local position receives this
process own input, so the local chunk payload is left unchanged. -/
def all_gather_write (local_chunk_id : Nat) :
    List Nat → List Payload → ClientState → Except String ClientState
  | [], _, st => Except.ok st
  | _ :: _, [], _ => Except.error ("all_gather: buffer list size mismatch")
  | cid :: rest, d :: drest, st =>
      if cid = local_chunk_id then all_gather_write local_chunk_id rest drest st
      else
        match get_chunk st cid with
        | none => Except.error ("KeyError: chunk not found in all_gather")
        | some c =>
            all_gather_write local_chunk_id rest drest
              (setChunk st cid { c with payload := some d })

/-- PatrickStarClient._fetch_remote_chunks (client.py lines 235-313).
The all-gather is issued iff some chunk of the group has aggregate
status RELEASED; otherwise the call returns at once.  When it runs, the
remote chunks are allocated and pinned and every group tensor is marked
HOLD, then every group chunk is unpinned, the communication layer is
asserted initialized, and the all-gather fills the buffers.  The code
also reads the element count of the first buffer for the traffic
counter, which fails on an absent payload, hence the payload presence
check before the collective. -/
def fetch_remote_chunks (st : ClientState) (chunk_id_list : List Nat)
    (local_chunk_id : Nat) (dev : Device) (gather_data : List Payload) :
    Except String (ClientState × List Event) :=
  if chunk_id_list.any
      (fun c => decide (chunk_get_status st c = some ChunkStatus.RELEASED)) then
    match fetch_alloc_loop dev local_chunk_id chunk_id_list st with
    | Except.error e => Except.error e
    | Except.ok (st1, ev1) =>
        if chunk_id_list.all (fun c => (chunk_payload st1 c).isSome) then
          match unpin_loop chunk_id_list st1 with
          | Except.error e => Except.error e
          | Except.ok (st2, ev2) =>
              if st.comm_inited then
                match all_gather_write local_chunk_id chunk_id_list gather_data st2 with
                | Except.error e => Except.error e
                | Except.ok st3 =>
                    Except.ok (st3, ev1 ++ ev2 ++ [Event.gatherE chunk_id_list])
              else Except.error ("torch distributed is not initialized during allgather")
        else Except.error ("AttributeError: payload absent before allgather")
  else Except.ok (st, [])

/-- Group phase of PatrickStarClient.access_dist (client.py lines
352-377): with more than one process, resolve the communication group
and the local chunk, make the local chunk resident, pin it, fetch the
remote chunks, then unpin the local chunk; with one process, do
nothing. -/
def access_dist_group (st : ClientState) (cid : Nat) (dev : Device)
    (gather_data : List Payload) : Except String (ClientState × List Event) :=
  if st.world_size > 1 then
    match chunk_ids_of_comm_group st cid with
    | none => Except.error ("KeyError: chunk has no comm group")
    | some chunk_id_list =>
        match chunk_id_list.get? st.rank with
        | none => Except.error ("IndexError: no local chunk at rank")
        | some local_chunk_id =>
            match access_chunk st local_chunk_id dev with
            | Except.error e => Except.error e
            | Except.ok (st1, ev1) =>
                match pin_chunk st1 local_chunk_id with
                | Except.error e => Except.error e
                | Except.ok st2 =>
                    match fetch_remote_chunks st2 chunk_id_list local_chunk_id
                        dev gather_data with
                    | Except.error e => Except.error e
                    | Except.ok (st3, ev3) =>
                        match unpin_chunk st3 local_chunk_id with
                        | Except.error e => Except.error e
                        | Except.ok st4 =>
                            Except.ok (st4,
                              ev1 ++ [Event.pinE local_chunk_id] ++ ev3 ++
                                [Event.unpinE local_chunk_id])
  else Except.ok (st, [])

/-- Steps 2 and 3 shared verbatim by PatrickStarClient.access (client.py
lines 479-504) and PatrickStarClient.access_dist (lines 393-420): locate
the tensor on the chunk, check the registered length against the param,
install the narrowed view, zero-fill the region when the previous status
of the slot was FREE, transition the slot to COMPUTE and return the
view.  The param is re-read from the state because the group phase of
the distributed variant may have changed its status. -/
def access_payload_step (st1 : ClientState) (pid : Nat) (acc : AccessType)
    (cid : Nat) : Except String (ClientState × Option Payload) :=
  match getParam st1 pid with
  | none => Except.error ("KeyError: param not registered")
  | some p =>
      match alget st1.tensor_id_to_info (tensor_id pid acc) with
      | none => Except.error ("KeyError: tensor info not found")
      | some info =>
          if info.numel ≠ p.numel then
            Except.error ("AssertionError: numel mismatch")
          else
            match get_chunk st1 cid with
            | none => Except.error ("KeyError: chunk not found")
            | some c =>
                match c.payload with
                | none => Except.error ("AttributeError: payload is None")
                | some pay =>
                    match narrow pay info.start_offset info.numel with
                    | Except.error e => Except.error e
                    | Except.ok view0 =>
                        let p1 := p.set_tensor view0 acc
                        let st2 := setParam st1 pid p1
                        let old := p1.get_status acc
                        if old = TensorStatus.FREE then
                          let pay2 := zero_region pay info.start_offset info.numel
                          let st3 := setChunk st2 cid { c with payload := some pay2 }
                          match update_status st3 (some cid) old TensorStatus.COMPUTE with
                          | Except.error e => Except.error e
                          | Except.ok st4 =>
                              let p3 :=
                                (p1.set_tensor
                                  (List.replicate info.numel (0 : Rat)) acc).set_status
                                  TensorStatus.COMPUTE acc
                              Except.ok (setParam st4 pid p3, p3.access_tensor acc)
                        else
                          match update_status st2 (some cid) old TensorStatus.COMPUTE with
                          | Except.error e => Except.error e
                          | Except.ok st4 =>
                              let p3 := p1.set_status TensorStatus.COMPUTE acc
                              Except.ok (setParam st4 pid p3, p3.access_tensor acc)

/-- PatrickStarClient.access (client.py lines 422-504), the
non-distributed visit: registration check, the torch-based short
circuit, chunk lookup with the no-chunk fatal error, ensure residency,
then the shared locate-and-compute step. -/
def access (st : ClientState) (pid : Nat) (acc : AccessType) (dev : Device) :
    Except String (ClientState × Option Payload × List Event) :=
  match getParam st pid with
  | none => Except.error ("AssertionError: client shall not access tensor not registered for PatrickStar")
  | some p =>
      if p.param_type = ParamType.TORCH_BASED then
        match acc with
        | AccessType.DATA => Except.ok (st, some p.data, [])
        | AccessType.GRAD => Except.ok (st, p.grad, [])
      else
        match get_chunk_id st pid acc with
        | none => Except.error ("RuntimeError: FP16 training shall not meet tensors with no chunk assigned")
        | some cid =>
            match access_chunk st cid dev with
            | Except.error e => Except.error e
            | Except.ok (st1, ev1) =>
                match access_payload_step st1 pid acc cid with
                | Except.error e => Except.error e
                | Except.ok (st5, v) => Except.ok (st5, v, ev1)

/-- PatrickStarClient.access_dist (client.py lines 315-420), the
distributed visit: registration check, the torch-based short circuit,
chunk lookup (a missing registration record fails at its first use,
as the Python None would), the group phase, ensure residency of the
requested chunk, the payload presence and device assertions, then the
shared locate-and-compute step. -/
def access_dist (st : ClientState) (pid : Nat) (acc : AccessType) (dev : Device)
    (gather_data : List Payload) :
    Except String (ClientState × Option Payload × List Event) :=
  match getParam st pid with
  | none => Except.error ("AssertionError: client can only access_dist tensor registered for PatrickStar")
  | some p =>
      if p.param_type = ParamType.TORCH_BASED then
        match acc with
        | AccessType.DATA => Except.ok (st, some p.data, [])
        | AccessType.GRAD => Except.ok (st, p.grad, [])
      else
        match get_chunk_id st pid acc with
        | none => Except.error ("KeyError: tensor has no chunk assigned")
        | some cid =>
            match access_dist_group st cid dev gather_data with
            | Except.error e => Except.error e
            | Except.ok (stg, evg) =>
                match access_chunk stg cid dev with
                | Except.error e => Except.error e
                | Except.ok (st1, ev1) =>
                    match get_chunk st1 cid with
                    | none => Except.error ("KeyError: chunk not found")
                    | some c =>
                        match c.payload with
                        | none => Except.error ("AssertionError: chunk payload is None")
                        | some _ =>
                            if c.device ≠ dev then
                              Except.error ("AssertionError: chunk payload is not on compute device")
                            else
                              match access_payload_step st1 pid acc cid with
                              | Except.error e => Except.error e
                              | Except.ok (st5, v) => Except.ok (st5, v, evg ++ ev1)

/-- Detach of the framework-visible view on release (client.py lines
690-697 and 573-580): a data release turns param.data into an empty
placeholder tensor, a grad release sets param.grad to None. -/
def detach_view (p : PSParam) (acc : AccessType) : PSParam :=
  match acc with
  | AccessType.DATA => { p with data := [] }
  | AccessType.GRAD => { p with grad := none }

/-- PatrickStarClient.release (client.py lines 652-700), the standalone
release: torch-based short circuit, status transition of the tensor and
of the chunk aggregate, then view detach.  The chunk payload is not
touched. -/
def release (st : ClientState) (pid : Nat) (acc : AccessType)
    (reset_to : TensorStatus) : Except String (ClientState × List Event) :=
  match getParam st pid with
  | none => Except.error ("AttributeError: param has no ps_attr")
  | some p =>
      if p.param_type = ParamType.TORCH_BASED then Except.ok (st, [])
      else
        match update_status st (get_chunk_id st pid acc) (p.get_status acc) reset_to with
        | Except.error e => Except.error e
        | Except.ok st1 =>
            let p2 := detach_view (p.set_status reset_to acc) acc
            Except.ok (setParam st1 pid p2, [])

/-- Stage-appropriate hold status of the group-collapse condition in
release_dist (client.py lines 589-606). -/
def group_ready (st : ClientState) (chunk_id_list : List Nat)
    (stage : TrainingStage) : Bool :=
  chunk_id_list.all (fun i =>
    match stage with
    | TrainingStage.FWD =>
        all_tensor_status st i TensorStatus.HOLD_AFTER_FWD || chunk_is_dummy st i
    | TrainingStage.BWD =>
        all_tensor_status st i TensorStatus.HOLD_AFTER_BWD || chunk_is_dummy st i
    | TrainingStage.ADAM => true)

/-- Modelled from the spec: torch.distributed.reduce_scatter with
ReduceOp.SUM (spec section 6 and glossary) — the local output receives
the element-wise sum of the corresponding shards; in this one-process
embedding the shards are the group chunk payloads this process passes
as the input list. -/
def reduce_scatter_sum : List Payload → Payload
  | [] => []
  | h :: t => t.foldl (fun a b => List.zipWith (fun x y => x + y) a b) h

/-- Reduce loop of PatrickStarClient.release_dist (client.py lines
615-621): make each group chunk resident on the cuda device of the
local rank, pin it, and collect its payload as reduce-scatter input, in
group order. -/
def reduce_collect_loop (dev : Device) :
    List Nat → ClientState → Except String (ClientState × List Event × List Payload)
  | [], st => Except.ok (st, [], [])
  | cid :: rest, st =>
      match access_chunk st cid dev with
      | Except.error e => Except.error e
      | Except.ok (st1, ev1) =>
          match pin_chunk st1 cid with
          | Except.error e => Except.error e
          | Except.ok st2 =>
              match chunk_payload st2 cid with
              | none => Except.error ("AttributeError: payload is None in reduce input")
              | some pay =>
                  (reduce_collect_loop dev rest st2).map
                    (fun r => (r.1, ev1 ++ [Event.pinE cid] ++ r.2.1, pay :: r.2.2))

/-- Removal loop of PatrickStarClient.release_dist (client.py lines
642-647): unpin every group chunk; for each non-local chunk release its
payload and force every tensor mapped into it to FREE. -/
def remote_remove_loop (local_chunk_id : Nat) :
    List Nat → ClientState → Except String (ClientState × List Event)
  | [], st => Except.ok (st, [])
  | cid :: rest, st =>
      match unpin_chunk st cid with
      | Except.error e => Except.error e
      | Except.ok st1 =>
          if cid = local_chunk_id then
            (remote_remove_loop local_chunk_id rest st1).map
              (fun r => (r.1, Event.unpinE cid :: r.2))
          else
            match release_payload st1 cid with
            | Except.error e => Except.error e
            | Except.ok st2 =>
                (remote_remove_loop local_chunk_id rest
                    (set_all_tensors_status_in_chunk st2 cid
                      TensorStatus.FREE)).map
                  (fun r => (r.1, Event.unpinE cid :: Event.releaseE cid :: r.2))

/-- Write of the reduce-scatter output and its averaging (client.py lines
622-629): the local chunk payload becomes the element-wise sum of the
inputs, then is divided by the process count. -/
def reduce_write_local (st : ClientState) (local_chunk_id : Nat)
    (inputs : List Payload) : Except String ClientState :=
  match get_chunk st local_chunk_id with
  | none => Except.error ("KeyError: local chunk not found")
  | some c =>
      let summed := reduce_scatter_sum inputs
      let avg := summed.map (fun x => x / (st.world_size : Rat))
      Except.ok (setChunk st local_chunk_id { c with payload := some avg })

/-- PatrickStarClient.release_dist (client.py lines 517-650), the
distributed release: torch-based short circuit, the stage and
communication-layer assertions, resolution of the chunk, its group and
the local chunk, the status transition and view detach, and — with more
than one process — the group-collapse check: when every non-dummy group
chunk has all tensors at the stage hold status, optionally reduce then
release every remote payload and free its tensors. -/
def release_dist (st : ClientState) (pid : Nat) (acc : AccessType)
    (reset_to : TensorStatus) (stage : TrainingStage) (is_allreduce : Bool) :
    Except String (ClientState × List Event) :=
  match getParam st pid with
  | none => Except.error ("AttributeError: param has no ps_attr")
  | some p =>
      if p.param_type = ParamType.TORCH_BASED then Except.ok (st, [])
      else if stage ≠ TrainingStage.FWD ∧ stage ≠ TrainingStage.BWD then
        Except.error ("AssertionError: training stage")
      else if st.comm_inited = false then
        Except.error ("AssertionError: torch.distributed is not initialized")
      else
        match get_chunk_id st pid acc with
        | none => Except.error ("KeyError: tensor has no chunk assigned")
        | some cid =>
            match chunk_ids_of_comm_group st cid with
            | none => Except.error ("KeyError: chunk has no comm group")
            | some chunk_id_list =>
                match chunk_id_list.get? st.rank with
                | none => Except.error ("IndexError: no local chunk at rank")
                | some local_chunk_id =>
                    match update_status st (some cid) (p.get_status acc) reset_to with
                    | Except.error e => Except.error e
                    | Except.ok st1 =>
                        let p2 := detach_view (p.set_status reset_to acc) acc
                        let st2 := setParam st1 pid p2
                        if st.world_size > 1 then
                          if group_ready st2 chunk_id_list stage then
                            match
                              (if is_allreduce then
                                match chunk_payload st2 local_chunk_id with
                                | none => Except.error ("AssertionError: local payload is None")
                                | some _ =>
                                    match reduce_collect_loop
                                        (Device.cuda st.local_rank)
                                        chunk_id_list st2 with
                                    | Except.error e => Except.error e
                                    | Except.ok (sA, evA, inputs) =>
                                        match reduce_write_local sA local_chunk_id inputs with
                                        | Except.error e => Except.error e
                                        | Except.ok sB =>
                                            Except.ok (sB,
                                              evA ++ [Event.reduceScatterE chunk_id_list])
                              else Except.ok (st2, [])) with
                            | Except.error e => Except.error e
                            | Except.ok (st3, ev3) =>
                                match remote_remove_loop local_chunk_id chunk_id_list st3 with
                                | Except.error e => Except.error e
                                | Except.ok (st4, ev4) => Except.ok (st4, ev3 ++ ev4)
                          else Except.ok (st2, [])
                        else Except.ok (st2, [])

/-- Chunk ids of one category, in creation order (ChunkList bookkeeping,
modelled from the spec). -/
def chunk_ids_of_type (st : ClientState) (ct : ChunkType) : List Nat :=
  (alget st.chunk_type_lists ct).getD []

/-- PatrickStarClient.append_chunk (client.py lines 67-92).  The callees
generate_chunk_id, new_chunk and add_chunk are modelled from the spec:
bookkeeping (no storage) for a fresh chunk of the default chunk size,
appended to its category list and assigned to a communication group —
groups of the same category are filled round-robin across processes, so
consecutive chunks of one category form groups of world_size members
(spec section 4.2).  Returns the new state and the new chunk id. -/
def append_chunk (st : ClientState) (ct : ChunkType) (dummy : Bool) :
    ClientState × Nat :=
  let cid := st.next_chunk_id
  let tl := chunk_ids_of_type st ct
  let ws := max st.world_size 1
  let g := tl.length / ws
  let started := tl.drop (g * ws)
  let members := started ++ [cid]
  let c : Chunk :=
    { capacity := st.default_chunk_size, is_dummy := dummy,
      payload := none, device := Device.cpu, pin_cnt := 0 }
  let cg := (st.chunk_id_to_comm_group.map
      (fun e => if e.1 ∈ started then (e.1, members) else e)) ++ [(cid, members)]
  ({ st with
      chunks := st.chunks ++ [(cid, c)],
      chunk_id_to_tensor_ids := st.chunk_id_to_tensor_ids ++ [(cid, [])],
      chunk_id_to_comm_group := cg,
      chunk_type_lists := alput st.chunk_type_lists ct (tl ++ [cid]),
      next_chunk_id := cid + 1 }, cid)

/-- End offset of the occupied span of a chunk: tensors are laid out
contiguously, so the remaining space starts after the last mapped
tensor (ChunkTensorIndex bookkeeping, modelled from the spec). -/
def chunk_end_offset (st : ClientState) (cid : Nat) : Nat :=
  (chunk_tensor_infos st cid).foldl (fun a i => max a (i.start_offset + i.numel)) 0

/-- Total element count of a param list; none when some param is not
registered. -/
def total_param_numel (st : ClientState) : List Nat → Option Nat
  | [] => some 0
  | pid :: rest =>
      match getParam st pid, total_param_numel st rest with
      | some p, some n => some (p.numel + n)
      | _, _ => none

/-- Registration records for laying a param list out contiguously and in
order starting at a given offset. -/
def insert_layout (st : ClientState) (cid : Nat) (acc : AccessType) :
    List Nat → Nat → List (Nat × TensorInfo)
  | [], _ => []
  | pid :: rest, off =>
      match getParam st pid with
      | none => insert_layout st cid acc rest off
      | some p =>
          (tensor_id pid acc,
            { chunk_id := cid, start_offset := off, numel := p.numel,
              param_id := pid, access_type := acc }) ::
            insert_layout st cid acc rest (off + p.numel)

/-- Modelled from the spec: ChunkTensorIndex.try_insert_tensor_list (spec
section 4.3, tryInsert) — append the whole param list into the remaining
space of the chunk, contiguously and in order; return false with no
mutation at all when the total size does not fit. -/
def try_insert_tensor_list (st : ClientState) (cid : Nat) (pids : List Nat)
    (acc : AccessType) : Except String (Bool × ClientState) :=
  match get_chunk st cid with
  | none => Except.error ("KeyError: chunk not found on insert")
  | some c =>
      match total_param_numel st pids with
      | none => Except.error ("AttributeError: unregistered param in insert")
      | some tot =>
          let endoff := chunk_end_offset st cid
          if endoff + tot ≤ c.capacity then
            let tids := pids.map (fun pid => tensor_id pid acc)
            let old_list := (alget st.chunk_id_to_tensor_ids cid).getD []
            Except.ok (true,
              { st with
                  tensor_id_to_info :=
                    st.tensor_id_to_info ++ insert_layout st cid acc pids endoff,
                  chunk_id_to_tensor_ids :=
                    alput st.chunk_id_to_tensor_ids cid (old_list ++ tids) })
          else Except.ok (false, st)

/-- Fallback path of PatrickStarClient.append_tensor (client.py lines
155-163): create a fresh chunk of the category and insert the whole
list into it; failing even there is the fatal configuration error. -/
def append_tensor_new_chunk (st : ClientState) (pids : List Nat)
    (acc : AccessType) (ct : ChunkType) : Except String ClientState :=
  let r := append_chunk st ct false
  match try_insert_tensor_list r.1 r.2 pids acc with
  | Except.error e => Except.error e
  | Except.ok (ok2, st2) =>
      if ok2 then Except.ok st2
      else Except.error ("RuntimeError: can not append a tensor to chunk_tensor_index, overall size of param list is larger than the default chunk size")

/-- PatrickStarClient.append_tensor (client.py lines 129-163): try the
last chunk of the category first; when the category is empty or the
list does not fit there, create a new chunk and insert the whole list
into it, raising the fatal error when even the fresh chunk is too
small. -/
def append_tensor (st : ClientState) (pids : List Nat) (acc : AccessType)
    (ct : ChunkType) : Except String ClientState :=
  match (chunk_ids_of_type st ct).getLast? with
  | some last_chunk_id =>
      match try_insert_tensor_list st last_chunk_id pids acc with
      | Except.error e => Except.error e
      | Except.ok (ok1, st1) =>
          if ok1 then Except.ok st1
          else append_tensor_new_chunk st pids acc ct
  | none => append_tensor_new_chunk st pids acc ct

/-!  Concrete states used to instantiate the theorems below: a two
process configuration with one communication group of two chunks, and a
standalone configuration. -/

/-- A resident local chunk of capacity 4. -/
def chunkA : Chunk :=
  { capacity := 4, is_dummy := false, payload := some [1, 2, 3, 4],
    device := Device.cpu, pin_cnt := 0 }

/-- A released remote chunk of capacity 4. -/
def chunkB : Chunk :=
  { capacity := 4, is_dummy := false, payload := none,
    device := Device.cpu, pin_cnt := 0 }

/-- A chunk-based registered parameter of two elements, both slots FREE. -/
def paramA : PSParam :=
  { param_type := ParamType.CHUNK_BASED, numel := 2,
    data_status := TensorStatus.FREE, grad_status := TensorStatus.FREE,
    ps_data_tensor := none, ps_grad_tensor := none, data := [], grad := none }

/-- A chunk-based registered parameter of four elements. -/
def paramB : PSParam :=
  { param_type := ParamType.CHUNK_BASED, numel := 4,
    data_status := TensorStatus.FREE, grad_status := TensorStatus.FREE,
    ps_data_tensor := none, ps_grad_tensor := none, data := [], grad := none }

/-- A torch-based parameter. -/
def paramT : PSParam :=
  { param_type := ParamType.TORCH_BASED, numel := 2,
    data_status := TensorStatus.FREE, grad_status := TensorStatus.FREE,
    ps_data_tensor := none, ps_grad_tensor := none,
    data := [10, 20], grad := some [30, 40] }

/-- Data-slot registration record. -/
def mkInfo (cid off n pid : Nat) : TensorInfo :=
  { chunk_id := cid, start_offset := off, numel := n,
    param_id := pid, access_type := AccessType.DATA }

/-- Two processes, rank 0; chunk 0 is local and resident with params 0
and 1 mapped in, chunk 1 is the remote group member, released, with
param 2 mapped in; both form communication group [0, 1]. -/
def S2 : ClientState :=
  { world_size := 2, rank := 0, local_rank := 0, comm_inited := true,
    alloc_fill := 7, default_chunk_size := 4,
    chunks := [(0, chunkA), (1, chunkB)],
    params := [(0, paramA), (1, paramA), (2, paramB), (9, paramT)],
    tensor_id_to_info :=
      [(0, mkInfo 0 0 2 0), (2, mkInfo 0 2 2 1), (4, mkInfo 1 0 4 2)],
    chunk_id_to_tensor_ids := [(0, [0, 2]), (1, [4])],
    chunk_id_to_comm_group := [(0, [0, 1]), (1, [0, 1])],
    chunk_type_lists := [(ChunkType.PARAM_FP16, [0, 1])],
    next_chunk_id := 2 }

/-- One process; chunk 0 resident with params 0 and 1 mapped in. -/
def S1 : ClientState :=
  { world_size := 1, rank := 0, local_rank := 0, comm_inited := true,
    alloc_fill := 7, default_chunk_size := 4,
    chunks := [(0, chunkA)],
    params := [(0, paramA), (1, paramA), (9, paramT)],
    tensor_id_to_info := [(0, mkInfo 0 0 2 0), (2, mkInfo 0 2 2 1)],
    chunk_id_to_tensor_ids := [(0, [0, 2])],
    chunk_id_to_comm_group := [(0, [0])],
    chunk_type_lists := [(ChunkType.PARAM_FP16, [0])],
    next_chunk_id := 1 }

/-- S1 with one more registered chunk-based parameter (id 5) that has no
registration record in the tensor index: a chunk-less tensor. -/
def S1c : ClientState :=
  { S1 with params := S1.params ++ [(5, paramA)] }

/-- paramA with the data slot at HOLD. -/
def paramH : PSParam :=
  { paramA with data_status := TensorStatus.HOLD }

/-- S1 with param 1 holding valid data (data slot HOLD). -/
def S1h : ClientState :=
  { S1 with params := [(0, paramA), (1, paramH), (9, paramT)] }

/-- A registration state: one chunk (id 0, capacity 4) of category
PARAM_FP16 half occupied by one two-element tensor, and registered
params 5, 6 and 7 of two elements each not yet inserted anywhere. -/
def S6 : ClientState :=
  { S1 with
      params := [(0, paramA), (5, paramA), (6, paramA), (7, paramA)],
      tensor_id_to_info := [(0, mkInfo 0 0 2 0)],
      chunk_id_to_tensor_ids := [(0, [0])] }

/-- A resident remote chunk with payload [5, 6, 7, 8]. -/
def chunkC1 : Chunk :=
  { capacity := 4, is_dummy := false, payload := some [5, 6, 7, 8],
    device := Device.cpu, pin_cnt := 0 }

/-- A chunk-based two-element parameter whose data slot is at COMPUTE. -/
def paramC : PSParam :=
  { param_type := ParamType.CHUNK_BASED, numel := 2,
    data_status := TensorStatus.COMPUTE, grad_status := TensorStatus.FREE,
    ps_data_tensor := none, ps_grad_tensor := none, data := [1, 2], grad := none }

/-- A chunk-based two-element parameter held after the backward pass. -/
def paramHB2 : PSParam :=
  { paramC with data_status := TensorStatus.HOLD_AFTER_BWD, data := [] }

/-- A chunk-based four-element parameter held after the backward pass. -/
def paramHB4 : PSParam :=
  { param_type := ParamType.CHUNK_BASED, numel := 4,
    data_status := TensorStatus.HOLD_AFTER_BWD, grad_status := TensorStatus.FREE,
    ps_data_tensor := none, ps_grad_tensor := none, data := [], grad := none }

/-- Two processes at the end of a backward pass: local chunk 0 resident
with params 0 (just computed) and 1 held after backward, remote chunk 1
resident with param 2 held after backward; both chunks in communication
group [0, 1]. -/
def S7 : ClientState :=
  { world_size := 2, rank := 0, local_rank := 0, comm_inited := true,
    alloc_fill := 7, default_chunk_size := 4,
    chunks := [(0, chunkA), (1, chunkC1)],
    params := [(0, paramC), (1, paramHB2), (2, paramHB4)],
    tensor_id_to_info :=
      [(0, mkInfo 0 0 2 0), (2, mkInfo 0 2 2 1), (4, mkInfo 1 0 4 2)],
    chunk_id_to_tensor_ids := [(0, [0, 2]), (1, [4])],
    chunk_id_to_comm_group := [(0, [0, 1]), (1, [0, 1])],
    chunk_type_lists := [(ChunkType.PARAM_FP16, [0, 1])],
    next_chunk_id := 2 }

/-- Result selectors, to state closed facts about the operations without
spelling out whole result states. -/
def resState2 (r : Except String (ClientState × List Event)) :
    Option ClientState :=
  match r with
  | Except.ok x => some x.1
  | Except.error _ => none

def resTrace2 (r : Except String (ClientState × List Event)) : List Event :=
  match r with
  | Except.ok x => x.2
  | Except.error _ => []

def resState3 (r : Except String (ClientState × Option Payload × List Event)) :
    Option ClientState :=
  match r with
  | Except.ok x => some x.1
  | Except.error _ => none

def resValue3 (r : Except String (ClientState × Option Payload × List Event)) :
    Option Payload :=
  match r with
  | Except.ok x => x.2.1
  | Except.error _ => none

def resTrace3 (r : Except String (ClientState × Option Payload × List Event)) :
    List Event :=
  match r with
  | Except.ok x => x.2.2
  | Except.error _ => []

/-- Two states that agree on everything except the chunk storage map and
the param map: the process configuration and the whole registration
index coincide.  All access and release operations preserve this
relation — the registration index is never modified by them. -/
def SameCfg (a b : ClientState) : Prop :=
  a.world_size = b.world_size ∧ a.rank = b.rank ∧ a.local_rank = b.local_rank ∧
  a.comm_inited = b.comm_inited ∧ a.alloc_fill = b.alloc_fill ∧
  a.default_chunk_size = b.default_chunk_size ∧
  a.tensor_id_to_info = b.tensor_id_to_info ∧
  a.chunk_id_to_tensor_ids = b.chunk_id_to_tensor_ids ∧
  a.chunk_id_to_comm_group = b.chunk_id_to_comm_group ∧
  a.chunk_type_lists = b.chunk_type_lists ∧
  a.next_chunk_id = b.next_chunk_id

/-!  Lemma layer: association lists, frame facts about the state
primitives, and postconditions of the residency and status helpers. -/

theorem alget_alset_self {κ α : Type} [DecidableEq κ] (m : List (κ × α))
    (k : κ) (v : α) (w : α) (h : alget m k = some w) :
    alget (alset m k v) k = some v := by
  induction m with
  | nil => simp [alget] at h
  | cons e r ih =>
      by_cases he : e.1 = k
      · simp [alget, alset, he]
      · simp [alget, alset, he] at h ⊢
        exact ih h

theorem alget_alset_ne {κ α : Type} [DecidableEq κ] (m : List (κ × α))
    (k k2 : κ) (v : α) (h : k2 ≠ k) :
    alget (alset m k v) k2 = alget m k2 := by
  induction m with
  | nil => simp [alget, alset]
  | cons e r ih =>
      by_cases he : e.1 = k
      · have hk : ¬(k = k2) := fun hh => h hh.symm
        simp [alget, alset, he, hk, ih]
      · simp [alget, alset, he, ih]

theorem alget_append_right {κ α : Type} [DecidableEq κ] (m l : List (κ × α))
    (k : κ) (h : alget m k = none) :
    alget (m ++ l) k = alget l k := by
  induction m with
  | nil => simp
  | cons e r ih =>
      by_cases he : e.1 = k
      · simp [alget, he] at h
      · simp [alget, he] at h ⊢
        exact ih h

theorem alget_append_left {κ α : Type} [DecidableEq κ] (m l : List (κ × α))
    (k : κ) (w : α) (h : alget m k = some w) :
    alget (m ++ l) k = some w := by
  induction m with
  | nil => simp [alget] at h
  | cons e r ih =>
      by_cases he : e.1 = k
      · simp [alget, he] at h ⊢
        exact h
      · simp [alget, he] at h ⊢
        exact ih h

theorem sameCfg_refl (a : ClientState) : SameCfg a a :=
  ⟨rfl, rfl, rfl, rfl, rfl, rfl, rfl, rfl, rfl, rfl, rfl⟩

theorem sameCfg_trans {a b c : ClientState}
    (h1 : SameCfg a b) (h2 : SameCfg b c) : SameCfg a c := by
  obtain ⟨x1, x2, x3, x4, x5, x6, x7, x8, x9, x10, x11⟩ := h1
  obtain ⟨y1, y2, y3, y4, y5, y6, y7, y8, y9, y10, y11⟩ := h2
  exact ⟨x1.trans y1, x2.trans y2, x3.trans y3, x4.trans y4, x5.trans y5,
    x6.trans y6, x7.trans y7, x8.trans y8, x9.trans y9, x10.trans y10,
    x11.trans y11⟩

theorem sameCfg_setChunk (st : ClientState) (cid : Nat) (c : Chunk) :
    SameCfg (setChunk st cid c) st :=
  ⟨rfl, rfl, rfl, rfl, rfl, rfl, rfl, rfl, rfl, rfl, rfl⟩

theorem sameCfg_setParam (st : ClientState) (pid : Nat) (p : PSParam) :
    SameCfg (setParam st pid p) st :=
  ⟨rfl, rfl, rfl, rfl, rfl, rfl, rfl, rfl, rfl, rfl, rfl⟩

theorem getParam_setChunk (st : ClientState) (cid : Nat) (c : Chunk)
    (pid : Nat) : getParam (setChunk st cid c) pid = getParam st pid := rfl

theorem get_chunk_setParam (st : ClientState) (pid : Nat) (p : PSParam)
    (cid : Nat) : get_chunk (setParam st pid p) cid = get_chunk st cid := rfl

theorem get_chunk_setChunk_self (st : ClientState) (cid : Nat) (c c0 : Chunk)
    (h : get_chunk st cid = some c0) :
    get_chunk (setChunk st cid c) cid = some c :=
  alget_alset_self st.chunks cid c c0 h

theorem get_chunk_setChunk_ne (st : ClientState) (cid c2 : Nat) (c : Chunk)
    (h : c2 ≠ cid) :
    get_chunk (setChunk st cid c) c2 = get_chunk st c2 :=
  alget_alset_ne st.chunks cid c2 c h

theorem getParam_setParam_self (st : ClientState) (pid : Nat) (p p0 : PSParam)
    (h : getParam st pid = some p0) :
    getParam (setParam st pid p) pid = some p :=
  alget_alset_self st.params pid p p0 h

theorem getParam_setParam_ne (st : ClientState) (pid q : Nat) (p : PSParam)
    (h : q ≠ pid) :
    getParam (setParam st pid p) q = getParam st q :=
  alget_alset_ne st.params pid q p h

theorem update_status_ok (st : ClientState) (cid : Option Nat)
    (o n : TensorStatus) (st1 : ClientState)
    (h : update_status st cid o n = Except.ok st1) : st1 = st := by
  cases cid with
  | none => simp [update_status] at h
  | some c =>
      by_cases hc : (get_chunk st c).isSome
      · simp [update_status, hc] at h
        exact h.symm
      · simp [update_status, hc] at h

theorem pin_chunk_ok (st : ClientState) (cid : Nat) (st1 : ClientState)
    (h : pin_chunk st cid = Except.ok st1) :
    ∃ c, get_chunk st cid = some c ∧
      st1 = setChunk st cid { c with pin_cnt := c.pin_cnt + 1 } := by
  cases hc : get_chunk st cid with
  | none => simp [pin_chunk, hc] at h
  | some c =>
      simp [pin_chunk, hc] at h
      exact ⟨c, rfl, h.symm⟩

theorem unpin_chunk_ok (st : ClientState) (cid : Nat) (st1 : ClientState)
    (h : unpin_chunk st cid = Except.ok st1) :
    ∃ c, get_chunk st cid = some c ∧
      st1 = setChunk st cid { c with pin_cnt := c.pin_cnt - 1 } := by
  cases hc : get_chunk st cid with
  | none => simp [unpin_chunk, hc] at h
  | some c =>
      simp [unpin_chunk, hc] at h
      exact ⟨c, rfl, h.symm⟩

theorem allocate_payload_ok (st : ClientState) (cid : Nat) (dev : Device)
    (st1 : ClientState) (h : allocate_payload st cid dev = Except.ok st1) :
    ∃ c, get_chunk st cid = some c ∧
      st1 = setChunk st cid
        { c with payload := some (List.replicate c.capacity st.alloc_fill),
                 device := dev } := by
  cases hc : get_chunk st cid with
  | none => simp [allocate_payload, hc] at h
  | some c =>
      simp [allocate_payload, hc] at h
      exact ⟨c, rfl, h.symm⟩

theorem release_payload_ok (st : ClientState) (cid : Nat) (st1 : ClientState)
    (h : release_payload st cid = Except.ok st1) :
    ∃ c, get_chunk st cid = some c ∧
      st1 = setChunk st cid { c with payload := none } := by
  cases hc : get_chunk st cid with
  | none => simp [release_payload, hc] at h
  | some c =>
      simp [release_payload, hc] at h
      exact ⟨c, rfl, h.symm⟩

theorem access_chunk_ok (st : ClientState) (cid : Nat) (dev : Device)
    (st1 : ClientState) (ev : List Event)
    (h : access_chunk st cid dev = Except.ok (st1, ev)) :
    ∃ c, get_chunk st cid = some c ∧
      ((c.payload = none ∧ ev = [Event.allocE cid] ∧
          st1 = setChunk st cid
            { c with payload := some (List.replicate c.capacity st.alloc_fill),
                     device := dev }) ∨
       (∃ pay, c.payload = some pay ∧ ev = [] ∧
          ((st1 = st ∧ c.device = dev) ∨
            st1 = setChunk st cid { c with device := dev }))) := by
  cases hc : get_chunk st cid with
  | none => simp [access_chunk, hc] at h
  | some c =>
      refine ⟨c, rfl, ?_⟩
      cases hpay : c.payload with
      | none =>
          simp [access_chunk, hc, hpay, allocate_payload, Except.map] at h
          exact Or.inl ⟨rfl, h.2.symm, h.1.symm⟩
      | some pay =>
          by_cases hdev : c.device = dev
          · simp [access_chunk, hc, hpay, hdev] at h
            exact Or.inr ⟨pay, rfl, h.2, Or.inl ⟨h.1.symm, hdev⟩⟩
          · simp [access_chunk, hc, hpay, hdev] at h
            exact Or.inr ⟨pay, rfl, h.2, Or.inr h.1.symm⟩

theorem get_set_status_self (p : PSParam) (s : TensorStatus) (a : AccessType) :
    (p.set_status s a).get_status a = s := by
  cases a <;> rfl

theorem get_set_status_other (p : PSParam) (s : TensorStatus)
    (a b : AccessType) (h : b ≠ a) :
    (p.set_status s a).get_status b = p.get_status b := by
  cases a <;> cases b <;> first | rfl | exact absurd rfl h

theorem get_status_set_tensor (p : PSParam) (v : Payload) (a b : AccessType) :
    (p.set_tensor v a).get_status b = p.get_status b := by
  cases a <;> cases b <;> rfl

theorem param_type_set_status (p : PSParam) (s : TensorStatus) (a : AccessType) :
    (p.set_status s a).param_type = p.param_type := by
  cases a <;> rfl

theorem alset_absent {κ α : Type} [DecidableEq κ] (m : List (κ × α)) (k : κ)
    (v : α) (h : alget m k = none) : alset m k v = m := by
  induction m with
  | nil => rfl
  | cons e r ih =>
      by_cases he : e.1 = k
      · simp [alget, he] at h
      · simp [alget, he] at h
        simp [alset, he, ih h]

theorem chunk_tensor_infos_cfg {a b : ClientState} (h : SameCfg a b) (c : Nat) :
    chunk_tensor_infos a c = chunk_tensor_infos b c := by
  obtain ⟨-, -, -, -, -, -, h7, h8, -, -, -⟩ := h
  simp [chunk_tensor_infos, h7, h8]

theorem mem_chunk_tensor_statuses (st : ClientState) (c : Nat)
    (x : TensorStatus) :
    x ∈ chunk_tensor_statuses st c ↔
      ∃ i ∈ chunk_tensor_infos st c, info_status st i = some x := by
  simp [chunk_tensor_statuses, List.mem_filterMap]

theorem info_status_param_isSome (st : ClientState) (i : TensorInfo)
    (x : TensorStatus) (h : info_status st i = some x) :
    (getParam st i.param_id).isSome := by
  cases hp : getParam st i.param_id with
  | none => simp [info_status, hp] at h
  | some p => rfl

theorem set_one_sameCfg (st : ClientState) (i : TensorInfo) (s : TensorStatus) :
    SameCfg (set_one_tensor_status st i s) st := by
  cases hp : getParam st i.param_id with
  | none => simp [set_one_tensor_status, hp]; exact sameCfg_refl st
  | some p => simp [set_one_tensor_status, hp]; exact sameCfg_setParam st _ _

theorem set_one_chunks (st : ClientState) (i : TensorInfo) (s : TensorStatus) :
    (set_one_tensor_status st i s).chunks = st.chunks := by
  cases hp : getParam st i.param_id with
  | none => simp [set_one_tensor_status, hp]
  | some p => simp [set_one_tensor_status, hp, setParam]

theorem set_one_param_isSome (st : ClientState) (i : TensorInfo)
    (s : TensorStatus) (q : Nat) :
    (getParam (set_one_tensor_status st i s) q).isSome =
      (getParam st q).isSome := by
  cases hp : getParam st i.param_id with
  | none => simp [set_one_tensor_status, hp]
  | some p =>
      simp only [set_one_tensor_status, hp]
      by_cases hq : q = i.param_id
      · subst hq
        rw [getParam_setParam_self st i.param_id _ p hp, hp]
        rfl
      · rw [getParam_setParam_ne st i.param_id q _ hq]

theorem info_status_set_one (st : ClientState) (i : TensorInfo)
    (s : TensorStatus) (j : TensorInfo) (x : TensorStatus)
    (h : info_status (set_one_tensor_status st i s) j = some x) :
    x = s ∨ info_status st j = some x := by
  cases hp : getParam st i.param_id with
  | none =>
      simp [set_one_tensor_status, hp] at h
      exact Or.inr h
  | some p =>
      simp only [set_one_tensor_status, hp] at h
      by_cases hq : j.param_id = i.param_id
      · rw [info_status, hq, getParam_setParam_self st i.param_id _ p hp] at h
        simp at h
        by_cases ha : j.access_type = i.access_type
        · rw [ha, get_set_status_self] at h
          exact Or.inl h.symm
        · rw [get_set_status_other p s i.access_type j.access_type ha] at h
          exact Or.inr (by simp [info_status, hq, hp, h])
      · rw [info_status, getParam_setParam_ne st i.param_id j.param_id _ hq] at h
        exact Or.inr h

theorem info_status_set_one_keep (st : ClientState) (i : TensorInfo)
    (s : TensorStatus) (j : TensorInfo)
    (h : info_status st j = some s) :
    info_status (set_one_tensor_status st i s) j = some s := by
  cases hp : getParam st i.param_id with
  | none => simp [set_one_tensor_status, hp, h]
  | some p =>
      simp only [set_one_tensor_status, hp]
      by_cases hq : j.param_id = i.param_id
      · rw [info_status, hq, getParam_setParam_self st i.param_id _ p hp]
        by_cases ha : j.access_type = i.access_type
        · simp [ha, get_set_status_self]
        · rw [info_status, hq, hp] at h
          simp at h
          simp [get_set_status_other p s i.access_type j.access_type ha, h]
      · rw [info_status, getParam_setParam_ne st i.param_id j.param_id _ hq]
        exact h

theorem info_status_set_one_hit (st : ClientState) (i : TensorInfo)
    (s : TensorStatus) (h : (getParam st i.param_id).isSome) :
    info_status (set_one_tensor_status st i s) i = some s := by
  cases hp : getParam st i.param_id with
  | none => simp [hp] at h
  | some p =>
      simp only [set_one_tensor_status, hp]
      rw [info_status, getParam_setParam_self st i.param_id _ p hp]
      simp [get_set_status_self]

theorem set_status_list_sameCfg (s : TensorStatus) (l : List TensorInfo)
    (st : ClientState) : SameCfg (set_status_list s l st) st := by
  induction l generalizing st with
  | nil => exact sameCfg_refl st
  | cons i r ih =>
      exact sameCfg_trans (ih (set_one_tensor_status st i s)) (set_one_sameCfg st i s)

theorem set_status_list_chunks (s : TensorStatus) (l : List TensorInfo)
    (st : ClientState) : (set_status_list s l st).chunks = st.chunks := by
  induction l generalizing st with
  | nil => rfl
  | cons i r ih =>
      rw [set_status_list, ih, set_one_chunks]

theorem set_status_list_param_isSome (s : TensorStatus) (l : List TensorInfo)
    (st : ClientState) (q : Nat) :
    (getParam (set_status_list s l st) q).isSome = (getParam st q).isSome := by
  induction l generalizing st with
  | nil => rfl
  | cons i r ih =>
      rw [set_status_list, ih, set_one_param_isSome]

theorem info_status_set_status_list (s : TensorStatus) (l : List TensorInfo)
    (st : ClientState) (j : TensorInfo) (x : TensorStatus)
    (h : info_status (set_status_list s l st) j = some x) :
    x = s ∨ info_status st j = some x := by
  induction l generalizing st with
  | nil => exact Or.inr h
  | cons i r ih =>
      rw [set_status_list] at h
      rcases ih (set_one_tensor_status st i s) h with hx | hx
      · exact Or.inl hx
      · exact info_status_set_one st i s j x hx

theorem info_status_set_status_list_keep (s : TensorStatus)
    (l : List TensorInfo) (st : ClientState) (j : TensorInfo)
    (h : info_status st j = some s) :
    info_status (set_status_list s l st) j = some s := by
  induction l generalizing st with
  | nil => exact h
  | cons i r ih =>
      rw [set_status_list]
      exact ih (set_one_tensor_status st i s) (info_status_set_one_keep st i s j h)

theorem info_status_set_status_list_hit (s : TensorStatus)
    (l : List TensorInfo) : ∀ (st : ClientState) (j : TensorInfo),
    j ∈ l → (getParam st j.param_id).isSome = true →
    info_status (set_status_list s l st) j = some s := by
  induction l with
  | nil => intro st j hj hp; simp at hj
  | cons i r ih =>
      intro st j hj hp
      rw [set_status_list]
      rcases List.mem_cons.mp hj with hji | hjr
      · subst hji
        exact info_status_set_status_list_keep s r _ j
          (info_status_set_one_hit st j s hp)
      · exact ih _ j hjr (by rw [set_one_param_isSome]; exact hp)

theorem set_all_sameCfg (st : ClientState) (c : Nat) (s : TensorStatus) :
    SameCfg (set_all_tensors_status_in_chunk st c s) st :=
  set_status_list_sameCfg s (chunk_tensor_infos st c) st

theorem set_all_chunks (st : ClientState) (c : Nat) (s : TensorStatus) :
    (set_all_tensors_status_in_chunk st c s).chunks = st.chunks :=
  set_status_list_chunks s (chunk_tensor_infos st c) st

theorem set_all_param_isSome (st : ClientState) (c : Nat) (s : TensorStatus)
    (q : Nat) :
    (getParam (set_all_tensors_status_in_chunk st c s) q).isSome =
      (getParam st q).isSome :=
  set_status_list_param_isSome s (chunk_tensor_infos st c) st q

theorem statuses_set_all_self (st : ClientState) (c : Nat) (s : TensorStatus) :
    ∀ x ∈ chunk_tensor_statuses (set_all_tensors_status_in_chunk st c s) c,
      x = s := by
  intro x hx
  set st2 := set_all_tensors_status_in_chunk st c s with hst2
  rcases (mem_chunk_tensor_statuses st2 c x).mp hx with ⟨j, hj, hjs⟩
  rw [chunk_tensor_infos_cfg (set_all_sameCfg st c s) c] at hj
  have hps : (getParam st2 j.param_id).isSome := info_status_param_isSome st2 j x hjs
  have hps0 : (getParam st j.param_id).isSome = true := by
    rw [← set_all_param_isSome st c s j.param_id]
    exact hps
  have hhit := info_status_set_status_list_hit s (chunk_tensor_infos st c) st j hj hps0
  have hjs2 : info_status (set_status_list s (chunk_tensor_infos st c) st) j = some x := hjs
  rw [hhit] at hjs2
  exact (Option.some_inj.mp hjs2).symm

theorem statuses_set_all_other (st : ClientState) (c : Nat) (s : TensorStatus)
    (c2 : Nat) (x : TensorStatus)
    (h : x ∈ chunk_tensor_statuses (set_all_tensors_status_in_chunk st c s) c2) :
    x = s ∨ x ∈ chunk_tensor_statuses st c2 := by
  set st2 := set_all_tensors_status_in_chunk st c s with hst2
  rcases (mem_chunk_tensor_statuses st2 c2 x).mp h with ⟨j, hj, hjs⟩
  rw [chunk_tensor_infos_cfg (set_all_sameCfg st c s) c2] at hj
  rw [hst2, set_all_tensors_status_in_chunk] at hjs
  rcases info_status_set_status_list s (chunk_tensor_infos st c) st j x hjs with hx | hx
  · exact Or.inl hx
  · exact Or.inr ((mem_chunk_tensor_statuses st c2 x).mpr ⟨j, hj, hx⟩)

theorem chunk_tensor_statuses_setChunk (st : ClientState) (cid : Nat)
    (c : Chunk) (c2 : Nat) :
    chunk_tensor_statuses (setChunk st cid c) c2 = chunk_tensor_statuses st c2 := rfl

theorem chunk_get_status_released_of_none (st : ClientState) (c : Nat)
    (ch : Chunk) (h1 : get_chunk st c = some ch) (h2 : ch.payload = none) :
    chunk_get_status st c = some ChunkStatus.RELEASED := by
  simp [chunk_get_status, h1, h2]

theorem chunk_get_status_released_elim (st : ClientState) (c : Nat)
    (h : chunk_get_status st c = some ChunkStatus.RELEASED) :
    ∃ ch, get_chunk st c = some ch ∧
      (ch.payload = none ∨
        (chunk_tensor_statuses st c ≠ [] ∧
          ∀ x ∈ chunk_tensor_statuses st c, x = TensorStatus.RELEASED)) := by
  cases hch : get_chunk st c with
  | none => simp [chunk_get_status, hch] at h
  | some ch =>
      refine ⟨ch, rfl, ?_⟩
      obtain ⟨cap, dum, pl, dv, pc⟩ := ch
      cases pl with
      | none => exact Or.inl rfl
      | some pay =>
          refine Or.inr ?_
          simp only [chunk_get_status, hch, Option.map_some'] at h
          rw [Option.some_inj] at h
          split_ifs at h with hC hR hH hF hB
          all_goals exact hR

theorem chunk_get_status_not_released (st : ClientState) (c : Nat) (ch : Chunk)
    (pay : Payload) (h1 : get_chunk st c = some ch) (h2 : ch.payload = some pay)
    (h3 : ∀ x ∈ chunk_tensor_statuses st c, x ≠ TensorStatus.RELEASED) :
    chunk_get_status st c ≠ some ChunkStatus.RELEASED := by
  intro hcon
  rcases chunk_get_status_released_elim st c hcon with ⟨ch2, hch2, hcase⟩
  rw [h1, Option.some_inj] at hch2
  subst hch2
  rcases hcase with hnone | ⟨hne, hall⟩
  · rw [h2] at hnone
    exact Option.noConfusion hnone
  · cases hss : chunk_tensor_statuses st c with
    | nil => exact hne hss
    | cons y ys =>
        have hy : y ∈ chunk_tensor_statuses st c := by
          rw [hss]; exact List.mem_cons_self y ys
        exact (h3 y hy) (hall y hy)

theorem chunk_get_status_congr (a b : ClientState) (c : Nat)
    (hst : chunk_tensor_statuses a c = chunk_tensor_statuses b c)
    (hch : Option.map (fun ch => ch.payload.isSome) (get_chunk a c) =
           Option.map (fun ch => ch.payload.isSome) (get_chunk b c)) :
    chunk_get_status a c = chunk_get_status b c := by
  cases ha : get_chunk a c with
  | none =>
      cases hb : get_chunk b c with
      | none => simp [chunk_get_status, ha, hb]
      | some cb => rw [ha, hb] at hch; simp at hch
  | some ca =>
      cases hb : get_chunk b c with
      | none => rw [ha, hb] at hch; simp at hch
      | some cb =>
          rw [ha, hb] at hch
          simp only [Option.map_some', Option.some_inj] at hch
          cases hpa : ca.payload with
          | none =>
              cases hpb : cb.payload with
              | none => simp [chunk_get_status, ha, hb, hpa, hpb]
              | some pb => rw [hpa, hpb] at hch; simp at hch
          | some pa =>
              cases hpb : cb.payload with
              | none => rw [hpa, hpb] at hch; simp at hch
              | some pb => simp [chunk_get_status, ha, hb, hpa, hpb, hst]

theorem chunk_get_status_setChunk_same (st : ClientState) (cid : Nat)
    (c0 c : Chunk) (hc : get_chunk st cid = some c0)
    (hpay : c.payload.isSome = c0.payload.isSome) (c2 : Nat) :
    chunk_get_status (setChunk st cid c) c2 = chunk_get_status st c2 := by
  apply chunk_get_status_congr
  · exact chunk_tensor_statuses_setChunk st cid c c2
  · by_cases hc2 : c2 = cid
    · subst hc2
      rw [get_chunk_setChunk_self st c2 c c0 hc, hc]
      simp [hpay]
    · rw [get_chunk_setChunk_ne st cid c2 c hc2]

theorem access_chunk_post (st : ClientState) (cid : Nat) (dev : Device)
    (st1 : ClientState) (ev : List Event)
    (h : access_chunk st cid dev = Except.ok (st1, ev)) :
    ∃ c1 pay1, get_chunk st1 cid = some c1 ∧ c1.payload = some pay1 ∧
      c1.device = dev := by
  rcases access_chunk_ok st cid dev st1 ev h with ⟨c, hc, hcase⟩
  rcases hcase with ⟨hpay, hev, hst1⟩ | ⟨pay, hpay, hev, hst1⟩
  · subst hst1
    exact ⟨_, _, get_chunk_setChunk_self st cid _ c hc, rfl, rfl⟩
  · rcases hst1 with ⟨hst1, hdev⟩ | hst1
    · subst hst1
      exact ⟨c, pay, hc, hpay, hdev⟩
    · subst hst1
      exact ⟨_, pay, get_chunk_setChunk_self st cid _ c hc, hpay, rfl⟩

theorem narrow_ok (p : Payload) (s n : Nat) (v : Payload)
    (h : narrow p s n = Except.ok v) :
    s + n ≤ p.length ∧ v = (p.drop s).take n := by
  rw [narrow] at h
  split at h
  · exact ⟨by assumption, (Except.ok.injEq _ _ ▸ h).symm⟩
  · exact absurd h (by simp)

theorem access_payload_step_ok (st1 : ClientState) (pid : Nat)
    (acc : AccessType) (cid : Nat) (st5 : ClientState) (v : Option Payload)
    (h : access_payload_step st1 pid acc cid = Except.ok (st5, v)) :
    ∃ p info c pay,
      getParam st1 pid = some p ∧
      alget st1.tensor_id_to_info (tensor_id pid acc) = some info ∧
      info.numel = p.numel ∧
      get_chunk st1 cid = some c ∧ c.payload = some pay ∧
      info.start_offset + info.numel ≤ pay.length ∧
      ((p.get_status acc = TensorStatus.FREE ∧
         st5 = setParam
           (setChunk (setParam st1 pid
               (p.set_tensor ((pay.drop info.start_offset).take info.numel) acc))
             cid
             { c with payload := some (zero_region pay info.start_offset info.numel) })
           pid
           (((p.set_tensor ((pay.drop info.start_offset).take info.numel) acc).set_tensor
               (List.replicate info.numel (0 : Rat)) acc).set_status
             TensorStatus.COMPUTE acc) ∧
         v = some (List.replicate info.numel (0 : Rat))) ∨
       (p.get_status acc ≠ TensorStatus.FREE ∧
         st5 = setParam
           (setParam st1 pid
             (p.set_tensor ((pay.drop info.start_offset).take info.numel) acc))
           pid
           ((p.set_tensor ((pay.drop info.start_offset).take info.numel) acc).set_status
             TensorStatus.COMPUTE acc) ∧
         v = some ((pay.drop info.start_offset).take info.numel))) := by
  rw [access_payload_step] at h
  split at h
  · exact absurd h (by simp)
  next p hp =>
  split at h
  · exact absurd h (by simp)
  next info hinfo =>
  split at h
  · exact absurd h (by simp)
  next hn =>
  split at h
  · exact absurd h (by simp)
  next c hch =>
  split at h
  · exact absurd h (by simp)
  next pay hpay =>
  split at h
  · exact absurd h (by simp)
  next view0 hnarrow =>
  push_neg at hn
  obtain ⟨hb, hview⟩ := narrow_ok pay info.start_offset info.numel view0 hnarrow
  subst hview
  refine ⟨p, info, c, pay, hp, hinfo, hn, hch, hpay, hb, ?_⟩
  simp only [] at h
  split at h
  next hfree =>
    split at h
    · exact absurd h (by simp)
    next st4 hu =>
      have hst4 := update_status_ok _ _ _ _ _ hu
      subst hst4
      left
      rw [get_status_set_tensor] at hfree
      rw [Except.ok.injEq, Prod.mk.injEq] at h
      obtain ⟨h1, h2⟩ := h
      refine ⟨hfree, h1.symm, ?_⟩
      rw [← h2]
      cases acc <;> rfl
  next hfree =>
    split at h
    · exact absurd h (by simp)
    next st4 hu =>
      have hst4 := update_status_ok _ _ _ _ _ hu
      subst hst4
      right
      rw [get_status_set_tensor] at hfree
      rw [Except.ok.injEq, Prod.mk.injEq] at h
      obtain ⟨h1, h2⟩ := h
      refine ⟨hfree, h1.symm, ?_⟩
      rw [← h2]
      cases acc <;> rfl

theorem pin_chunk_sameCfg (st : ClientState) (cid : Nat) (st1 : ClientState)
    (h : pin_chunk st cid = Except.ok st1) : SameCfg st1 st := by
  rcases pin_chunk_ok st cid st1 h with ⟨c, -, h1⟩
  subst h1
  exact sameCfg_setChunk st cid _

theorem unpin_chunk_sameCfg (st : ClientState) (cid : Nat) (st1 : ClientState)
    (h : unpin_chunk st cid = Except.ok st1) : SameCfg st1 st := by
  rcases unpin_chunk_ok st cid st1 h with ⟨c, -, h1⟩
  subst h1
  exact sameCfg_setChunk st cid _

theorem allocate_payload_sameCfg (st : ClientState) (cid : Nat) (dev : Device)
    (st1 : ClientState) (h : allocate_payload st cid dev = Except.ok st1) :
    SameCfg st1 st := by
  rcases allocate_payload_ok st cid dev st1 h with ⟨c, -, h1⟩
  subst h1
  exact sameCfg_setChunk st cid _

theorem release_payload_sameCfg (st : ClientState) (cid : Nat)
    (st1 : ClientState) (h : release_payload st cid = Except.ok st1) :
    SameCfg st1 st := by
  rcases release_payload_ok st cid st1 h with ⟨c, -, h1⟩
  subst h1
  exact sameCfg_setChunk st cid _

theorem access_chunk_sameCfg (st : ClientState) (cid : Nat) (dev : Device)
    (st1 : ClientState) (ev : List Event)
    (h : access_chunk st cid dev = Except.ok (st1, ev)) : SameCfg st1 st := by
  rcases access_chunk_ok st cid dev st1 ev h with ⟨c, hc, hcase⟩
  rcases hcase with ⟨-, -, h1⟩ | ⟨pay, -, -, h1⟩
  · subst h1
    exact sameCfg_setChunk st cid _
  · rcases h1 with ⟨h1, -⟩ | h1
    · rw [h1]
      exact sameCfg_refl st
    · subst h1
      exact sameCfg_setChunk st cid _

theorem aps_sameCfg (st1 : ClientState) (pid : Nat) (acc : AccessType)
    (cid : Nat) (st5 : ClientState) (v : Option Payload)
    (h : access_payload_step st1 pid acc cid = Except.ok (st5, v)) :
    SameCfg st5 st1 := by
  rcases access_payload_step_ok st1 pid acc cid st5 v h with
    ⟨p, info, c, pay, hp, hinfo, hn, hch, hpay, hb, hcase⟩
  rcases hcase with ⟨-, h1, -⟩ | ⟨-, h1, -⟩ <;> subst h1
  · exact sameCfg_trans (sameCfg_setParam _ _ _)
      (sameCfg_trans (sameCfg_setChunk _ _ _) (sameCfg_setParam _ _ _))
  · exact sameCfg_trans (sameCfg_setParam _ _ _) (sameCfg_setParam _ _ _)

theorem fetch_alloc_loop_sameCfg (dev : Device) (lc : Nat) :
    ∀ (L : List Nat) (st st1 : ClientState) (ev1 : List Event),
    fetch_alloc_loop dev lc L st = Except.ok (st1, ev1) → SameCfg st1 st := by
  intro L
  induction L with
  | nil =>
      intro st st1 ev1 h
      rw [fetch_alloc_loop] at h
      simp at h
      rw [← h.1]
      exact sameCfg_refl st
  | cons cid rest ih =>
      intro st st1 ev1 h
      rw [fetch_alloc_loop] at h
      split at h
      · exact sameCfg_trans (ih _ _ _ h) (set_all_sameCfg st cid TensorStatus.HOLD)
      · split at h
        · exact absurd h (by simp)
        next stA hA =>
          split at h
          · exact absurd h (by simp)
          next stB hB =>
            cases hr : fetch_alloc_loop dev lc rest
                (set_all_tensors_status_in_chunk stB cid TensorStatus.HOLD) with
            | error e => rw [hr] at h; exact absurd h (by simp [Except.map])
            | ok r =>
                rw [hr] at h
                simp [Except.map] at h
                have hc1 : SameCfg r.1 stB :=
                  sameCfg_trans (ih _ _ _ (by rw [hr]))
                    (set_all_sameCfg stB cid TensorStatus.HOLD)
                rw [← h.1]
                exact sameCfg_trans hc1
                  (sameCfg_trans (pin_chunk_sameCfg stA cid stB hB)
                    (allocate_payload_sameCfg st cid dev stA hA))

theorem unpin_loop_sameCfg :
    ∀ (L : List Nat) (st st1 : ClientState) (ev1 : List Event),
    unpin_loop L st = Except.ok (st1, ev1) → SameCfg st1 st := by
  intro L
  induction L with
  | nil =>
      intro st st1 ev1 h
      rw [unpin_loop] at h
      simp at h
      rw [← h.1]
      exact sameCfg_refl st
  | cons cid rest ih =>
      intro st st1 ev1 h
      rw [unpin_loop] at h
      split at h
      · exact absurd h (by simp)
      next stA hA =>
        cases hr : unpin_loop rest stA with
        | error e => rw [hr] at h; exact absurd h (by simp [Except.map])
        | ok r =>
            rw [hr] at h
            simp [Except.map] at h
            rw [← h.1]
            exact sameCfg_trans (ih _ _ _ (by rw [hr]))
              (unpin_chunk_sameCfg st cid stA hA)

theorem all_gather_write_sameCfg (lc : Nat) :
    ∀ (L : List Nat) (gd : List Payload) (st stw : ClientState),
    all_gather_write lc L gd st = Except.ok stw → SameCfg stw st := by
  intro L
  induction L with
  | nil =>
      intro gd st stw h
      rw [all_gather_write] at h
      simp at h
      rw [← h]
      exact sameCfg_refl st
  | cons cid rest ih =>
      intro gd st stw h
      cases gd with
      | nil => rw [all_gather_write] at h; exact absurd h (by simp)
      | cons d dr =>
          rw [all_gather_write] at h
          split at h
          · exact ih dr st stw h
          · split at h
            · exact absurd h (by simp)
            next c hc =>
              exact sameCfg_trans (ih dr _ stw h) (sameCfg_setChunk st cid _)

theorem fetch_remote_chunks_sameCfg (st : ClientState) (L : List Nat) (lc : Nat)
    (dev : Device) (gd : List Payload) (st3 : ClientState) (ev3 : List Event)
    (h : fetch_remote_chunks st L lc dev gd = Except.ok (st3, ev3)) :
    SameCfg st3 st := by
  rw [fetch_remote_chunks] at h
  split at h
  · split at h
    · exact absurd h (by simp)
    next s1 e1 hr1 =>
      split at h
      · split at h
        · exact absurd h (by simp)
        next s2 e2 hr2 =>
          split at h
          · split at h
            · exact absurd h (by simp)
            next stw hw =>
              simp at h
              rw [← h.1]
              exact sameCfg_trans (all_gather_write_sameCfg lc L gd s2 stw hw)
                (sameCfg_trans (unpin_loop_sameCfg L s1 s2 e2 hr2)
                  (fetch_alloc_loop_sameCfg dev lc L st s1 e1 hr1))
          · exact absurd h (by simp)
      · exact absurd h (by simp)
  · simp at h
    rw [← h.1]
    exact sameCfg_refl st

theorem access_dist_group_sameCfg (st : ClientState) (cid : Nat) (dev : Device)
    (gd : List Payload) (stg : ClientState) (evg : List Event)
    (h : access_dist_group st cid dev gd = Except.ok (stg, evg)) :
    SameCfg stg st := by
  rw [access_dist_group] at h
  split at h
  · split at h
    · exact absurd h (by simp)
    next L hL =>
      split at h
      · exact absurd h (by simp)
      next lc hlc =>
        split at h
        · exact absurd h (by simp)
        next s1 e1 hr1 =>
          split at h
          · exact absurd h (by simp)
          next st2 h2 =>
            split at h
            · exact absurd h (by simp)
            next s3 e3 h3 =>
              split at h
              · exact absurd h (by simp)
              next st4 h4 =>
                simp at h
                rw [← h.1]
                exact sameCfg_trans (unpin_chunk_sameCfg s3 lc st4 h4)
                  (sameCfg_trans (fetch_remote_chunks_sameCfg st2 L lc dev gd s3 e3 h3)
                    (sameCfg_trans (pin_chunk_sameCfg s1 lc st2 h2)
                      (access_chunk_sameCfg st lc dev s1 e1 hr1)))
  · simp at h
    rw [← h.1]
    exact sameCfg_refl st

theorem access_sameCfg (st : ClientState) (pid : Nat) (acc : AccessType)
    (dev : Device) (st1 : ClientState) (v : Option Payload) (tr : List Event)
    (h : access st pid acc dev = Except.ok (st1, v, tr)) : SameCfg st1 st := by
  rw [access] at h
  split at h
  · exact absurd h (by simp)
  next p hp =>
    split at h
    · split at h <;> (simp at h; rw [← h.1]; exact sameCfg_refl st)
    · split at h
      · exact absurd h (by simp)
      next cid hcid =>
        split at h
        · exact absurd h (by simp)
        next s1 e1 hr1 =>
          split at h
          · exact absurd h (by simp)
          next s5 v5 h5 =>
            simp at h
            rw [← h.1]
            exact sameCfg_trans (aps_sameCfg s1 pid acc cid s5 v5 h5)
              (access_chunk_sameCfg st cid dev s1 e1 hr1)

theorem access_dist_sameCfg (st : ClientState) (pid : Nat) (acc : AccessType)
    (dev : Device) (gd : List Payload) (st1 : ClientState) (v : Option Payload)
    (tr : List Event)
    (h : access_dist st pid acc dev gd = Except.ok (st1, v, tr)) :
    SameCfg st1 st := by
  rw [access_dist] at h
  split at h
  · exact absurd h (by simp)
  next p hp =>
    split at h
    · split at h <;> (simp at h; rw [← h.1]; exact sameCfg_refl st)
    · split at h
      · exact absurd h (by simp)
      next cid hcid =>
        split at h
        · exact absurd h (by simp)
        next sg eg hg =>
          split at h
          · exact absurd h (by simp)
          next s1 e1 hr1 =>
            split at h
            · exact absurd h (by simp)
            next c hc =>
              split at h
              · exact absurd h (by simp)
              next pay hpay =>
                split at h
                · exact absurd h (by simp)
                · split at h
                  · exact absurd h (by simp)
                  next s5 v5 h5 =>
                    simp at h
                    rw [← h.1]
                    exact sameCfg_trans (aps_sameCfg s1 pid acc cid s5 v5 h5)
                      (sameCfg_trans (access_chunk_sameCfg sg cid dev s1 e1 hr1)
                        (access_dist_group_sameCfg st cid dev gd sg eg hg))

theorem release_sameCfg (st : ClientState) (pid : Nat) (acc : AccessType)
    (reset : TensorStatus) (st1 : ClientState) (tr : List Event)
    (h : release st pid acc reset = Except.ok (st1, tr)) : SameCfg st1 st := by
  rw [release] at h
  split at h
  · exact absurd h (by simp)
  next p hp =>
    split at h
    · simp at h
      rw [← h.1]
      exact sameCfg_refl st
    · split at h
      · exact absurd h (by simp)
      next stx hu =>
        have hx := update_status_ok _ _ _ _ _ hu
        rw [hx] at h
        simp at h
        rw [← h.1]
        exact sameCfg_setParam st pid _

theorem reduce_collect_loop_sameCfg (dev : Device) :
    ∀ (L : List Nat) (st : ClientState) (r : ClientState × List Event × List Payload),
    reduce_collect_loop dev L st = Except.ok r → SameCfg r.1 st := by
  intro L
  induction L with
  | nil =>
      intro st r h
      rw [reduce_collect_loop] at h
      simp at h
      rw [← h]
      exact sameCfg_refl st
  | cons cid rest ih =>
      intro st r h
      rw [reduce_collect_loop] at h
      split at h
      · exact absurd h (by simp)
      next s1 e1 hr1 =>
        split at h
        · exact absurd h (by simp)
        next st2 h2 =>
          split at h
          · exact absurd h (by simp)
          next pay hpay =>
            cases hr : reduce_collect_loop dev rest st2 with
            | error e => rw [hr] at h; exact absurd h (by simp [Except.map])
            | ok rr =>
                rw [hr] at h
                simp [Except.map] at h
                rw [← h]
                exact sameCfg_trans (ih st2 rr hr)
                  (sameCfg_trans (pin_chunk_sameCfg s1 cid st2 h2)
                    (access_chunk_sameCfg st cid dev s1 e1 hr1))

theorem reduce_write_local_sameCfg (st : ClientState) (lc : Nat)
    (inputs : List Payload) (st1 : ClientState)
    (h : reduce_write_local st lc inputs = Except.ok st1) : SameCfg st1 st := by
  rw [reduce_write_local] at h
  split at h
  · exact absurd h (by simp)
  next c hc =>
    simp at h
    rw [← h]
    exact sameCfg_setChunk st lc _

theorem remote_remove_loop_sameCfg (lc : Nat) :
    ∀ (L : List Nat) (st : ClientState) (r : ClientState × List Event),
    remote_remove_loop lc L st = Except.ok r → SameCfg r.1 st := by
  intro L
  induction L with
  | nil =>
      intro st r h
      rw [remote_remove_loop] at h
      simp at h
      rw [← h]
      exact sameCfg_refl st
  | cons cid rest ih =>
      intro st r h
      rw [remote_remove_loop] at h
      split at h
      · exact absurd h (by simp)
      next st1 h1 =>
        split at h
        · cases hr : remote_remove_loop lc rest st1 with
          | error e => rw [hr] at h; exact absurd h (by simp [Except.map])
          | ok rr =>
              rw [hr] at h
              simp [Except.map] at h
              rw [← h]
              exact sameCfg_trans (ih st1 rr hr)
                (unpin_chunk_sameCfg st cid st1 h1)
        · split at h
          · exact absurd h (by simp)
          next st2 h2 =>
            cases hr : remote_remove_loop lc rest
                (set_all_tensors_status_in_chunk st2 cid TensorStatus.FREE) with
            | error e => rw [hr] at h; exact absurd h (by simp [Except.map])
            | ok rr =>
                rw [hr] at h
                simp [Except.map] at h
                rw [← h]
                exact sameCfg_trans
                  (sameCfg_trans (ih _ rr hr)
                    (set_all_sameCfg st2 cid TensorStatus.FREE))
                  (sameCfg_trans (release_payload_sameCfg st1 cid st2 h2)
                    (unpin_chunk_sameCfg st cid st1 h1))

theorem release_dist_sameCfg (st : ClientState) (pid : Nat) (acc : AccessType)
    (reset : TensorStatus) (stage : TrainingStage) (red : Bool)
    (st1 : ClientState) (tr : List Event)
    (h : release_dist st pid acc reset stage red = Except.ok (st1, tr)) :
    SameCfg st1 st := by
  rw [release_dist] at h
  split at h
  · exact absurd h (by simp)
  next p hp =>
    split at h
    · simp at h
      rw [← h.1]
      exact sameCfg_refl st
    · split at h
      · exact absurd h (by simp)
      · split at h
        · exact absurd h (by simp)
        · split at h
          · exact absurd h (by simp)
          next cid hcid =>
            split at h
            · exact absurd h (by simp)
            next L hL =>
              split at h
              · exact absurd h (by simp)
              next lc hlc =>
                split at h
                · exact absurd h (by simp)
                next stx hu =>
                  have hx := update_status_ok _ _ _ _ _ hu
                  rw [hx] at h
                  simp only [] at h
                  split at h
                  · split at h
                    · cases red with
                      | false =>
                          simp only [Bool.false_eq_true, reduceIte] at h
                          split at h
                          · exact absurd h (by simp)
                          next s4 e4 h4 =>
                            simp at h
                            rw [← h.1]
                            exact sameCfg_trans
                              (remote_remove_loop_sameCfg lc L _ (s4, e4) h4)
                              (sameCfg_setParam st pid _)
                      | true =>
                          simp only [reduceIte] at h
                          split at h
                          · exact absurd h (by simp)
                          next st3 ev3 h3 =>
                            split at h
                            · exact absurd h (by simp)
                            next s4 e4 h4 =>
                              simp at h
                              rw [← h.1]
                              split at h3
                              · exact absurd h3 (by simp)
                              next pay hpay =>
                                split at h3
                                · exact absurd h3 (by simp)
                                next sA evA inputs hc =>
                                  split at h3
                                  · exact absurd h3 (by simp)
                                  next sB hB =>
                                    simp at h3
                                    rw [← h3.1] at h4
                                    exact sameCfg_trans
                                      (sameCfg_trans
                                        (remote_remove_loop_sameCfg lc L sB (s4, e4) h4)
                                        (sameCfg_trans
                                          (reduce_write_local_sameCfg sA lc inputs sB hB)
                                          (reduce_collect_loop_sameCfg
                                            (Device.cuda st.local_rank) L _
                                            (sA, evA, inputs) hc)))
                                      (sameCfg_setParam st pid _)
                    · simp at h
                      rw [← h.1]
                      exact sameCfg_setParam st pid _
                  · simp at h
                    rw [← h.1]
                    exact sameCfg_setParam st pid _

theorem access_chunk_params (st : ClientState) (cid : Nat) (dev : Device)
    (st1 : ClientState) (ev : List Event)
    (h : access_chunk st cid dev = Except.ok (st1, ev)) :
    st1.params = st.params := by
  rcases access_chunk_ok st cid dev st1 ev h with ⟨c, hc, hcase⟩
  rcases hcase with ⟨-, -, h1⟩ | ⟨pay, -, -, h1⟩
  · subst h1; rfl
  · rcases h1 with ⟨h1, -⟩ | h1
    · rw [h1]
    · subst h1; rfl

theorem zero_region_view (p : Payload) (s n : Nat) (h : s + n ≤ p.length) :
    ((zero_region p s n).drop s).take n = List.replicate n (0 : Rat) := by
  rw [zero_region, List.append_assoc,
    List.drop_left' (show (p.take s).length = s by rw [List.length_take]; omega),
    List.take_left'
      (show (List.replicate n (0 : Rat)).length = n by rw [List.length_replicate])]

theorem access_ok_elim (st : ClientState) (pid : Nat) (acc : AccessType)
    (dev : Device) (st1 : ClientState) (v : Option Payload) (tr : List Event)
    (h : access st pid acc dev = Except.ok (st1, v, tr)) :
    (∃ p, getParam st pid = some p ∧ p.param_type = ParamType.TORCH_BASED ∧
       st1 = st ∧ tr = [] ∧
       ((acc = AccessType.DATA ∧ v = some p.data) ∨
        (acc = AccessType.GRAD ∧ v = p.grad))) ∨
    (∃ p cid s1 e1, getParam st pid = some p ∧
       ¬p.param_type = ParamType.TORCH_BASED ∧
       get_chunk_id st pid acc = some cid ∧
       access_chunk st cid dev = Except.ok (s1, e1) ∧
       access_payload_step s1 pid acc cid = Except.ok (st1, v) ∧ tr = e1) := by
  rw [access] at h
  split at h
  · exact absurd h (by simp)
  next p hp =>
    split at h
    next ht =>
      left
      cases acc with
      | DATA =>
          simp at h
          exact ⟨p, hp, ht, h.1.symm, h.2.2, Or.inl ⟨rfl, h.2.1.symm⟩⟩
      | GRAD =>
          simp at h
          exact ⟨p, hp, ht, h.1.symm, h.2.2, Or.inr ⟨rfl, h.2.1.symm⟩⟩
    next ht =>
      split at h
      · exact absurd h (by simp)
      next cid hcid =>
        split at h
        · exact absurd h (by simp)
        next s1 e1 hr1 =>
          split at h
          · exact absurd h (by simp)
          next s5 v5 h5 =>
            simp at h
            right
            refine ⟨p, cid, s1, e1, hp, ht, hcid, hr1, ?_, h.2.2.symm⟩
            rw [h5, h.1, h.2.1]

theorem access_dist_ok_elim (st : ClientState) (pid : Nat) (acc : AccessType)
    (dev : Device) (gd : List Payload) (st1 : ClientState) (v : Option Payload)
    (tr : List Event)
    (h : access_dist st pid acc dev gd = Except.ok (st1, v, tr)) :
    (∃ p, getParam st pid = some p ∧ p.param_type = ParamType.TORCH_BASED ∧
       st1 = st ∧ tr = [] ∧
       ((acc = AccessType.DATA ∧ v = some p.data) ∨
        (acc = AccessType.GRAD ∧ v = p.grad))) ∨
    (∃ p cid sg eg s1 e1, getParam st pid = some p ∧
       ¬p.param_type = ParamType.TORCH_BASED ∧
       get_chunk_id st pid acc = some cid ∧
       access_dist_group st cid dev gd = Except.ok (sg, eg) ∧
       access_chunk sg cid dev = Except.ok (s1, e1) ∧
       access_payload_step s1 pid acc cid = Except.ok (st1, v) ∧
       tr = eg ++ e1) := by
  rw [access_dist] at h
  split at h
  · exact absurd h (by simp)
  next p hp =>
    split at h
    next ht =>
      left
      cases acc with
      | DATA =>
          simp at h
          exact ⟨p, hp, ht, h.1.symm, h.2.2, Or.inl ⟨rfl, h.2.1.symm⟩⟩
      | GRAD =>
          simp at h
          exact ⟨p, hp, ht, h.1.symm, h.2.2, Or.inr ⟨rfl, h.2.1.symm⟩⟩
    next ht =>
      split at h
      · exact absurd h (by simp)
      next cid hcid =>
        split at h
        · exact absurd h (by simp)
        next sg eg hg =>
          split at h
          · exact absurd h (by simp)
          next s1 e1 hr1 =>
            split at h
            · exact absurd h (by simp)
            next c hc =>
              split at h
              · exact absurd h (by simp)
              next pay hpay =>
                split at h
                · exact absurd h (by simp)
                · split at h
                  · exact absurd h (by simp)
                  next s5 v5 h5 =>
                    simp at h
                    right
                    refine ⟨p, cid, sg, eg, s1, e1, hp, ht, hcid, hg, hr1, ?_, h.2.2.symm⟩
                    rw [h5, h.1, h.2.1]

/-!  Claim theorems. -/

/-- C10: for a param registered with param type TORCH_BASED, access and
access_dist return param.data for a data access and param.grad for a
grad access, and release and release_dist return immediately; in every
case the state is returned unchanged and the event trace is empty, so no
chunk, index or status state is modified. -/
theorem claim_C10_torch_based (st : ClientState) (pid : Nat) (p : PSParam)
    (dev : Device) (gd : List Payload) (reset : TensorStatus)
    (stage : TrainingStage) (red : Bool)
    (hp : getParam st pid = some p)
    (ht : p.param_type = ParamType.TORCH_BASED) :
    access st pid AccessType.DATA dev = Except.ok (st, some p.data, []) ∧
    access st pid AccessType.GRAD dev = Except.ok (st, p.grad, []) ∧
    access_dist st pid AccessType.DATA dev gd = Except.ok (st, some p.data, []) ∧
    access_dist st pid AccessType.GRAD dev gd = Except.ok (st, p.grad, []) ∧
    release st pid AccessType.DATA reset = Except.ok (st, []) ∧
    release st pid AccessType.GRAD reset = Except.ok (st, []) ∧
    release_dist st pid AccessType.DATA reset stage red = Except.ok (st, []) ∧
    release_dist st pid AccessType.GRAD reset stage red = Except.ok (st, []) := by
  refine ⟨?_, ?_, ?_, ?_, ?_, ?_, ?_, ?_⟩
  all_goals simp [access, access_dist, release, release_dist, hp, ht]

theorem claim_C10_torch_based_witness :
    getParam S1 9 = some paramT ∧
    (access S1 9 AccessType.DATA Device.cpu = Except.ok (S1, some paramT.data, []) ∧
     access S1 9 AccessType.GRAD Device.cpu = Except.ok (S1, paramT.grad, []) ∧
     access_dist S1 9 AccessType.DATA Device.cpu [] = Except.ok (S1, some paramT.data, []) ∧
     access_dist S1 9 AccessType.GRAD Device.cpu [] = Except.ok (S1, paramT.grad, []) ∧
     release S1 9 AccessType.DATA TensorStatus.HOLD = Except.ok (S1, []) ∧
     release S1 9 AccessType.GRAD TensorStatus.HOLD = Except.ok (S1, []) ∧
     release_dist S1 9 AccessType.DATA TensorStatus.HOLD TrainingStage.FWD false = Except.ok (S1, []) ∧
     release_dist S1 9 AccessType.GRAD TensorStatus.HOLD TrainingStage.FWD false = Except.ok (S1, [])) :=
  ⟨rfl, claim_C10_torch_based S1 9 paramT Device.cpu [] TensorStatus.HOLD
    TrainingStage.FWD false rfl rfl⟩

/-- C7: an access (local or distributed) of a tensor that is not
registered, or that is chunk based but has no chunk assigned in the
index, fails with an error — the result is an Except.error carrying no
state, so no status or storage change can be observed and no tensor is
returned. -/
theorem claim_C7_unregistered_access_fails (st : ClientState) (pid : Nat)
    (acc : AccessType) (dev : Device) (gd : List Payload) :
    (getParam st pid = none →
      (∃ e, access st pid acc dev = Except.error e) ∧
      (∃ e, access_dist st pid acc dev gd = Except.error e)) ∧
    (∀ p, getParam st pid = some p → p.param_type = ParamType.CHUNK_BASED →
      get_chunk_id st pid acc = none →
      (∃ e, access st pid acc dev = Except.error e) ∧
      (∃ e, access_dist st pid acc dev gd = Except.error e)) := by
  constructor
  · intro h
    exact ⟨⟨_, by simp [access, h]; rfl⟩, ⟨_, by simp [access_dist, h]; rfl⟩⟩
  · intro p hp hct hcid
    exact ⟨⟨_, by simp [access, hp, hct, hcid]; rfl⟩,
      ⟨_, by simp [access_dist, hp, hct, hcid]; rfl⟩⟩

theorem claim_C7_unregistered_access_fails_witness :
    (getParam S1 3 = none ∧
      (∃ e, access S1 3 AccessType.DATA Device.cpu = Except.error e) ∧
      (∃ e, access_dist S1 3 AccessType.DATA Device.cpu [] = Except.error e)) ∧
    (getParam S1c 5 = some paramA ∧ get_chunk_id S1c 5 AccessType.DATA = none ∧
      (∃ e, access S1c 5 AccessType.DATA Device.cpu = Except.error e) ∧
      (∃ e, access_dist S1c 5 AccessType.DATA Device.cpu [] = Except.error e)) := by
  constructor
  · refine ⟨rfl, ?_⟩
    exact (claim_C7_unregistered_access_fails S1 3 AccessType.DATA Device.cpu []).1 rfl
  · refine ⟨rfl, rfl, ?_⟩
    exact (claim_C7_unregistered_access_fails S1c 5 AccessType.DATA Device.cpu []).2
      paramA rfl rfl rfl

/-- C8: a non-distributed release of a chunk-based tensor changes only
the status slot of the released tensor (to the caller-supplied reset
status) and its framework-visible view (param.data becomes the empty
placeholder on a data release, param.grad becomes None on a grad
release); the chunk map — in particular every chunk payload — and the
registration index are untouched, and every other param is unchanged. -/
theorem claim_C8_release_frame (st : ClientState) (pid : Nat) (acc : AccessType)
    (reset : TensorStatus) (p : PSParam) (st1 : ClientState) (tr : List Event)
    (hp : getParam st pid = some p)
    (hct : p.param_type = ParamType.CHUNK_BASED)
    (hok : release st pid acc reset = Except.ok (st1, tr)) :
    tr = [] ∧
    st1 = setParam st pid (detach_view (p.set_status reset acc) acc) ∧
    st1.chunks = st.chunks ∧
    st1.tensor_id_to_info = st.tensor_id_to_info ∧
    (∀ c, chunk_payload st1 c = chunk_payload st c) ∧
    (∀ q, q ≠ pid → getParam st1 q = getParam st q) ∧
    getParam st1 pid = some (detach_view (p.set_status reset acc) acc) := by
  simp only [release, hp, hct, reduceCtorEq, reduceIte] at hok
  cases hu : update_status st (get_chunk_id st pid acc) (p.get_status acc) reset with
  | error e =>
      rw [hu] at hok
      exact absurd hok (by simp)
  | ok stx =>
      rw [hu] at hok
      simp only [Except.ok.injEq, Prod.mk.injEq] at hok
      obtain ⟨h1, h2⟩ := hok
      have hstx := update_status_ok st (get_chunk_id st pid acc) (p.get_status acc) reset stx hu
      rw [hstx] at h1
      subst h1
      refine ⟨h2.symm, rfl, rfl, rfl, fun c => rfl, ?_, ?_⟩
      · intro q hq
        exact getParam_setParam_ne st pid q _ hq
      · exact getParam_setParam_self st pid _ p hp

theorem claim_C8_release_frame_witness :
    getParam S1 0 = some paramA ∧
    (release S1 0 AccessType.DATA TensorStatus.HOLD =
      Except.ok (setParam S1 0 (detach_view (paramA.set_status TensorStatus.HOLD AccessType.DATA) AccessType.DATA), [])) ∧
    (setParam S1 0 (detach_view (paramA.set_status TensorStatus.HOLD AccessType.DATA) AccessType.DATA)).chunks = S1.chunks ∧
    getParam (setParam S1 0 (detach_view (paramA.set_status TensorStatus.HOLD AccessType.DATA) AccessType.DATA)) 1 = getParam S1 1 := by
  have hok : release S1 0 AccessType.DATA TensorStatus.HOLD =
      Except.ok (setParam S1 0 (detach_view (paramA.set_status TensorStatus.HOLD AccessType.DATA) AccessType.DATA), []) := by rfl
  have h := claim_C8_release_frame S1 0 AccessType.DATA TensorStatus.HOLD paramA
    _ _ rfl rfl hok
  exact ⟨rfl, hok, h.2.2.1, h.2.2.2.2.2.1 1 (by decide)⟩

/-- C3: the pin discipline the claim states is violated by the code, at a
concrete gathering access.  The code does pin the local chunk before
touching the group and does pin each remote chunk before the collective,
but then unpins every group chunk BEFORE the all-gather is issued (the
unpinE events precede the gatherE event in the trace), no chunk —
including the one about to be used — stays pinned, and the local chunk
is unpinned twice while pinned once: its pin count ends at -1, so its
pin count is decremented more times than it was incremented within the
call.  This contradicts the in-code comments that the pins protect the
chunks from moving before the all-gather. -/
theorem claim_C3_pin_discipline_code_bug :
    resTrace3 (access_dist S2 0 AccessType.DATA Device.cpu
        [[0, 0, 0, 0], [5, 6, 7, 8]]) =
      [Event.pinE 0, Event.allocE 1, Event.pinE 1, Event.unpinE 0,
       Event.unpinE 1, Event.gatherE [0, 1], Event.unpinE 0] ∧
    (resState3 (access_dist S2 0 AccessType.DATA Device.cpu
        [[0, 0, 0, 0], [5, 6, 7, 8]])).map (fun s => chunk_pin s 0) =
      some (some (-1)) := by
  exact ⟨by decide, by decide⟩

/-- C5: with a single configured process the distributed entry points
fall back to the local behavior exactly: for a registered chunk-based
param with an assigned chunk (and, for the release, a known
communication group and an initialized communication layer, which
release_dist asserts), access_dist returns the very same result as
access — same state, same view, same trace, hence no collective, no pin,
no storage release — and release_dist the same result as release. -/
theorem claim_C5_single_process_fallback (st : ClientState) (pid : Nat)
    (acc : AccessType) (dev : Device) (gd : List Payload)
    (reset : TensorStatus) (stage : TrainingStage) (red : Bool)
    (p : PSParam) (cid : Nat) (L : List Nat) (lc : Nat)
    (hw : st.world_size = 1)
    (hp : getParam st pid = some p)
    (hct : p.param_type = ParamType.CHUNK_BASED)
    (hcid : get_chunk_id st pid acc = some cid)
    (hL : chunk_ids_of_comm_group st cid = some L)
    (hlc : L.get? st.rank = some lc)
    (hcomm : st.comm_inited = true)
    (hstage : stage = TrainingStage.FWD ∨ stage = TrainingStage.BWD) :
    access_dist st pid acc dev gd = access st pid acc dev ∧
    release_dist st pid acc reset stage red = release st pid acc reset := by
  have hw1 : ¬ (st.world_size > 1) := by rw [hw]; decide
  constructor
  · have hg : access_dist_group st cid dev gd = Except.ok (st, []) := by
      simp [access_dist_group, hw1]
    simp only [access_dist, access, hp, hct, reduceCtorEq, reduceIte, hcid, hg]
    cases hac : access_chunk st cid dev with
    | error e => rfl
    | ok r =>
        obtain ⟨st1, ev1⟩ := r
        rcases access_chunk_post st cid dev st1 ev1 hac with ⟨c1, pay1, hc1, hp1, hd1⟩
        have hd1n : ¬ (c1.device ≠ dev) := by rw [hd1]; simp
        simp only [hc1, hp1, hd1n, reduceIte]
        cases has : access_payload_step st1 pid acc cid with
        | error e => rfl
        | ok r2 => simp
  · have hstn : ¬ (stage ≠ TrainingStage.FWD ∧ stage ≠ TrainingStage.BWD) := by
      rcases hstage with h | h <;> simp [h]
    simp only [release_dist, release, hp, hct, reduceCtorEq, reduceIte, hcid,
      hL, hlc, hcomm, if_neg hstn, Bool.true_eq_false]
    cases hu : update_status st (some cid) (p.get_status acc) reset with
    | error e => rfl
    | ok stx => simp [hw1]

theorem claim_C5_single_process_fallback_witness :
    S1.world_size = 1 ∧ getParam S1 0 = some paramA ∧
    get_chunk_id S1 0 AccessType.DATA = some 0 ∧
    chunk_ids_of_comm_group S1 0 = some [0] ∧
    (access_dist S1 0 AccessType.DATA Device.cpu [] =
        access S1 0 AccessType.DATA Device.cpu ∧
      release_dist S1 0 AccessType.DATA TensorStatus.HOLD TrainingStage.FWD false =
        release S1 0 AccessType.DATA TensorStatus.HOLD) :=
  ⟨rfl, rfl, rfl, rfl,
    claim_C5_single_process_fallback S1 0 AccessType.DATA Device.cpu []
      TensorStatus.HOLD TrainingStage.FWD false paramA 0 [0] 0
      rfl rfl rfl rfl rfl rfl rfl (Or.inl rfl)⟩

/-- C9: no access or release operation — local or distributed — ever
modifies the registration index: the tensor-id-to-record map of the
result state equals that of the input state whenever the operation
succeeds; in particular two accesses in a row leave the registered
(chunk id, offset, length) record of the tensor exactly as it was. -/
theorem claim_C9_registration_stable (st : ClientState) (pid : Nat)
    (acc : AccessType) (dev : Device) (gd : List Payload)
    (reset : TensorStatus) (stage : TrainingStage) (red : Bool) :
    (∀ st1 v tr, access st pid acc dev = Except.ok (st1, v, tr) →
        st1.tensor_id_to_info = st.tensor_id_to_info) ∧
    (∀ st1 v tr, access_dist st pid acc dev gd = Except.ok (st1, v, tr) →
        st1.tensor_id_to_info = st.tensor_id_to_info) ∧
    (∀ st1 tr, release st pid acc reset = Except.ok (st1, tr) →
        st1.tensor_id_to_info = st.tensor_id_to_info) ∧
    (∀ st1 tr, release_dist st pid acc reset stage red = Except.ok (st1, tr) →
        st1.tensor_id_to_info = st.tensor_id_to_info) ∧
    (∀ st1 v1 tr1 st2 v2 tr2,
        access st pid acc dev = Except.ok (st1, v1, tr1) →
        access st1 pid acc dev = Except.ok (st2, v2, tr2) →
        alget st2.tensor_id_to_info (tensor_id pid acc) =
          alget st.tensor_id_to_info (tensor_id pid acc)) := by
  refine ⟨?_, ?_, ?_, ?_, ?_⟩
  · intro st1 v tr h
    exact (access_sameCfg st pid acc dev st1 v tr h).2.2.2.2.2.2.1
  · intro st1 v tr h
    exact (access_dist_sameCfg st pid acc dev gd st1 v tr h).2.2.2.2.2.2.1
  · intro st1 tr h
    exact (release_sameCfg st pid acc reset st1 tr h).2.2.2.2.2.2.1
  · intro st1 tr h
    exact (release_dist_sameCfg st pid acc reset stage red st1 tr h).2.2.2.2.2.2.1
  · intro st1 v1 tr1 st2 v2 tr2 h1 h2
    rw [(access_sameCfg st1 pid acc dev st2 v2 tr2 h2).2.2.2.2.2.2.1,
      (access_sameCfg st pid acc dev st1 v1 tr1 h1).2.2.2.2.2.2.1]

theorem claim_C9_registration_stable_witness :
    (resState3 (access S1 0 AccessType.DATA Device.cpu)).map
      (fun s => s.tensor_id_to_info) = some S1.tensor_id_to_info := by
  obtain ⟨s1, v1, t1, hE⟩ :
      ∃ s v t, access S1 0 AccessType.DATA Device.cpu = Except.ok (s, v, t) := by
    cases hx : access S1 0 AccessType.DATA Device.cpu with
    | ok r => exact ⟨r.1, r.2.1, r.2.2, by rfl⟩
    | error e =>
        have hS : resState3 (access S1 0 AccessType.DATA Device.cpu) = none := by
          rw [hx]; rfl
        have hS2 : resState3 (access S1 0 AccessType.DATA Device.cpu) ≠ none := by
          decide
        exact absurd hS hS2
  have hkeep := (claim_C9_registration_stable S1 0 AccessType.DATA Device.cpu []
    TensorStatus.HOLD TrainingStage.FWD false).1 s1 v1 t1 hE
  rw [hE]
  simp [resState3, hkeep]

theorem access_core_spec (stb : ClientState) (pid : Nat) (acc : AccessType)
    (dev : Device) (info : TensorInfo) (pg : PSParam) (s1 st1 : ClientState)
    (e1 : List Event) (v : Option Payload)
    (hpg : getParam stb pid = some pg)
    (hinfo : alget stb.tensor_id_to_info (tensor_id pid acc) = some info)
    (hac : access_chunk stb info.chunk_id dev = Except.ok (s1, e1))
    (hstep : access_payload_step s1 pid acc info.chunk_id = Except.ok (st1, v)) :
    (∃ p1, getParam st1 pid = some p1 ∧
        p1.get_status acc = TensorStatus.COMPUTE) ∧
    (∃ pay1, chunk_payload st1 info.chunk_id = some pay1 ∧
        v = some ((pay1.drop info.start_offset).take info.numel)) ∧
    (pg.get_status acc = TensorStatus.FREE →
        v = some (List.replicate info.numel (0 : Rat))) ∧
    (pg.get_status acc ≠ TensorStatus.FREE →
        ∀ P0, chunk_payload stb info.chunk_id = some P0 →
          chunk_payload st1 info.chunk_id = some P0 ∧
          v = some ((P0.drop info.start_offset).take info.numel)) := by
  have hparams := access_chunk_params stb info.chunk_id dev s1 e1 hac
  have hp_s1 : getParam s1 pid = some pg := by
    rw [getParam, hparams]
    exact hpg
  have hinfo_s1 : alget s1.tensor_id_to_info (tensor_id pid acc) = some info := by
    rw [(access_chunk_sameCfg stb info.chunk_id dev s1 e1 hac).2.2.2.2.2.2.1]
    exact hinfo
  rcases access_payload_step_ok s1 pid acc info.chunk_id st1 v hstep with
    ⟨p2, info2, c, pay, hp2, hinfo2, hn2, hch2, hpay2, hb2, hcase⟩
  rw [hp_s1] at hp2
  have hpp : pg = p2 := Option.some_inj.mp hp2
  subst hpp
  rw [hinfo_s1] at hinfo2
  have hii : info = info2 := Option.some_inj.mp hinfo2
  subst hii
  have hpays1 : ∀ P0, chunk_payload stb info.chunk_id = some P0 → pay = P0 := by
    intro P0 hP0
    rcases access_chunk_ok stb info.chunk_id dev s1 e1 hac with ⟨c0, hc0, hcase0⟩
    rcases hcase0 with ⟨hpay0, -, -⟩ | ⟨pay0, hpay0, -, hst10⟩
    · rw [chunk_payload, hc0, Option.some_bind, hpay0] at hP0
      exact absurd hP0 (by simp)
    · have hP0v : pay0 = P0 := by
        rw [chunk_payload, hc0, Option.some_bind, hpay0] at hP0
        exact Option.some_inj.mp hP0
      subst hP0v
      rcases hst10 with ⟨hid, -⟩ | hmv
      · rw [hid, hc0] at hch2
        have hcc := Option.some_inj.mp hch2
        rw [← hcc, hpay0] at hpay2
        exact (Option.some_inj.mp hpay2).symm
      · rw [hmv, get_chunk_setChunk_self stb info.chunk_id _ c0 hc0] at hch2
        have hcc := Option.some_inj.mp hch2
        rw [← hcc] at hpay2
        simp at hpay2
        rw [hpay0] at hpay2
        exact (Option.some_inj.mp hpay2).symm
  rcases hcase with ⟨hfree, hst5, hv⟩ | ⟨hfree, hst5, hv⟩
  · subst hst5
    subst hv
    have hview := zero_region_view pay info.start_offset info.numel hb2
    refine ⟨?_, ?_, fun _ => rfl, fun hnf => absurd hfree hnf⟩
    · have hmid : getParam (setChunk (setParam s1 pid
          (pg.set_tensor ((pay.drop info.start_offset).take info.numel) acc))
          info.chunk_id
          { c with payload := some (zero_region pay info.start_offset info.numel) }) pid =
          some (pg.set_tensor ((pay.drop info.start_offset).take info.numel) acc) := by
        rw [getParam_setChunk]
        exact getParam_setParam_self s1 pid _ pg hp_s1
      exact ⟨_, getParam_setParam_self _ pid _ _ hmid, get_set_status_self _ _ _⟩
    · refine ⟨zero_region pay info.start_offset info.numel, ?_, by rw [hview]⟩
      have hgc : get_chunk (setChunk (setParam s1 pid
          (pg.set_tensor ((pay.drop info.start_offset).take info.numel) acc))
          info.chunk_id
          { c with payload := some (zero_region pay info.start_offset info.numel) })
          info.chunk_id =
          some { c with payload := some (zero_region pay info.start_offset info.numel) } := by
        apply get_chunk_setChunk_self
        rw [get_chunk_setParam]
        exact hch2
      rw [chunk_payload, get_chunk_setParam, hgc, Option.some_bind]
  · subst hst5
    subst hv
    refine ⟨?_, ?_, fun hf => absurd hf hfree, ?_⟩
    · exact ⟨_, getParam_setParam_self _ pid _ _
        (getParam_setParam_self s1 pid _ pg hp_s1), get_set_status_self _ _ _⟩
    · refine ⟨pay, ?_, rfl⟩
      rw [chunk_payload, get_chunk_setParam, get_chunk_setParam, hch2,
        Option.some_bind, hpay2]
    · intro hnf P0 hP0
      have hpe := hpays1 P0 hP0
      subst hpe
      constructor
      · rw [chunk_payload, get_chunk_setParam, get_chunk_setParam, hch2,
          Option.some_bind, hpay2]
      · rfl

/-- C4: a successful access of a chunk-based tensor ends with the tensor
slot at COMPUTE and returns the view of the chunk payload at the
registered offset and length.  When the status of the slot at the point
of the status check is FREE, the backing region is zero-filled first, so
the returned view is all zeros; for any other status the chunk payload —
in particular the backing region — is left exactly as it was.  For the
non-distributed access the status check sees the entry status of the
slot; for the distributed access it sees its status after the group
phase (a gather marks all group tensors HOLD first), so the payload
preserved is the one the group phase produced. -/
theorem claim_C4_zero_fill (st : ClientState) (pid : Nat) (acc : AccessType)
    (dev : Device) (gd : List Payload) (p : PSParam) (info : TensorInfo)
    (hp : getParam st pid = some p)
    (hct : p.param_type = ParamType.CHUNK_BASED)
    (hinfo : alget st.tensor_id_to_info (tensor_id pid acc) = some info) :
    (∀ st1 v tr, access st pid acc dev = Except.ok (st1, v, tr) →
        (∃ p1, getParam st1 pid = some p1 ∧
            p1.get_status acc = TensorStatus.COMPUTE) ∧
        (∃ pay1, chunk_payload st1 info.chunk_id = some pay1 ∧
            v = some ((pay1.drop info.start_offset).take info.numel)) ∧
        (p.get_status acc = TensorStatus.FREE →
            v = some (List.replicate info.numel (0 : Rat))) ∧
        (p.get_status acc ≠ TensorStatus.FREE →
            ∀ P0, chunk_payload st info.chunk_id = some P0 →
              chunk_payload st1 info.chunk_id = some P0 ∧
              v = some ((P0.drop info.start_offset).take info.numel))) ∧
    (∀ st1 v tr stg evg pg,
        access_dist_group st info.chunk_id dev gd = Except.ok (stg, evg) →
        getParam stg pid = some pg →
        access_dist st pid acc dev gd = Except.ok (st1, v, tr) →
        (∃ p1, getParam st1 pid = some p1 ∧
            p1.get_status acc = TensorStatus.COMPUTE) ∧
        (∃ pay1, chunk_payload st1 info.chunk_id = some pay1 ∧
            v = some ((pay1.drop info.start_offset).take info.numel)) ∧
        (pg.get_status acc = TensorStatus.FREE →
            v = some (List.replicate info.numel (0 : Rat))) ∧
        (pg.get_status acc ≠ TensorStatus.FREE →
            ∀ P0, chunk_payload stg info.chunk_id = some P0 →
              chunk_payload st1 info.chunk_id = some P0 ∧
              v = some ((P0.drop info.start_offset).take info.numel))) := by
  have hcid : get_chunk_id st pid acc = some info.chunk_id := by
    rw [get_chunk_id, hinfo]; rfl
  constructor
  · intro st1 v tr hok
    rcases access_ok_elim st pid acc dev st1 v tr hok with
      ⟨q, hq, hqt, -⟩ | ⟨q, cid, s1, e1, hq, -, hqcid, hac, hstep, -⟩
    · rw [hp] at hq
      rw [← Option.some_inj.mp hq, hct] at hqt
      exact absurd hqt (by decide)
    · rw [hcid] at hqcid
      have hcc : info.chunk_id = cid := Option.some_inj.mp hqcid
      rw [← hcc] at hac hstep
      exact access_core_spec st pid acc dev info p s1 st1 e1 v hp hinfo hac hstep
  · intro st1 v tr stg evg pg hg hpg hok
    rcases access_dist_ok_elim st pid acc dev gd st1 v tr hok with
      ⟨q, hq, hqt, -⟩ | ⟨q, cid, sg2, eg2, s1, e1, hq, -, hqcid, hg0, hac, hstep, -⟩
    · rw [hp] at hq
      rw [← Option.some_inj.mp hq, hct] at hqt
      exact absurd hqt (by decide)
    · rw [hcid] at hqcid
      have hcc : info.chunk_id = cid := Option.some_inj.mp hqcid
      rw [← hcc] at hg0 hac hstep
      rw [hg] at hg0
      have hgg : stg = sg2 := by
        have hpr : (stg, evg) = (sg2, eg2) := by
          injection hg0
        exact congrArg Prod.fst hpr
      rw [← hgg] at hac
      have hinfo_g : alget stg.tensor_id_to_info (tensor_id pid acc) = some info := by
        rw [(access_dist_group_sameCfg st info.chunk_id dev gd stg evg hg).2.2.2.2.2.2.1]
        exact hinfo
      exact access_core_spec stg pid acc dev info pg s1 st1 e1 v hpg hinfo_g hac hstep

theorem claim_C4_zero_fill_witness :
    resValue3 (access S1 0 AccessType.DATA Device.cpu) =
      some (List.replicate 2 (0 : Rat)) ∧
    resValue3 (access S1h 1 AccessType.DATA Device.cpu) = some [3, 4] ∧
    (resState3 (access S1h 1 AccessType.DATA Device.cpu)).map
      (fun s => chunk_payload s 0) = some (some [1, 2, 3, 4]) := by
  have Hthm := claim_C4_zero_fill S1 0 AccessType.DATA Device.cpu [] paramA
    (mkInfo 0 0 2 0) rfl rfl rfl
  obtain ⟨s1, v1, t1, hE⟩ :
      ∃ s v t, access S1 0 AccessType.DATA Device.cpu = Except.ok (s, v, t) := by
    cases hx : access S1 0 AccessType.DATA Device.cpu with
    | ok r => exact ⟨r.1, r.2.1, r.2.2, by rfl⟩
    | error e =>
        have hS : resState3 (access S1 0 AccessType.DATA Device.cpu) = none := by
          rw [hx]; rfl
        exact absurd hS (by decide)
  have h1 := (Hthm.1 s1 v1 t1 hE).2.2.1 rfl
  have Hthm2 := claim_C4_zero_fill S1h 1 AccessType.DATA Device.cpu [] paramH
    (mkInfo 0 2 2 1) rfl rfl rfl
  obtain ⟨s2, v2, t2, hE2⟩ :
      ∃ s v t, access S1h 1 AccessType.DATA Device.cpu = Except.ok (s, v, t) := by
    cases hx : access S1h 1 AccessType.DATA Device.cpu with
    | ok r => exact ⟨r.1, r.2.1, r.2.2, by rfl⟩
    | error e =>
        have hS : resState3 (access S1h 1 AccessType.DATA Device.cpu) = none := by
          rw [hx]; rfl
        exact absurd hS (by decide)
  have h2 := (Hthm2.1 s2 v2 t2 hE2).2.2.2 (by decide) [1, 2, 3, 4] (by rfl)
  refine ⟨?_, ?_, ?_⟩
  · rw [hE]
    rw [show resValue3 (Except.ok (s1, v1, t1)) = v1 from rfl, h1]
    rfl
  · rw [hE2]
    rw [show resValue3 (Except.ok (s2, v2, t2)) = v2 from rfl, h2.2]
    decide
  · rw [hE2]
    rw [show resState3 (Except.ok (s2, v2, t2)) = some s2 from rfl]
    rw [Option.map_some']
    have h21 : chunk_payload s2 0 = some [1, 2, 3, 4] := h2.1
    rw [h21]

theorem alget_alput_self {κ α : Type} [DecidableEq κ] (m : List (κ × α))
    (k : κ) (v : α) : alget (alput m k v) k = some v := by
  rw [alput]
  split_ifs with h
  · cases hx : alget m k with
    | none => rw [hx] at h; simp at h
    | some w => exact alget_alset_self m k v w hx
  · rw [alget_append_right m [(k, v)] k]
    · simp [alget]
    · cases hx : alget m k with
      | none => rfl
      | some w => rw [hx] at h; simp at h

theorem alget_alput_ne {κ α : Type} [DecidableEq κ] (m : List (κ × α))
    (k k2 : κ) (v : α) (h : k2 ≠ k) :
    alget (alput m k v) k2 = alget m k2 := by
  rw [alput]
  split_ifs with hs
  · exact alget_alset_ne m k k2 v h
  · cases hx : alget m k2 with
    | none =>
        rw [alget_append_right m [(k, v)] k2 hx]
        simp [alget]
        exact fun hh => h hh.symm
    | some w => exact alget_append_left m [(k, v)] k2 w hx

theorem total_param_numel_congr {a b : ClientState} (h : a.params = b.params) :
    ∀ pids, total_param_numel a pids = total_param_numel b pids := by
  intro pids
  induction pids with
  | nil => rfl
  | cons pid rest ih =>
      rw [total_param_numel, total_param_numel, ih, getParam, getParam, h]

theorem insert_layout_congr {a b : ClientState} (h : a.params = b.params)
    (cid : Nat) (acc : AccessType) :
    ∀ pids off, insert_layout a cid acc pids off = insert_layout b cid acc pids off := by
  intro pids
  induction pids with
  | nil => intro off; rfl
  | cons pid rest ih =>
      intro off
      rw [insert_layout, insert_layout, getParam, getParam, h]
      cases alget b.params pid with
      | none => exact ih off
      | some p =>
          simp only []
          rw [ih]

theorem append_chunk_facts (st : ClientState) (ct : ChunkType) (dummy : Bool) :
    (append_chunk st ct dummy).2 = st.next_chunk_id ∧
    (append_chunk st ct dummy).1.params = st.params ∧
    (append_chunk st ct dummy).1.next_chunk_id = st.next_chunk_id + 1 ∧
    (append_chunk st ct dummy).1.default_chunk_size = st.default_chunk_size ∧
    (append_chunk st ct dummy).1.tensor_id_to_info = st.tensor_id_to_info ∧
    (append_chunk st ct dummy).1.chunk_id_to_tensor_ids =
      st.chunk_id_to_tensor_ids ++ [(st.next_chunk_id, [])] ∧
    (append_chunk st ct dummy).1.chunks = st.chunks ++
      [(st.next_chunk_id,
        { capacity := st.default_chunk_size, is_dummy := dummy,
          payload := none, device := Device.cpu, pin_cnt := 0 })] :=
  ⟨rfl, rfl, rfl, rfl, rfl, rfl, rfl⟩

theorem try_insert_true (st : ClientState) (cid : Nat) (pids : List Nat)
    (acc : AccessType) (c : Chunk) (tot : Nat)
    (hch : get_chunk st cid = some c)
    (htot : total_param_numel st pids = some tot)
    (hfit : chunk_end_offset st cid + tot ≤ c.capacity) :
    try_insert_tensor_list st cid pids acc = Except.ok (true,
      { st with
          tensor_id_to_info := st.tensor_id_to_info ++
            insert_layout st cid acc pids (chunk_end_offset st cid),
          chunk_id_to_tensor_ids := alput st.chunk_id_to_tensor_ids cid
            (((alget st.chunk_id_to_tensor_ids cid).getD []) ++
              pids.map (fun pid => tensor_id pid acc)) }) := by
  simp only [try_insert_tensor_list, hch, htot]
  rw [if_pos hfit]

theorem try_insert_false (st : ClientState) (cid : Nat) (pids : List Nat)
    (acc : AccessType) (c : Chunk) (tot : Nat)
    (hch : get_chunk st cid = some c)
    (htot : total_param_numel st pids = some tot)
    (hnofit : ¬ chunk_end_offset st cid + tot ≤ c.capacity) :
    try_insert_tensor_list st cid pids acc = Except.ok (false, st) := by
  simp only [try_insert_tensor_list, hch, htot]
  rw [if_neg hnofit]

/-- C6: appending a param list to a chunk category: when the list fits
the remaining space of the last chunk of the category it is inserted
there, contiguously and in order, and no chunk is created; otherwise a
fresh chunk is created and the whole list inserted into it from offset
zero, with the last chunk left untouched (the failed insertion attempt
mutates nothing); and when the total size exceeds the default chunk size
— so the list does not fit even a fresh chunk — the call raises the
fatal RuntimeError. -/
theorem claim_C6_append_tensor (st : ClientState) (pids : List Nat)
    (acc : AccessType) (ct : ChunkType) (last : Nat) (c : Chunk) (tot : Nat)
    (hlast : (chunk_ids_of_type st ct).getLast? = some last)
    (hch : get_chunk st last = some c)
    (htot : total_param_numel st pids = some tot)
    (hfresh_t : alget st.chunk_id_to_tensor_ids st.next_chunk_id = none)
    (hfresh_c : alget st.chunks st.next_chunk_id = none) :
    (chunk_end_offset st last + tot ≤ c.capacity →
      append_tensor st pids acc ct = Except.ok
        { st with
            tensor_id_to_info := st.tensor_id_to_info ++
              insert_layout st last acc pids (chunk_end_offset st last),
            chunk_id_to_tensor_ids := alput st.chunk_id_to_tensor_ids last
              (((alget st.chunk_id_to_tensor_ids last).getD []) ++
                pids.map (fun pid => tensor_id pid acc)) }) ∧
    (¬ chunk_end_offset st last + tot ≤ c.capacity →
      tot ≤ st.default_chunk_size →
      ∃ st1, append_tensor st pids acc ct = Except.ok st1 ∧
        st1.next_chunk_id = st.next_chunk_id + 1 ∧
        alget st1.chunk_id_to_tensor_ids last =
          alget st.chunk_id_to_tensor_ids last ∧
        alget st1.chunk_id_to_tensor_ids st.next_chunk_id =
          some (pids.map (fun pid => tensor_id pid acc)) ∧
        st1.tensor_id_to_info = st.tensor_id_to_info ++
          insert_layout st st.next_chunk_id acc pids 0 ∧
        (∃ cF, alget st1.chunks st.next_chunk_id = some cF ∧
          cF.capacity = st.default_chunk_size ∧ cF.payload = none)) ∧
    (¬ chunk_end_offset st last + tot ≤ c.capacity →
      ¬ tot ≤ st.default_chunk_size →
      ∃ e, append_tensor st pids acc ct = Except.error e) := by
  have hlne : last ≠ st.next_chunk_id := by
    intro hh
    rw [hh, get_chunk, hfresh_c] at hch
    exact Option.noConfusion hch
  have hfacts := append_chunk_facts st ct false
  have hchA : get_chunk (append_chunk st ct false).1 st.next_chunk_id =
      some { capacity := st.default_chunk_size, is_dummy := false,
             payload := none, device := Device.cpu, pin_cnt := 0 } := by
    rw [get_chunk, hfacts.2.2.2.2.2.2, alget_append_right _ _ _ hfresh_c]
    simp [alget]
  have htotA : total_param_numel (append_chunk st ct false).1 pids = some tot := by
    rw [total_param_numel_congr hfacts.2.1]
    exact htot
  have hgetA : alget (append_chunk st ct false).1.chunk_id_to_tensor_ids
      st.next_chunk_id = some [] := by
    rw [hfacts.2.2.2.2.2.1, alget_append_right _ _ _ hfresh_t]
    simp [alget]
  have hendA : chunk_end_offset (append_chunk st ct false).1 st.next_chunk_id = 0 := by
    rw [chunk_end_offset, chunk_tensor_infos, hgetA]
    rfl
  refine ⟨?_, ?_, ?_⟩
  · intro hfit
    simp only [append_tensor, hlast,
      try_insert_true st last pids acc c tot hch htot hfit, reduceIte]
  · intro hnofit hsmall
    have hfitA : chunk_end_offset (append_chunk st ct false).1 st.next_chunk_id
        + tot ≤ ({ capacity := st.default_chunk_size, is_dummy := false,
                   payload := none, device := Device.cpu, pin_cnt := 0 } : Chunk).capacity := by
      rw [hendA]
      simpa using hsmall
    have hins := try_insert_true (append_chunk st ct false).1 st.next_chunk_id
      pids acc _ tot hchA htotA hfitA
    refine ⟨{ (append_chunk st ct false).1 with
        tensor_id_to_info := (append_chunk st ct false).1.tensor_id_to_info ++
          insert_layout (append_chunk st ct false).1 st.next_chunk_id acc pids
            (chunk_end_offset (append_chunk st ct false).1 st.next_chunk_id),
        chunk_id_to_tensor_ids :=
          alput (append_chunk st ct false).1.chunk_id_to_tensor_ids
            st.next_chunk_id
            (((alget (append_chunk st ct false).1.chunk_id_to_tensor_ids
                st.next_chunk_id).getD []) ++
              pids.map (fun pid => tensor_id pid acc)) }, ?_, ?_, ?_, ?_, ?_, ?_⟩
    · simp only [append_tensor, hlast,
        try_insert_false st last pids acc c tot hch htot hnofit, reduceIte,
        Bool.false_eq_true, append_tensor_new_chunk, hfacts.1, hins]
    · show ({ (append_chunk st ct false).1 with
          tensor_id_to_info := _, chunk_id_to_tensor_ids := _ } : ClientState).next_chunk_id
          = st.next_chunk_id + 1
      exact hfacts.2.2.1
    · show alget (alput (append_chunk st ct false).1.chunk_id_to_tensor_ids
          st.next_chunk_id _) last = _
      rw [alget_alput_ne _ _ _ _ hlne, hfacts.2.2.2.2.2.1]
      cases hx : alget st.chunk_id_to_tensor_ids last with
      | none =>
          rw [alget_append_right _ _ _ hx]
          simp [alget]
          exact fun hh => hlne hh.symm
      | some w => exact alget_append_left _ _ _ _ hx
    · show alget (alput (append_chunk st ct false).1.chunk_id_to_tensor_ids
          st.next_chunk_id _) st.next_chunk_id = _
      rw [alget_alput_self, hgetA]
      rfl
    · show (append_chunk st ct false).1.tensor_id_to_info ++
          insert_layout (append_chunk st ct false).1 st.next_chunk_id acc pids
            (chunk_end_offset (append_chunk st ct false).1 st.next_chunk_id) = _
      rw [hfacts.2.2.2.2.1, hendA, insert_layout_congr hfacts.2.1]
    · exact ⟨_, hchA, rfl, rfl⟩
  · intro hnofit hbig
    have hnofitA : ¬ (chunk_end_offset (append_chunk st ct false).1 st.next_chunk_id
        + tot ≤ ({ capacity := st.default_chunk_size, is_dummy := false,
                   payload := none, device := Device.cpu, pin_cnt := 0 } : Chunk).capacity) := by
      rw [hendA]
      simpa using hbig
    have hins := try_insert_false (append_chunk st ct false).1 st.next_chunk_id
      pids acc _ tot hchA htotA hnofitA
    refine ⟨("RuntimeError: can not append a tensor to chunk_tensor_index, overall size of param list is larger than the default chunk size"), ?_⟩
    simp only [append_tensor, hlast,
      try_insert_false st last pids acc c tot hch htot hnofit, reduceIte,
      Bool.false_eq_true, append_tensor_new_chunk, hfacts.1, hins]

theorem claim_C6_append_tensor_witness :
    (∃ st1, append_tensor S6 [5] AccessType.DATA ChunkType.PARAM_FP16 = Except.ok st1 ∧
      st1.next_chunk_id = 1 ∧ alget st1.chunk_id_to_tensor_ids 0 = some [0, 10]) ∧
    (∃ st1, append_tensor S6 [5, 6] AccessType.DATA ChunkType.PARAM_FP16 = Except.ok st1 ∧
      st1.next_chunk_id = 2 ∧ alget st1.chunk_id_to_tensor_ids 0 = some [0] ∧
      alget st1.chunk_id_to_tensor_ids 1 = some [10, 12]) ∧
    (∃ e, append_tensor S6 [5, 6, 7] AccessType.DATA ChunkType.PARAM_FP16 =
      Except.error e) := by
  refine ⟨?_, ?_, ?_⟩
  · have h := (claim_C6_append_tensor S6 [5] AccessType.DATA ChunkType.PARAM_FP16
      0 chunkA 2 (by decide) rfl rfl rfl rfl).1 (by decide)
    exact ⟨_, h, rfl, by decide⟩
  · obtain ⟨st1, heq, h2, h3, h4, _⟩ := (claim_C6_append_tensor S6 [5, 6]
      AccessType.DATA ChunkType.PARAM_FP16 0 chunkA 4
      (by decide) rfl rfl rfl rfl).2.1 (by decide) (by decide)
    exact ⟨st1, heq, h2, h3, h4⟩
  · exact (claim_C6_append_tensor S6 [5, 6, 7] AccessType.DATA ChunkType.PARAM_FP16
      0 chunkA 6 (by decide) rfl rfl rfl rfl).2.2 (by decide) (by decide)

/-!  Lemmas for the distributed-access gather protocol: trace counting,
preservation of chunk payloads and aggregate statuses by the residency
and pin primitives, and the postconditions of the fetch loops. -/

theorem gatherCount_append (a b : List Event) :
    gatherCount (a ++ b) = gatherCount a + gatherCount b := by
  simp [gatherCount, List.filter_append]

theorem allocCount_append (a b : List Event) :
    allocCount (a ++ b) = allocCount a + allocCount b := by
  simp [allocCount, List.filter_append]

theorem chunk_payload_some_elim (st : ClientState) (c : Nat)
    (h : (chunk_payload st c).isSome = true) :
    ∃ ch pay, get_chunk st c = some ch ∧ ch.payload = some pay := by
  cases hch : get_chunk st c with
  | none => rw [chunk_payload, hch] at h; simp at h
  | some ch =>
      cases hpay : ch.payload with
      | none => rw [chunk_payload, hch] at h; simp [hpay] at h
      | some pay => exact ⟨ch, pay, rfl, hpay⟩

theorem statuses_congr {a b : ClientState} (hcfg : SameCfg a b)
    (hp : a.params = b.params) (c : Nat) :
    chunk_tensor_statuses a c = chunk_tensor_statuses b c := by
  rw [chunk_tensor_statuses, chunk_tensor_statuses, chunk_tensor_infos_cfg hcfg c]
  have hf : info_status a = info_status b := by
    funext i
    simp only [info_status, getParam, hp]
  rw [hf]

theorem setChunk_pres (st : ClientState) (cid : Nat) (c0 c : Chunk)
    (hc : get_chunk st cid = some c0) (hpay : c.payload = c0.payload) :
    (∀ c2, chunk_get_status (setChunk st cid c) c2 = chunk_get_status st c2) ∧
    (∀ c2, chunk_payload (setChunk st cid c) c2 = chunk_payload st c2) := by
  constructor
  · intro c2
    exact chunk_get_status_setChunk_same st cid c0 c hc (by rw [hpay]) c2
  · intro c2
    by_cases h2 : c2 = cid
    · subst h2
      rw [chunk_payload, chunk_payload, get_chunk_setChunk_self st c2 c c0 hc, hc]
      simp [hpay]
    · rw [chunk_payload, chunk_payload, get_chunk_setChunk_ne st cid c2 c h2]

theorem pin_chunk_pres (st : ClientState) (cid : Nat) (st1 : ClientState)
    (h : pin_chunk st cid = Except.ok st1) :
    (∀ c2, chunk_get_status st1 c2 = chunk_get_status st c2) ∧
    (∀ c2, chunk_payload st1 c2 = chunk_payload st c2) ∧
    st1.params = st.params := by
  rcases pin_chunk_ok st cid st1 h with ⟨c, hc, h1⟩
  subst h1
  have hpres := setChunk_pres st cid c { c with pin_cnt := c.pin_cnt + 1 } hc rfl
  exact ⟨hpres.1, hpres.2, rfl⟩

theorem unpin_chunk_pres (st : ClientState) (cid : Nat) (st1 : ClientState)
    (h : unpin_chunk st cid = Except.ok st1) :
    (∀ c2, chunk_get_status st1 c2 = chunk_get_status st c2) ∧
    (∀ c2, chunk_payload st1 c2 = chunk_payload st c2) ∧
    st1.params = st.params := by
  rcases unpin_chunk_ok st cid st1 h with ⟨c, hc, h1⟩
  subst h1
  have hpres := setChunk_pres st cid c { c with pin_cnt := c.pin_cnt - 1 } hc rfl
  exact ⟨hpres.1, hpres.2, rfl⟩

theorem access_chunk_pres_some (st : ClientState) (cid : Nat) (dev : Device)
    (st1 : ClientState) (ev : List Event) (pay : Payload)
    (hpay : chunk_payload st cid = some pay)
    (h : access_chunk st cid dev = Except.ok (st1, ev)) :
    (∀ c2, chunk_get_status st1 c2 = chunk_get_status st c2) ∧
    (∀ c2, chunk_payload st1 c2 = chunk_payload st c2) ∧
    st1.params = st.params ∧ ev = [] := by
  rcases access_chunk_ok st cid dev st1 ev h with ⟨c, hc, hcase⟩
  have hcp : c.payload = some pay := by
    rw [chunk_payload, hc] at hpay
    exact hpay
  rcases hcase with ⟨hnone, -, -⟩ | ⟨pay2, hp2, hev, hst1⟩
  · rw [hcp] at hnone; exact Option.noConfusion hnone
  · rcases hst1 with ⟨hst1, -⟩ | hst1
    · subst hst1; exact ⟨fun c2 => rfl, fun c2 => rfl, rfl, hev⟩
    · subst hst1
      have hpres := setChunk_pres st cid c { c with device := dev } hc rfl
      exact ⟨hpres.1, hpres.2, rfl, hev⟩

theorem access_chunk_pres_ne (st : ClientState) (cid : Nat) (dev : Device)
    (st1 : ClientState) (ev : List Event)
    (h : access_chunk st cid dev = Except.ok (st1, ev)) (c2 : Nat) (h2 : c2 ≠ cid) :
    chunk_get_status st1 c2 = chunk_get_status st c2 ∧
    chunk_payload st1 c2 = chunk_payload st c2 := by
  rcases access_chunk_ok st cid dev st1 ev h with ⟨c, hc, hcase⟩
  have hgen : ∀ (cx : Chunk),
      chunk_get_status (setChunk st cid cx) c2 = chunk_get_status st c2 ∧
      chunk_payload (setChunk st cid cx) c2 = chunk_payload st c2 := by
    intro cx
    constructor
    · apply chunk_get_status_congr
      · exact chunk_tensor_statuses_setChunk st cid cx c2
      · rw [get_chunk_setChunk_ne st cid c2 cx h2]
    · rw [chunk_payload, chunk_payload, get_chunk_setChunk_ne st cid c2 cx h2]
  rcases hcase with ⟨-, -, hst1⟩ | ⟨pay2, -, -, hst1⟩
  · subst hst1; exact hgen _
  · rcases hst1 with ⟨hst1, -⟩ | hst1
    · subst hst1; exact ⟨rfl, rfl⟩
    · subst hst1; exact hgen _

theorem access_chunk_gather0 (st : ClientState) (cid : Nat) (dev : Device)
    (st1 : ClientState) (ev : List Event)
    (h : access_chunk st cid dev = Except.ok (st1, ev)) : gatherCount ev = 0 := by
  rcases access_chunk_ok st cid dev st1 ev h with ⟨c, -, hcase⟩
  rcases hcase with ⟨-, hev, -⟩ | ⟨pay2, -, hev, -⟩ <;> subst hev <;> rfl

theorem access_chunk_payload_isSome (st : ClientState) (cid : Nat)
    (dev : Device) (st1 : ClientState) (ev : List Event)
    (h : access_chunk st cid dev = Except.ok (st1, ev)) :
    (chunk_payload st1 cid).isSome = true := by
  rcases access_chunk_post st cid dev st1 ev h with ⟨c1, pay1, hch, hp, -⟩
  rw [chunk_payload, hch]
  simp [hp]

theorem access_chunk_released_back (st : ClientState) (cid : Nat) (dev : Device)
    (st1 : ClientState) (ev : List Event)
    (h : access_chunk st cid dev = Except.ok (st1, ev)) (c2 : Nat)
    (hrel : chunk_get_status st1 c2 = some ChunkStatus.RELEASED) :
    chunk_get_status st c2 = some ChunkStatus.RELEASED := by
  by_cases h2 : c2 = cid
  · subst h2
    rcases access_chunk_ok st c2 dev st1 ev h with ⟨c, hc, hcase⟩
    rcases hcase with ⟨hnone, -, -⟩ | ⟨pay, hpay, -, hst1⟩
    · exact chunk_get_status_released_of_none st c2 c hc hnone
    · rcases hst1 with ⟨hst1, -⟩ | hst1
      · exact hst1 ▸ hrel
      · subst hst1
        rw [← (setChunk_pres st c2 c { c with device := dev } hc rfl).1 c2]
        exact hrel
  · rw [← (access_chunk_pres_ne st cid dev st1 ev h c2 h2).1]
    exact hrel

theorem chunk_not_released_elim (st : ClientState) (c : Nat) (ch : Chunk)
    (hch : get_chunk st c = some ch)
    (h : chunk_get_status st c ≠ some ChunkStatus.RELEASED) :
    (∃ pay, ch.payload = some pay) ∧
    (chunk_tensor_statuses st c = [] ∨
      ∃ x ∈ chunk_tensor_statuses st c, x ≠ TensorStatus.RELEASED) := by
  cases hpay : ch.payload with
  | none => exact absurd (chunk_get_status_released_of_none st c ch hch hpay) h
  | some pay =>
      refine ⟨⟨pay, rfl⟩, ?_⟩
      by_cases hss : chunk_tensor_statuses st c = []
      · exact Or.inl hss
      · by_contra hcon
        push_neg at hcon
        have hall : ∀ x ∈ chunk_tensor_statuses st c, x = TensorStatus.RELEASED :=
          fun x hx => hcon.2 x hx
        apply h
        simp only [chunk_get_status, hch, Option.map_some']
        rw [hpay]
        simp only []
        have h1 : TensorStatus.COMPUTE ∉ chunk_tensor_statuses st c :=
          fun hcomp => absurd (hall _ hcomp) (by decide)
        rw [if_neg h1, if_pos ⟨hss, hall⟩]

theorem chunk_not_released_intro (st : ClientState) (c : Nat) (ch : Chunk)
    (pay : Payload) (hch : get_chunk st c = some ch)
    (hpay : ch.payload = some pay)
    (hcase : chunk_tensor_statuses st c = [] ∨
      ∃ x ∈ chunk_tensor_statuses st c, x ≠ TensorStatus.RELEASED) :
    chunk_get_status st c ≠ some ChunkStatus.RELEASED := by
  intro hcon
  rcases chunk_get_status_released_elim st c hcon with ⟨ch2, hch2, hc2⟩
  rw [hch, Option.some_inj] at hch2
  subst hch2
  rcases hc2 with hnone | ⟨hne, hall⟩
  · rw [hpay] at hnone
    exact Option.noConfusion hnone
  · rcases hcase with hnil | ⟨x, hx, hxne⟩
    · exact hne hnil
    · exact hxne (hall x hx)

theorem aps_info_status (st1 : ClientState) (pid : Nat) (acc : AccessType)
    (cid : Nat) (st5 : ClientState) (v : Option Payload)
    (h : access_payload_step st1 pid acc cid = Except.ok (st5, v))
    (j : TensorInfo) :
    info_status st5 j = info_status st1 j ∨
    (j.param_id = pid ∧ j.access_type = acc ∧
      info_status st5 j = some TensorStatus.COMPUTE) := by
  rcases access_payload_step_ok st1 pid acc cid st5 v h with
    ⟨p, info, c, pay, hp, hinfo, hn, hch, hpay, hb, hcase⟩
  have hmain : ∀ (A : ClientState) (p1 p3 : PSParam),
      getParam A pid = some p1 →
      (∀ q, q ≠ pid → getParam A q = getParam st1 q) →
      p3.get_status acc = TensorStatus.COMPUTE →
      (∀ b, b ≠ acc → p3.get_status b = p.get_status b) →
      info_status (setParam A pid p3) j = info_status st1 j ∨
      (j.param_id = pid ∧ j.access_type = acc ∧
        info_status (setParam A pid p3) j = some TensorStatus.COMPUTE) := by
    intro A p1 p3 hA hApres hcomp hother
    by_cases hq : j.param_id = pid
    · by_cases ha : j.access_type = acc
      · refine Or.inr ⟨hq, ha, ?_⟩
        rw [info_status, hq, getParam_setParam_self A pid p3 p1 hA,
          Option.map_some', ha, hcomp]
      · refine Or.inl ?_
        rw [info_status, hq, getParam_setParam_self A pid p3 p1 hA,
          Option.map_some', hother j.access_type ha, info_status, hq, hp,
          Option.map_some']
    · refine Or.inl ?_
      rw [info_status, getParam_setParam_ne A pid j.param_id p3 hq,
        hApres j.param_id hq, info_status]
  rcases hcase with ⟨hfree, hst5, hv⟩ | ⟨hfree, hst5, hv⟩ <;> subst hst5
  · refine hmain _
      (p.set_tensor ((pay.drop info.start_offset).take info.numel) acc) _
      ?_ ?_ ?_ ?_
    · rw [getParam_setChunk]
      exact getParam_setParam_self st1 pid _ p hp
    · intro q hq
      rw [getParam_setChunk, getParam_setParam_ne st1 pid q _ hq]
    · exact get_set_status_self _ _ _
    · intro b hb
      rw [get_set_status_other _ _ _ _ hb, get_status_set_tensor,
        get_status_set_tensor]
  · refine hmain _
      (p.set_tensor ((pay.drop info.start_offset).take info.numel) acc) _
      ?_ ?_ ?_ ?_
    · exact getParam_setParam_self st1 pid _ p hp
    · intro q hq
      exact getParam_setParam_ne st1 pid q _ hq
    · exact get_set_status_self _ _ _
    · intro b hb
      rw [get_set_status_other _ _ _ _ hb, get_status_set_tensor]

theorem aps_statuses_nil (st1 : ClientState) (pid : Nat) (acc : AccessType)
    (cid : Nat) (st5 : ClientState) (v : Option Payload)
    (h : access_payload_step st1 pid acc cid = Except.ok (st5, v)) (c2 : Nat)
    (hnil : chunk_tensor_statuses st1 c2 = []) :
    chunk_tensor_statuses st5 c2 = [] := by
  rcases access_payload_step_ok st1 pid acc cid st5 v h with
    ⟨p, info, c, pay, hp, hinfo, hn, hch, hpay, hb, hcase⟩
  rw [chunk_tensor_statuses, List.filterMap_eq_nil]
  intro j hj
  rw [chunk_tensor_infos_cfg (aps_sameCfg st1 pid acc cid st5 v h) c2] at hj
  have hj1 : info_status st1 j = none := by
    rw [chunk_tensor_statuses, List.filterMap_eq_nil] at hnil
    exact hnil j hj
  rcases aps_info_status st1 pid acc cid st5 v h j with heq | ⟨hq, -, -⟩
  · rw [heq, hj1]
  · rw [info_status, hq, hp, Option.map_some'] at hj1
    exact Option.noConfusion hj1

theorem aps_status_keep (st1 : ClientState) (pid : Nat) (acc : AccessType)
    (cid : Nat) (st5 : ClientState) (v : Option Payload)
    (h : access_payload_step st1 pid acc cid = Except.ok (st5, v)) (c2 : Nat)
    (x : TensorStatus) (hx : x ∈ chunk_tensor_statuses st1 c2)
    (hxne : x ≠ TensorStatus.RELEASED) :
    ∃ y ∈ chunk_tensor_statuses st5 c2, y ≠ TensorStatus.RELEASED := by
  rcases (mem_chunk_tensor_statuses st1 c2 x).mp hx with ⟨j, hj, hjs⟩
  have hj5 : j ∈ chunk_tensor_infos st5 c2 := by
    rw [chunk_tensor_infos_cfg (aps_sameCfg st1 pid acc cid st5 v h) c2]
    exact hj
  rcases aps_info_status st1 pid acc cid st5 v h j with heq | ⟨-, -, hcomp⟩
  · exact ⟨x, (mem_chunk_tensor_statuses st5 c2 x).mpr ⟨j, hj5, heq.trans hjs⟩, hxne⟩
  · exact ⟨TensorStatus.COMPUTE,
      (mem_chunk_tensor_statuses st5 c2 _).mpr ⟨j, hj5, hcomp⟩, by decide⟩

theorem aps_statuses_other (st1 : ClientState) (pid : Nat) (acc : AccessType)
    (cid : Nat) (st5 : ClientState) (v : Option Payload)
    (h : access_payload_step st1 pid acc cid = Except.ok (st5, v)) (c2 : Nat)
    (x : TensorStatus) (hx : x ∈ chunk_tensor_statuses st5 c2) :
    x = TensorStatus.COMPUTE ∨ x ∈ chunk_tensor_statuses st1 c2 := by
  rcases (mem_chunk_tensor_statuses st5 c2 x).mp hx with ⟨j, hj, hjs⟩
  have hj1 : j ∈ chunk_tensor_infos st1 c2 := by
    rw [← chunk_tensor_infos_cfg (aps_sameCfg st1 pid acc cid st5 v h) c2]
    exact hj
  rcases aps_info_status st1 pid acc cid st5 v h j with heq | ⟨-, -, hcomp⟩
  · exact Or.inr ((mem_chunk_tensor_statuses st1 c2 x).mpr ⟨j, hj1, heq.symm.trans hjs⟩)
  · rw [hjs] at hcomp
    exact Or.inl (Option.some_inj.mp hcomp)

theorem aps_payload_mono (st1 : ClientState) (pid : Nat) (acc : AccessType)
    (cid : Nat) (st5 : ClientState) (v : Option Payload)
    (h : access_payload_step st1 pid acc cid = Except.ok (st5, v)) (c2 : Nat)
    (hs : (chunk_payload st1 c2).isSome = true) :
    (chunk_payload st5 c2).isSome = true := by
  rcases access_payload_step_ok st1 pid acc cid st5 v h with
    ⟨p, info, c, pay, hp, hinfo, hn, hch, hpay, hb, hcase⟩
  rcases hcase with ⟨-, hst5, -⟩ | ⟨-, hst5, -⟩ <;> subst hst5
  · by_cases h2 : c2 = cid
    · subst h2
      rw [chunk_payload, get_chunk_setParam,
        get_chunk_setChunk_self _ _ _ c (by rw [get_chunk_setParam]; exact hch)]
      rfl
    · rw [chunk_payload, get_chunk_setParam,
        get_chunk_setChunk_ne _ _ _ _ h2, get_chunk_setParam]
      exact hs
  · exact hs

theorem aps_chunks_none (st1 : ClientState) (pid : Nat) (acc : AccessType)
    (cid : Nat) (st5 : ClientState) (v : Option Payload)
    (h : access_payload_step st1 pid acc cid = Except.ok (st5, v)) (c2 : Nat)
    (hn2 : get_chunk st1 c2 = none) : get_chunk st5 c2 = none := by
  rcases access_payload_step_ok st1 pid acc cid st5 v h with
    ⟨p, info, c, pay, hp, hinfo, hn, hch, hpay, hb, hcase⟩
  have h2 : c2 ≠ cid := by
    intro hh
    rw [hh, hch] at hn2
    exact Option.noConfusion hn2
  rcases hcase with ⟨-, hst5, -⟩ | ⟨-, hst5, -⟩ <;> subst hst5
  · rw [get_chunk_setParam, get_chunk_setChunk_ne _ _ _ _ h2, get_chunk_setParam]
    exact hn2
  · exact hn2

theorem aps_not_released (st1 : ClientState) (pid : Nat) (acc : AccessType)
    (cid : Nat) (st5 : ClientState) (v : Option Payload)
    (h : access_payload_step st1 pid acc cid = Except.ok (st5, v)) (c2 : Nat)
    (hnr : chunk_get_status st1 c2 ≠ some ChunkStatus.RELEASED) :
    chunk_get_status st5 c2 ≠ some ChunkStatus.RELEASED := by
  cases hch2 : get_chunk st1 c2 with
  | none =>
      have h5 : get_chunk st5 c2 = none :=
        aps_chunks_none st1 pid acc cid st5 v h c2 hch2
      rw [chunk_get_status, h5]
      simp
  | some ch =>
      obtain ⟨⟨pay0, hpay0⟩, hss⟩ := chunk_not_released_elim st1 c2 ch hch2 hnr
      have hsome1 : (chunk_payload st1 c2).isSome = true := by
        rw [chunk_payload, hch2]
        simp [hpay0]
      have hsome5 := aps_payload_mono st1 pid acc cid st5 v h c2 hsome1
      obtain ⟨ch5, pay5, hch5, hpay5⟩ := chunk_payload_some_elim st5 c2 hsome5
      refine chunk_not_released_intro st5 c2 ch5 pay5 hch5 hpay5 ?_
      rcases hss with hnil | ⟨x, hx, hxne⟩
      · exact Or.inl (aps_statuses_nil st1 pid acc cid st5 v h c2 hnil)
      · exact Or.inr (aps_status_keep st1 pid acc cid st5 v h c2 x hx hxne)

theorem set_all_hold_keep (st : ClientState) (c c2 : Nat) (s : TensorStatus)
    (hall : ∀ x ∈ chunk_tensor_statuses st c2, x = s) :
    ∀ x ∈ chunk_tensor_statuses (set_all_tensors_status_in_chunk st c s) c2,
      x = s := by
  intro x hx
  rcases statuses_set_all_other st c s c2 x hx with h | h
  · exact h
  · exact hall x h

theorem fetch_alloc_loop_gather0 (dev : Device) (lc : Nat) :
    ∀ (L : List Nat) (st stF : ClientState) (ev : List Event),
    fetch_alloc_loop dev lc L st = Except.ok (stF, ev) → gatherCount ev = 0 := by
  intro L
  induction L with
  | nil =>
      intro st stF ev h
      rw [fetch_alloc_loop] at h
      simp at h
      rw [h.2]
      rfl
  | cons cid rest ih =>
      intro st stF ev h
      rw [fetch_alloc_loop] at h
      split at h
      · exact ih _ _ _ h
      · split at h
        · exact absurd h (by simp)
        next stA hA =>
          split at h
          · exact absurd h (by simp)
          next stB hB =>
            cases hr : fetch_alloc_loop dev lc rest
                (set_all_tensors_status_in_chunk stB cid TensorStatus.HOLD) with
            | error e => rw [hr] at h; exact absurd h (by simp [Except.map])
            | ok r =>
                rw [hr] at h
                simp [Except.map] at h
                rw [← h.2]
                have hrest := ih _ _ _ (by rw [hr])
                simp only [gatherCount, List.filter] at hrest ⊢
                exact hrest

theorem fetch_alloc_loop_hold_mono (dev : Device) (lc : Nat) (c2 : Nat) :
    ∀ (L : List Nat) (st stF : ClientState) (ev : List Event),
    fetch_alloc_loop dev lc L st = Except.ok (stF, ev) →
    (∀ x ∈ chunk_tensor_statuses st c2, x = TensorStatus.HOLD) →
    ∀ x ∈ chunk_tensor_statuses stF c2, x = TensorStatus.HOLD := by
  intro L
  induction L with
  | nil =>
      intro st stF ev h hall
      rw [fetch_alloc_loop] at h
      simp at h
      rw [← h.1]
      exact hall
  | cons cid rest ih =>
      intro st stF ev h hall
      rw [fetch_alloc_loop] at h
      split at h
      · exact ih _ _ _ h (set_all_hold_keep st cid c2 TensorStatus.HOLD hall)
      · split at h
        · exact absurd h (by simp)
        next stA hA =>
          split at h
          · exact absurd h (by simp)
          next stB hB =>
            cases hr : fetch_alloc_loop dev lc rest
                (set_all_tensors_status_in_chunk stB cid TensorStatus.HOLD) with
            | error e => rw [hr] at h; exact absurd h (by simp [Except.map])
            | ok r =>
                rw [hr] at h
                simp [Except.map] at h
                rw [← h.1]
                obtain ⟨cA, -, hA1⟩ := allocate_payload_ok st cid dev stA hA
                obtain ⟨cB, -, hB1⟩ := pin_chunk_ok stA cid stB hB
                have hallB : ∀ x ∈ chunk_tensor_statuses stB c2,
                    x = TensorStatus.HOLD := by
                  rw [hB1, chunk_tensor_statuses_setChunk, hA1,
                    chunk_tensor_statuses_setChunk]
                  exact hall
                exact ih _ _ _ (by rw [hr])
                  (set_all_hold_keep stB cid c2 TensorStatus.HOLD hallB)

theorem fetch_alloc_loop_hold (dev : Device) (lc : Nat) :
    ∀ (L : List Nat) (st stF : ClientState) (ev : List Event),
    fetch_alloc_loop dev lc L st = Except.ok (stF, ev) →
    ∀ c ∈ L, ∀ x ∈ chunk_tensor_statuses stF c, x = TensorStatus.HOLD := by
  intro L
  induction L with
  | nil =>
      intro st stF ev h c hc
      simp at hc
  | cons cid rest ih =>
      intro st stF ev h c hc
      rw [fetch_alloc_loop] at h
      split at h
      · rcases List.mem_cons.mp hc with hc1 | hc2
        · subst hc1
          exact fetch_alloc_loop_hold_mono dev lc c rest _ _ _ h
            (statuses_set_all_self st c TensorStatus.HOLD)
        · exact ih _ _ _ h c hc2
      · split at h
        · exact absurd h (by simp)
        next stA hA =>
          split at h
          · exact absurd h (by simp)
          next stB hB =>
            cases hr : fetch_alloc_loop dev lc rest
                (set_all_tensors_status_in_chunk stB cid TensorStatus.HOLD) with
            | error e => rw [hr] at h; exact absurd h (by simp [Except.map])
            | ok r =>
                rw [hr] at h
                simp [Except.map] at h
                rw [← h.1]
                rcases List.mem_cons.mp hc with hc1 | hc2
                · subst hc1
                  exact fetch_alloc_loop_hold_mono dev lc c rest _ _ _
                    (by rw [hr]) (statuses_set_all_self stB c TensorStatus.HOLD)
                · exact ih _ _ _ (by rw [hr]) c hc2

theorem unpin_loop_post :
    ∀ (L : List Nat) (st st2 : ClientState) (ev : List Event),
    unpin_loop L st = Except.ok (st2, ev) →
    (∀ c2, chunk_get_status st2 c2 = chunk_get_status st c2) ∧
    (∀ c2, chunk_payload st2 c2 = chunk_payload st c2) ∧
    st2.params = st.params ∧ gatherCount ev = 0 := by
  intro L
  induction L with
  | nil =>
      intro st st2 ev h
      rw [unpin_loop] at h
      simp at h
      rw [← h.1, h.2]
      exact ⟨fun c2 => rfl, fun c2 => rfl, rfl, rfl⟩
  | cons cid rest ih =>
      intro st st2 ev h
      rw [unpin_loop] at h
      split at h
      · exact absurd h (by simp)
      next stA hA =>
        cases hr : unpin_loop rest stA with
        | error e => rw [hr] at h; exact absurd h (by simp [Except.map])
        | ok r =>
            rw [hr] at h
            simp [Except.map] at h
            obtain ⟨hA1, hA2, hA3⟩ := unpin_chunk_pres st cid stA hA
            obtain ⟨hr1, hr2, hr3, hr4⟩ := ih _ _ _ (by rw [hr])
            rw [← h.1, ← h.2]
            refine ⟨fun c2 => (hr1 c2).trans (hA1 c2),
              fun c2 => (hr2 c2).trans (hA2 c2), hr3.trans hA3, ?_⟩
            simp only [gatherCount, List.filter] at hr4 ⊢
            exact hr4

theorem all_gather_write_post (lc : Nat) :
    ∀ (L : List Nat) (gd : List Payload) (st stw : ClientState),
    all_gather_write lc L gd st = Except.ok stw →
    stw.params = st.params ∧
    (∀ c2, (chunk_payload st c2).isSome = true →
      (chunk_payload stw c2).isSome = true) := by
  intro L
  induction L with
  | nil =>
      intro gd st stw h
      rw [all_gather_write] at h
      simp at h
      rw [← h]
      exact ⟨rfl, fun c2 hx => hx⟩
  | cons cid rest ih =>
      intro gd st stw h
      cases gd with
      | nil => rw [all_gather_write] at h; exact absurd h (by simp)
      | cons d dr =>
          rw [all_gather_write] at h
          split at h
          · exact ih dr st stw h
          · split at h
            · exact absurd h (by simp)
            next c hc =>
              obtain ⟨ih1, ih2⟩ := ih dr _ stw h
              refine ⟨ih1.trans rfl, ?_⟩
              intro c2 hx
              apply ih2
              by_cases h2 : c2 = cid
              · subst h2
                rw [chunk_payload,
                  get_chunk_setChunk_self st c2 _ c hc]
                rfl
              · rw [chunk_payload, get_chunk_setChunk_ne st cid c2 _ h2]
                exact hx

theorem fetch_remote_chunks_elim (st : ClientState) (L : List Nat) (lc : Nat)
    (dev : Device) (gd : List Payload) (st3 : ClientState) (ev3 : List Event)
    (h : fetch_remote_chunks st L lc dev gd = Except.ok (st3, ev3)) :
    (L.any (fun c => decide (chunk_get_status st c = some ChunkStatus.RELEASED))
        = true ∧
       gatherCount ev3 = 1 ∧
       (∀ c ∈ L, (chunk_payload st3 c).isSome = true) ∧
       (∀ c ∈ L, ∀ x ∈ chunk_tensor_statuses st3 c, x = TensorStatus.HOLD)) ∨
    (L.any (fun c => decide (chunk_get_status st c = some ChunkStatus.RELEASED))
        = false ∧
       st3 = st ∧ ev3 = []) := by
  rw [fetch_remote_chunks] at h
  split at h
  next hcond =>
    left
    refine ⟨hcond, ?_⟩
    split at h
    · exact absurd h (by simp)
    next s1 e1 hr1 =>
      split at h
      next hallpay =>
        split at h
        · exact absurd h (by simp)
        next s2 e2 hr2 =>
          split at h
          · split at h
            · exact absurd h (by simp)
            next stw hw =>
              simp at h
              obtain ⟨hst3, hev3⟩ := h
              obtain ⟨hu1, hu2, hu3, hu4⟩ := unpin_loop_post L s1 s2 e2 hr2
              obtain ⟨hw1, hw2⟩ := all_gather_write_post lc L gd s2 stw hw
              refine ⟨?_, ?_, ?_⟩
              · rw [← hev3, gatherCount_append, gatherCount_append,
                  fetch_alloc_loop_gather0 dev lc L st s1 e1 hr1, hu4]
                rfl
              · intro c hc
                rw [← hst3]
                apply hw2
                rw [hu2 c]
                exact List.all_eq_true.mp hallpay c hc
              · intro c hc x hx
                have hcfgw : SameCfg stw s2 :=
                  all_gather_write_sameCfg lc L gd s2 stw hw
                have hcfgu : SameCfg s2 s1 := unpin_loop_sameCfg L s1 s2 e2 hr2
                rw [← hst3, statuses_congr hcfgw hw1 c,
                  statuses_congr hcfgu hu3 c] at hx
                exact fetch_alloc_loop_hold dev lc L st s1 e1 hr1 c hc x hx
          · exact absurd h (by simp)
      · exact absurd h (by simp)
  next hcond =>
    right
    simp at h
    exact ⟨Bool.not_eq_true _ ▸ eq_false_of_ne_true hcond, h.1.symm, h.2⟩

theorem access_dist_group_elim (st : ClientState) (cid : Nat) (dev : Device)
    (gd : List Payload) (stg : ClientState) (evg : List Event)
    (hws : st.world_size > 1)
    (h : access_dist_group st cid dev gd = Except.ok (stg, evg)) :
    ∃ L lc s1 e1 st2 st3 ev3,
      chunk_ids_of_comm_group st cid = some L ∧
      L.get? st.rank = some lc ∧
      access_chunk st lc dev = Except.ok (s1, e1) ∧
      pin_chunk s1 lc = Except.ok st2 ∧
      fetch_remote_chunks st2 L lc dev gd = Except.ok (st3, ev3) ∧
      unpin_chunk st3 lc = Except.ok stg ∧
      evg = e1 ++ [Event.pinE lc] ++ ev3 ++ [Event.unpinE lc] := by
  rw [access_dist_group, if_pos hws] at h
  split at h
  · exact absurd h (by simp)
  next L hL =>
    split at h
    · exact absurd h (by simp)
    next lc hlc =>
      split at h
      · exact absurd h (by simp)
      next s1 e1 hr1 =>
        split at h
        · exact absurd h (by simp)
        next st2 h2 =>
          split at h
          · exact absurd h (by simp)
          next s3 e3 h3 =>
            split at h
            · exact absurd h (by simp)
            next st4 h4 =>
              simp at h
              refine ⟨L, lc, s1, e1, st2, s3, e3, hL, hlc, hr1, h2, h3,
                h.1 ▸ h4, ?_⟩
              rw [← h.2]
              simp

theorem no_release_no_gather (st : ClientState) (pid : Nat) (acc : AccessType)
    (dev : Device) (gd : List Payload) (L : List Nat)
    (st2 : ClientState) (v : Option Payload) (tr : List Event)
    (hpost : ∀ c ∈ L, chunk_get_status st c ≠ some ChunkStatus.RELEASED)
    (hgrp : ∀ cid2, get_chunk_id st pid acc = some cid2 →
        chunk_ids_of_comm_group st cid2 = some L)
    (h : access_dist st pid acc dev gd = Except.ok (st2, v, tr)) :
    gatherCount tr = 0 := by
  rcases access_dist_ok_elim st pid acc dev gd st2 v tr h with
    ⟨p, -, -, -, htr, -⟩ |
    ⟨p, cid2, sg, eg, s1, e1, hp, -, hcid2, hg, hac, -, htr⟩
  · rw [htr]; rfl
  · subst htr
    have hge : gatherCount eg = 0 := by
      by_cases hws : st.world_size > 1
      · obtain ⟨L', lc, s1b, e1b, st2b, st3b, ev3, hL', hlc, hacb, hpinb,
            hfetchb, hunpb, hevg⟩ :=
          access_dist_group_elim st cid2 dev gd sg eg hws hg
        have hLL : L' = L := by
          have hx := hgrp cid2 hcid2
          rw [hL'] at hx
          exact Option.some_inj.mp hx
        rw [hLL] at hlc hfetchb
        have hcondf : ∀ c ∈ L,
            chunk_get_status st2b c ≠ some ChunkStatus.RELEASED := by
          intro c hc hrel
          rw [(pin_chunk_pres s1b lc st2b hpinb).1 c] at hrel
          exact hpost c hc
            (access_chunk_released_back st lc dev s1b e1b hacb c hrel)
        rcases fetch_remote_chunks_elim st2b L lc dev gd st3b ev3 hfetchb with
          ⟨hcond, -, -, -⟩ | ⟨-, -, hev3⟩
        · rcases List.any_eq_true.mp hcond with ⟨c, hc, hcrel⟩
          exact absurd (of_decide_eq_true hcrel) (hcondf c hc)
        · subst hev3
          rw [hevg, gatherCount_append, gatherCount_append, gatherCount_append,
            access_chunk_gather0 st lc dev s1b e1b hacb]
          rfl
      · rw [access_dist_group, if_neg hws] at hg
        simp at hg
        rw [hg.2]
        rfl
    rw [gatherCount_append, hge, access_chunk_gather0 sg cid2 dev s1 e1 hac]

/-- C1: with more than one process, a successful distributed access of a
chunk-based tensor issues the all-gather collective exactly once iff some
chunk of the tensor's communication group has aggregate status RELEASED
at entry (under the protocol invariant that a RELEASED group never
consists of the local chunk alone); when no group member is RELEASED the
call performs no all-gather and allocates no chunk storage; and after a
successful call no group member is RELEASED any more, so a further
distributed access to any tensor of the same, now materialized group
performs no all-gather. -/
theorem claim_C1_gather_iff_released (st : ClientState) (pid : Nat)
    (acc : AccessType) (dev : Device) (gd : List Payload) (st' : ClientState)
    (v : Option Payload) (tr : List Event) (p : PSParam) (cid lcid : Nat)
    (L : List Nat) (c0 : Chunk)
    (hws : st.world_size > 1)
    (hp : getParam st pid = some p)
    (hcb : p.param_type = ParamType.CHUNK_BASED)
    (hcid : get_chunk_id st pid acc = some cid)
    (hgrp : chunk_ids_of_comm_group st cid = some L)
    (hloc : L.get? st.rank = some lcid)
    (hmem : cid ∈ L)
    (hcex : get_chunk st cid = some c0)
    (hH : (∃ c ∈ L, c ≠ lcid ∧ chunk_get_status st c = some ChunkStatus.RELEASED)
          ∨ (∀ c ∈ L, chunk_get_status st c ≠ some ChunkStatus.RELEASED))
    (h : access_dist st pid acc dev gd = Except.ok (st', v, tr)) :
    (gatherCount tr = 1 ↔
       ∃ c ∈ L, chunk_get_status st c = some ChunkStatus.RELEASED) ∧
    ((∀ c ∈ L, chunk_get_status st c ≠ some ChunkStatus.RELEASED) →
       gatherCount tr = 0 ∧ allocCount tr = 0) ∧
    (∀ c ∈ L, chunk_get_status st' c ≠ some ChunkStatus.RELEASED) ∧
    (∀ pid2 acc2 dev2 gd2 st2 v2 tr2,
       (∀ cid2, get_chunk_id st' pid2 acc2 = some cid2 →
           chunk_ids_of_comm_group st' cid2 = some L) →
       access_dist st' pid2 acc2 dev2 gd2 = Except.ok (st2, v2, tr2) →
       gatherCount tr2 = 0) := by
  rcases access_dist_ok_elim st pid acc dev gd st' v tr h with
    ⟨p2, hp2, htb, -, -, -⟩ |
    ⟨p2, cid2, sg, eg, s1, e1, hp2, -, hcid2, hg, hac, haps, htr⟩
  · rw [hp] at hp2
    rw [← Option.some_inj.mp hp2, hcb] at htb
    exact absurd htb (by decide)
  · have hcc : cid = cid2 := by
      rw [hcid] at hcid2
      exact Option.some_inj.mp hcid2
    rw [← hcc] at hg hac haps
    obtain ⟨L', lc, s1b, e1b, st2b, st3b, ev3, hL', hlc', hacb, hpinb,
        hfetchb, hunpb, hevg⟩ :=
      access_dist_group_elim st cid dev gd sg eg hws hg
    have hLL : L' = L := by
      have hx := hL'
      rw [hgrp] at hx
      exact (Option.some_inj.mp hx).symm
    rw [hLL] at hlc' hfetchb
    have hlcl : lc = lcid := by
      rw [hloc] at hlc'
      exact (Option.some_inj.mp hlc').symm
    rw [hlcl] at hacb hpinb hfetchb hunpb hevg
    have hpinpre := pin_chunk_pres s1b lcid st2b hpinb
    rcases fetch_remote_chunks_elim st2b L lcid dev gd st3b ev3 hfetchb with
      ⟨hcond, hg1, hpay3, hhold3⟩ | ⟨hcond, hst3, hev3⟩
    · -- the gather fired
      have hRHS : ∃ c ∈ L, chunk_get_status st c = some ChunkStatus.RELEASED := by
        rcases List.any_eq_true.mp hcond with ⟨c, hc, hcrel⟩
        have hrel2 : chunk_get_status st2b c = some ChunkStatus.RELEASED :=
          of_decide_eq_true hcrel
        rw [hpinpre.1 c] at hrel2
        exact ⟨c, hc, access_chunk_released_back st lcid dev s1b e1b hacb c hrel2⟩
      have htr1 : gatherCount tr = 1 := by
        rw [htr, gatherCount_append, hevg, gatherCount_append,
          gatherCount_append, gatherCount_append,
          access_chunk_gather0 st lcid dev s1b e1b hacb,
          access_chunk_gather0 sg cid dev s1 e1 hac, hg1]
        rfl
      have hpost : ∀ c ∈ L, chunk_get_status st' c ≠ some ChunkStatus.RELEASED := by
        intro c hc
        have hu := unpin_chunk_pres st3b lcid sg hunpb
        have hpayg : (chunk_payload sg c).isSome = true := by
          rw [hu.2.1 c]
          exact hpay3 c hc
        have hholdg : ∀ x ∈ chunk_tensor_statuses sg c, x = TensorStatus.HOLD := by
          intro x hx
          have hcfg : SameCfg sg st3b := unpin_chunk_sameCfg st3b lcid sg hunpb
          rw [statuses_congr hcfg hu.2.2 c] at hx
          exact hhold3 c hc x hx
        have hpay1 : (chunk_payload s1 c).isSome = true := by
          by_cases h2 : c = cid
          · subst h2
            exact access_chunk_payload_isSome sg c dev s1 e1 hac
          · rw [(access_chunk_pres_ne sg cid dev s1 e1 hac c h2).2]
            exact hpayg
        have hhold1 : ∀ x ∈ chunk_tensor_statuses s1 c, x = TensorStatus.HOLD := by
          intro x hx
          have hcfg : SameCfg s1 sg := access_chunk_sameCfg sg cid dev s1 e1 hac
          rw [statuses_congr hcfg (access_chunk_params sg cid dev s1 e1 hac) c] at hx
          exact hholdg x hx
        obtain ⟨ch1, pay1, hch1, hp1⟩ := chunk_payload_some_elim s1 c hpay1
        have hnr1 : chunk_get_status s1 c ≠ some ChunkStatus.RELEASED := by
          refine chunk_get_status_not_released s1 c ch1 pay1 hch1 hp1 ?_
          intro x hx hxe
          rw [hhold1 x hx] at hxe
          exact TensorStatus.noConfusion hxe
        exact aps_not_released s1 pid acc cid st' v haps c hnr1
      refine ⟨⟨fun _ => hRHS, fun _ => htr1⟩, ?_, hpost, ?_⟩
      · intro hnone
        rcases hRHS with ⟨c, hc, hrel⟩
        exact absurd hrel (hnone c hc)
      · intro pid2 acc2 dev2 gd2 st2 v2 tr2 hgrp2 h2
        exact no_release_no_gather st' pid2 acc2 dev2 gd2 L st2 v2 tr2
          hpost hgrp2 h2
    · -- no group member was RELEASED at the fetch point
      subst hev3
      rw [hst3] at hunpb
      have hnoL : ∀ c ∈ L, chunk_get_status st c ≠ some ChunkStatus.RELEASED := by
        rcases hH with ⟨c, hc, hcne, hcrel⟩ | hr
        · exfalso
          have hs1 : chunk_get_status s1b c = chunk_get_status st c :=
            (access_chunk_pres_ne st lcid dev s1b e1b hacb c hcne).1
          have h2b : chunk_get_status st2b c = some ChunkStatus.RELEASED := by
            rw [hpinpre.1 c, hs1]
            exact hcrel
          have hanyt : L.any (fun c =>
              decide (chunk_get_status st2b c = some ChunkStatus.RELEASED))
              = true :=
            List.any_eq_true.mpr ⟨c, hc, decide_eq_true h2b⟩
          rw [hcond] at hanyt
          exact Bool.noConfusion hanyt
        · exact hr
      have hlcmem : lcid ∈ L := List.get?_mem hloc
      obtain ⟨clc, hclc, -⟩ := access_chunk_ok st lcid dev s1b e1b hacb
      obtain ⟨⟨paylc, hpaylc⟩, -⟩ :=
        chunk_not_released_elim st lcid clc hclc (hnoL lcid hlcmem)
      have hcplc : chunk_payload st lcid = some paylc := by
        rw [chunk_payload, hclc]
        exact hpaylc
      obtain ⟨ha1, ha2, ha3, he1b⟩ :=
        access_chunk_pres_some st lcid dev s1b e1b paylc hcplc hacb
      have hst2b_status : ∀ c2, chunk_get_status st2b c2 = chunk_get_status st c2 :=
        fun c2 => (hpinpre.1 c2).trans (ha1 c2)
      have hst2b_pay : ∀ c2, chunk_payload st2b c2 = chunk_payload st c2 :=
        fun c2 => (hpinpre.2.1 c2).trans (ha2 c2)
      have hu := unpin_chunk_pres st2b lcid sg hunpb
      have hsg_status : ∀ c2, chunk_get_status sg c2 = chunk_get_status st c2 :=
        fun c2 => (hu.1 c2).trans (hst2b_status c2)
      have hsg_pay : ∀ c2, chunk_payload sg c2 = chunk_payload st c2 :=
        fun c2 => (hu.2.1 c2).trans (hst2b_pay c2)
      obtain ⟨⟨payc, hpayc⟩, -⟩ :=
        chunk_not_released_elim st cid c0 hcex (hnoL cid hmem)
      have hcpc : chunk_payload sg cid = some payc := by
        rw [hsg_pay cid, chunk_payload, hcex]
        exact hpayc
      obtain ⟨hb1, hb2, hb3, he1⟩ :=
        access_chunk_pres_some sg cid dev s1 e1 payc hcpc hac
      have hs1_status : ∀ c2, chunk_get_status s1 c2 = chunk_get_status st c2 :=
        fun c2 => (hb1 c2).trans (hsg_status c2)
      have htr0 : gatherCount tr = 0 := by
        rw [htr, he1, hevg, he1b]
        rfl
      have hal0 : allocCount tr = 0 := by
        rw [htr, he1, hevg, he1b]
        rfl
      have hpost : ∀ c ∈ L, chunk_get_status st' c ≠ some ChunkStatus.RELEASED := by
        intro c hc
        apply aps_not_released s1 pid acc cid st' v haps c
        rw [hs1_status c]
        exact hnoL c hc
      refine ⟨?_, fun _ => ⟨htr0, hal0⟩, hpost, ?_⟩
      · constructor
        · intro h1
          rw [htr0] at h1
          exact absurd h1 (by decide)
        · intro hex
          rcases hex with ⟨c, hc, hrel⟩
          exact absurd hrel (hnoL c hc)
      · intro pid2 acc2 dev2 gd2 st2 v2 tr2 hgrp2 h2
        exact no_release_no_gather st' pid2 acc2 dev2 gd2 L st2 v2 tr2
          hpost hgrp2 h2

theorem claim_C1_gather_iff_released_witness :
    gatherCount (resTrace3 (access_dist S2 0 AccessType.DATA Device.cpu
      [[1, 2, 3, 4], [5, 6, 7, 8]])) = 1 ∧
    (∃ c ∈ [0, 1], chunk_get_status S2 c = some ChunkStatus.RELEASED) := by
  cases hx : access_dist S2 0 AccessType.DATA Device.cpu
      [[1, 2, 3, 4], [5, 6, 7, 8]] with
  | error e =>
      have hsome : (resState3 (access_dist S2 0 AccessType.DATA Device.cpu
          [[1, 2, 3, 4], [5, 6, 7, 8]])).isSome = true := by decide
      rw [hx] at hsome
      exact absurd hsome (by simp [resState3])
  | ok r =>
      have h := claim_C1_gather_iff_released S2 0 AccessType.DATA Device.cpu
        [[1, 2, 3, 4], [5, 6, 7, 8]] r.1 r.2.1 r.2.2 paramA 0 0 [0, 1] chunkA
        (by decide) (by decide) rfl (by decide) (by decide) (by decide)
        (by decide) (by decide) (Or.inl (by decide)) (by rw [hx])
      have hex : ∃ c ∈ [0, 1], chunk_get_status S2 c = some ChunkStatus.RELEASED := by
        decide
      refine ⟨?_, hex⟩
      exact h.1.mpr hex

/-!  Lemmas for the distributed release: postconditions of the reduce
collection loop, the reduce-scatter write and the remote removal loop. -/

theorem reduceCount_append (a b : List Event) :
    reduceCount (a ++ b) = reduceCount a + reduceCount b := by
  simp [reduceCount, List.filter_append]

theorem access_chunk_reduce0 (st : ClientState) (cid : Nat) (dev : Device)
    (st1 : ClientState) (ev : List Event)
    (h : access_chunk st cid dev = Except.ok (st1, ev)) : reduceCount ev = 0 := by
  rcases access_chunk_ok st cid dev st1 ev h with ⟨c, -, hcase⟩
  rcases hcase with ⟨-, hev, -⟩ | ⟨pay2, -, hev, -⟩ <;> subst hev <;> rfl

theorem chunk_payload_chunks_congr (a b : ClientState)
    (hc : a.chunks = b.chunks) (c : Nat) :
    chunk_payload a c = chunk_payload b c := by
  rw [chunk_payload, chunk_payload, get_chunk, get_chunk, hc]

theorem statuses_setChunk_eq (st : ClientState) (cid : Nat) (c : Chunk)
    (c2 : Nat) :
    chunk_tensor_statuses (setChunk st cid c) c2 =
      chunk_tensor_statuses st c2 := rfl

theorem reduce_collect_loop_post (dev : Device) :
    ∀ (L : List Nat) (st : ClientState)
      (r : ClientState × List Event × List Payload),
    reduce_collect_loop dev L st = Except.ok r →
    (∀ c ∈ L, (chunk_payload st c).isSome = true) →
    (∀ c2, chunk_payload r.1 c2 = chunk_payload st c2) ∧
    r.2.2 = L.map (fun c => (chunk_payload st c).getD []) ∧
    reduceCount r.2.1 = 0 := by
  intro L
  induction L with
  | nil =>
      intro st r h hpays
      rw [reduce_collect_loop] at h
      simp at h
      rw [← h]
      exact ⟨fun c2 => rfl, rfl, rfl⟩
  | cons cid rest ih =>
      intro st r h hpays
      rw [reduce_collect_loop] at h
      split at h
      · exact absurd h (by simp)
      next s1 e1 hr1 =>
        split at h
        · exact absurd h (by simp)
        next st2 h2 =>
          split at h
          · exact absurd h (by simp)
          next pay hpay =>
            cases hr : reduce_collect_loop dev rest st2 with
            | error e => rw [hr] at h; exact absurd h (by simp [Except.map])
            | ok rr =>
                rw [hr] at h
                simp [Except.map] at h
                obtain ⟨pay0, hpay0⟩ := Option.isSome_iff_exists.mp
                  (hpays cid (List.mem_cons_self cid rest))
                have hacc := access_chunk_pres_some st cid dev s1 e1 pay0 hpay0 hr1
                have hpin := pin_chunk_pres s1 cid st2 h2
                have hmap2 : ∀ c2, chunk_payload st2 c2 = chunk_payload st c2 :=
                  fun c2 => (hpin.2.1 c2).trans (hacc.2.1 c2)
                have hpays2 : ∀ c ∈ rest, (chunk_payload st2 c).isSome = true := by
                  intro c hc
                  rw [hmap2 c]
                  exact hpays c (List.mem_cons_of_mem cid hc)
                obtain ⟨ih1, ih2, ih3⟩ := ih st2 rr hr hpays2
                have hhead : pay = pay0 := by
                  have hx := hpay
                  rw [hmap2 cid, hpay0] at hx
                  exact (Option.some_inj.mp hx).symm
                rw [← h]
                refine ⟨fun c2 => (ih1 c2).trans (hmap2 c2), ?_, ?_⟩
                · simp only [List.map_cons, hpay0, hhead, Option.getD_some]
                  rw [ih2]
                  refine congrArg _ (List.map_congr_left ?_)
                  intro a ha
                  rw [hmap2 a]
                · rw [reduceCount_append,
                    access_chunk_reduce0 st cid dev s1 e1 hr1, Nat.zero_add]
                  simp only [reduceCount, List.filter] at ih3 ⊢
                  exact ih3

theorem reduce_write_local_ok (st : ClientState) (lc : Nat)
    (inputs : List Payload) (st1 : ClientState)
    (h : reduce_write_local st lc inputs = Except.ok st1) :
    ∃ c, get_chunk st lc = some c ∧
      st1 = setChunk st lc { c with payload := some ((reduce_scatter_sum inputs).map (fun x => x / (st.world_size : Rat))) } := by
  rw [reduce_write_local] at h
  split at h
  · exact absurd h (by simp)
  next c hc =>
    simp at h
    exact ⟨c, hc, h.symm⟩

theorem remove_payload_none_mono (lc c2 : Nat) :
    ∀ (L : List Nat) (st : ClientState) (r : ClientState × List Event),
    remote_remove_loop lc L st = Except.ok r →
    chunk_payload st c2 = none → chunk_payload r.1 c2 = none := by
  intro L
  induction L with
  | nil =>
      intro st r h hn
      rw [remote_remove_loop] at h
      simp at h
      rw [← h]
      exact hn
  | cons cid rest ih =>
      intro st r h hn
      rw [remote_remove_loop] at h
      split at h
      · exact absurd h (by simp)
      next st1 h1 =>
        have hn1 : chunk_payload st1 c2 = none := by
          rw [(unpin_chunk_pres st cid st1 h1).2.1 c2]
          exact hn
        split at h
        · cases hr : remote_remove_loop lc rest st1 with
          | error e => rw [hr] at h; exact absurd h (by simp [Except.map])
          | ok rr =>
              rw [hr] at h
              simp [Except.map] at h
              rw [← h]
              exact ih st1 rr hr hn1
        · split at h
          · exact absurd h (by simp)
          next st2 h2 =>
            obtain ⟨c1, hc1, hst2⟩ := release_payload_ok st1 cid st2 h2
            have hn2 : chunk_payload st2 c2 = none := by
              subst hst2
              by_cases hcc : c2 = cid
              · subst hcc
                rw [chunk_payload, get_chunk_setChunk_self st1 c2 _ c1 hc1]
                rfl
              · rw [chunk_payload, get_chunk_setChunk_ne st1 cid c2 _ hcc]
                exact hn1
            cases hr : remote_remove_loop lc rest
                (set_all_tensors_status_in_chunk st2 cid TensorStatus.FREE) with
            | error e => rw [hr] at h; exact absurd h (by simp [Except.map])
            | ok rr =>
                rw [hr] at h
                simp [Except.map] at h
                rw [← h]
                refine ih _ rr hr ?_
                rw [chunk_payload_chunks_congr _ st2
                  (set_all_chunks st2 cid TensorStatus.FREE) c2]
                exact hn2

theorem remove_free_mono (lc c2 : Nat) :
    ∀ (L : List Nat) (st : ClientState) (r : ClientState × List Event),
    remote_remove_loop lc L st = Except.ok r →
    (∀ x ∈ chunk_tensor_statuses st c2, x = TensorStatus.FREE) →
    ∀ x ∈ chunk_tensor_statuses r.1 c2, x = TensorStatus.FREE := by
  intro L
  induction L with
  | nil =>
      intro st r h hall
      rw [remote_remove_loop] at h
      simp at h
      rw [← h]
      exact hall
  | cons cid rest ih =>
      intro st r h hall
      rw [remote_remove_loop] at h
      split at h
      · exact absurd h (by simp)
      next st1 h1 =>
        obtain ⟨cu, -, hst1⟩ := unpin_chunk_ok st cid st1 h1
        have hall1 : ∀ x ∈ chunk_tensor_statuses st1 c2,
            x = TensorStatus.FREE := by
          subst hst1
          rw [statuses_setChunk_eq]
          exact hall
        split at h
        · cases hr : remote_remove_loop lc rest st1 with
          | error e => rw [hr] at h; exact absurd h (by simp [Except.map])
          | ok rr =>
              rw [hr] at h
              simp [Except.map] at h
              rw [← h]
              exact ih st1 rr hr hall1
        · split at h
          · exact absurd h (by simp)
          next st2 h2 =>
            obtain ⟨c1, -, hst2⟩ := release_payload_ok st1 cid st2 h2
            have hall2 : ∀ x ∈ chunk_tensor_statuses st2 c2,
                x = TensorStatus.FREE := by
              subst hst2
              rw [statuses_setChunk_eq]
              exact hall1
            cases hr : remote_remove_loop lc rest
                (set_all_tensors_status_in_chunk st2 cid TensorStatus.FREE) with
            | error e => rw [hr] at h; exact absurd h (by simp [Except.map])
            | ok rr =>
                rw [hr] at h
                simp [Except.map] at h
                rw [← h]
                exact ih _ rr hr
                  (set_all_hold_keep st2 cid c2 TensorStatus.FREE hall2)

theorem remote_remove_loop_main (lc : Nat) :
    ∀ (L : List Nat) (st : ClientState) (r : ClientState × List Event),
    remote_remove_loop lc L st = Except.ok r →
    ∀ c ∈ L, c ≠ lc →
      chunk_payload r.1 c = none ∧
      (∀ x ∈ chunk_tensor_statuses r.1 c, x = TensorStatus.FREE) := by
  intro L
  induction L with
  | nil =>
      intro st r h c hc
      simp at hc
  | cons cid rest ih =>
      intro st r h c hcL hcne
      rw [remote_remove_loop] at h
      split at h
      · exact absurd h (by simp)
      next st1 h1 =>
        split at h
        next hif =>
          cases hr : remote_remove_loop lc rest st1 with
          | error e => rw [hr] at h; exact absurd h (by simp [Except.map])
          | ok rr =>
              rw [hr] at h
              simp [Except.map] at h
              rw [← h]
              rcases List.mem_cons.mp hcL with hc1 | hc2
              · exact absurd (hc1.trans hif) hcne
              · exact ih st1 rr hr c hc2 hcne
        next hif =>
          split at h
          · exact absurd h (by simp)
          next st2 h2 =>
            cases hr : remote_remove_loop lc rest
                (set_all_tensors_status_in_chunk st2 cid TensorStatus.FREE) with
            | error e => rw [hr] at h; exact absurd h (by simp [Except.map])
            | ok rr =>
                rw [hr] at h
                simp [Except.map] at h
                rw [← h]
                rcases List.mem_cons.mp hcL with hc1 | hc2
                · subst hc1
                  obtain ⟨c1, hc1x, hst2⟩ := release_payload_ok st1 c st2 h2
                  constructor
                  · refine remove_payload_none_mono lc c rest _ rr hr ?_
                    rw [chunk_payload_chunks_congr _ st2
                      (set_all_chunks st2 c TensorStatus.FREE) c]
                    subst hst2
                    rw [chunk_payload, get_chunk_setChunk_self st1 c _ c1 hc1x]
                    rfl
                  · exact remove_free_mono lc c rest _ rr hr
                      (statuses_set_all_self st2 c TensorStatus.FREE)
                · exact ih _ rr hr c hc2 hcne

theorem remote_remove_loop_local (lc : Nat) :
    ∀ (L : List Nat) (st : ClientState) (r : ClientState × List Event),
    remote_remove_loop lc L st = Except.ok r →
    chunk_payload r.1 lc = chunk_payload st lc ∧ reduceCount r.2 = 0 := by
  intro L
  induction L with
  | nil =>
      intro st r h
      rw [remote_remove_loop] at h
      simp at h
      rw [← h]
      exact ⟨rfl, rfl⟩
  | cons cid rest ih =>
      intro st r h
      rw [remote_remove_loop] at h
      split at h
      · exact absurd h (by simp)
      next st1 h1 =>
        have hu := unpin_chunk_pres st cid st1 h1
        split at h
        next hif =>
          cases hr : remote_remove_loop lc rest st1 with
          | error e => rw [hr] at h; exact absurd h (by simp [Except.map])
          | ok rr =>
              rw [hr] at h
              simp [Except.map] at h
              rw [← h]
              obtain ⟨ih1, ih2⟩ := ih st1 rr hr
              refine ⟨ih1.trans (hu.2.1 lc), ?_⟩
              simp only [reduceCount, List.filter] at ih2 ⊢
              exact ih2
        next hif =>
          split at h
          · exact absurd h (by simp)
          next st2 h2 =>
            obtain ⟨c1, hc1, hst2⟩ := release_payload_ok st1 cid st2 h2
            have hlcp : chunk_payload st2 lc = chunk_payload st lc := by
              subst hst2
              rw [chunk_payload,
                get_chunk_setChunk_ne st1 cid lc _ (fun hh => hif hh.symm)]
              exact hu.2.1 lc
            cases hr : remote_remove_loop lc rest
                (set_all_tensors_status_in_chunk st2 cid TensorStatus.FREE) with
            | error e => rw [hr] at h; exact absurd h (by simp [Except.map])
            | ok rr =>
                rw [hr] at h
                simp [Except.map] at h
                rw [← h]
                obtain ⟨ih1, ih2⟩ := ih _ rr hr
                refine ⟨?_, ?_⟩
                · rw [ih1, chunk_payload_chunks_congr _ st2
                    (set_all_chunks st2 cid TensorStatus.FREE) lc]
                  exact hlcp
                · simp only [reduceCount, List.filter] at ih2 ⊢
                  exact ih2

/-- C2: with more than one process, a successful distributed release
collapses the tensor's communication group iff after this release's own
status transition every non-dummy group chunk has all tensors at the
stage hold status: when the group is not ready the call only performs
the status transition and view detach (state stT) and issues nothing;
when it is ready, every non-local group chunk ends with its payload
released and all its tensors FREE, and the local chunk's payload is
kept — unchanged without the reduce flag, and with the reduce flag set
(and all group payloads present) overwritten by exactly one
reduce-scatter with the element-wise sum of the group payloads divided
by the process count. -/
theorem claim_C2_release_collapse (st : ClientState) (pid : Nat)
    (acc : AccessType) (reset_to : TensorStatus) (stage : TrainingStage)
    (red : Bool) (st' : ClientState) (tr : List Event) (p : PSParam)
    (cid lcid : Nat) (L : List Nat) (stT : ClientState)
    (hws : st.world_size > 1)
    (hp : getParam st pid = some p)
    (hcb : p.param_type = ParamType.CHUNK_BASED)
    (hcid : get_chunk_id st pid acc = some cid)
    (hgrp : chunk_ids_of_comm_group st cid = some L)
    (hloc : L.get? st.rank = some lcid)
    (hT : stT = setParam st pid (detach_view (p.set_status reset_to acc) acc))
    (h : release_dist st pid acc reset_to stage red = Except.ok (st', tr)) :
    (group_ready stT L stage = false → st' = stT ∧ tr = []) ∧
    (group_ready stT L stage = true →
      (∀ c ∈ L, c ≠ lcid →
         chunk_payload st' c = none ∧
         (∀ x ∈ chunk_tensor_statuses st' c, x = TensorStatus.FREE)) ∧
      (red = false → reduceCount tr = 0 ∧
         chunk_payload st' lcid = chunk_payload stT lcid) ∧
      (red = true → (∀ c ∈ L, (chunk_payload stT c).isSome = true) →
         reduceCount tr = 1 ∧
         chunk_payload st' lcid = some ((reduce_scatter_sum (L.map (fun c => (chunk_payload stT c).getD []))).map (fun x => x / (st.world_size : Rat))))) := by
  subst hT
  rw [release_dist] at h
  split at h
  · exact absurd h (by simp)
  next p2 hp2 =>
    have hpp : p = p2 := by
      rw [hp] at hp2
      exact Option.some_inj.mp hp2
    subst hpp
    split at h
    next htorch =>
      rw [hcb] at htorch
      exact absurd htorch (by decide)
    next =>
      split at h
      · exact absurd h (by simp)
      · split at h
        · exact absurd h (by simp)
        · split at h
          · exact absurd h (by simp)
          next cid2 hcid2 =>
            have hcc : cid = cid2 := by
              rw [hcid] at hcid2
              exact Option.some_inj.mp hcid2
            rw [← hcc] at h
            split at h
            · exact absurd h (by simp)
            next L2 hL2 =>
              have hLL : L = L2 := by
                rw [hgrp] at hL2
                exact Option.some_inj.mp hL2
              rw [← hLL] at h
              split at h
              · exact absurd h (by simp)
              next lc2 hlc2 =>
                have hlcl : lcid = lc2 := by
                  rw [hloc] at hlc2
                  exact Option.some_inj.mp hlc2
                rw [← hlcl] at h
                split at h
                · exact absurd h (by simp)
                next stx hu =>
                  have hx := update_status_ok _ _ _ _ _ hu
                  rw [hx] at h
                  simp only [] at h
                  cases hready : group_ready
                      (setParam st pid
                        (detach_view (p.set_status reset_to acc) acc)) L stage with
                  | false =>
                      rw [hready] at h
                      simp only [Bool.false_eq_true, reduceIte] at h
                      simp at h
                      refine ⟨fun _ => ⟨h.1.symm, h.2⟩, ?_⟩
                      intro hcon
                      exact absurd hcon (by simp)
                  | true =>
                      rw [hready] at h
                      simp only [reduceIte] at h
                      refine ⟨fun hcon => absurd hcon (by simp), fun _ => ?_⟩
                      cases red with
                      | false =>
                          simp only [Bool.false_eq_true, reduceIte] at h
                          split at h
                          · exact absurd h (by simp)
                          next s4 e4 h4 =>
                            simp at h
                            obtain ⟨hst', htr⟩ := h
                            rw [← hst']
                            obtain ⟨hl1, hl2⟩ :=
                              remote_remove_loop_local lcid L _ (s4, e4) h4
                            refine ⟨?_, ?_, ?_⟩
                            · intro c hc hcne
                              exact remote_remove_loop_main lcid L _ (s4, e4)
                                h4 c hc hcne
                            · intro hres
                              refine ⟨?_, hl1⟩
                              rw [← htr]
                              exact hl2
                            · intro hres
                              exact absurd hres (by decide)
                      | true =>
                          simp only [reduceIte] at h
                          split at h
                          · exact absurd h (by simp)
                          next st3 ev3 h3 =>
                            split at h
                            · exact absurd h (by simp)
                            next s4 e4 h4 =>
                              simp at h
                              obtain ⟨hst', htr⟩ := h
                              rw [← hst']
                              split at h3
                              · exact absurd h3 (by simp)
                              next pay hpayl =>
                                split at h3
                                · exact absurd h3 (by simp)
                                next sA evA inputs hc =>
                                  split at h3
                                  · exact absurd h3 (by simp)
                                  next sB hB =>
                                    simp at h3
                                    obtain ⟨hst3, hev3⟩ := h3
                                    rw [← hst3] at h4
                                    refine ⟨?_, ?_, ?_⟩
                                    · intro c hc2 hcne
                                      exact remote_remove_loop_main lcid L
                                        sB (s4, e4) h4 c hc2 hcne
                                    · intro hres
                                      exact absurd hres (by decide)
                                    · intro hres hpays
                                      obtain ⟨hm1, hm2, hm3⟩ :=
                                        reduce_collect_loop_post
                                          (Device.cuda st.local_rank) L _
                                          (sA, evA, inputs) hc hpays
                                      have hm2x : inputs = L.map (fun c => (chunk_payload (setParam st pid (detach_view (p.set_status reset_to acc) acc)) c).getD []) := hm2
                                      have hm3x : reduceCount evA = 0 := hm3
                                      obtain ⟨cW, hcW, hsB⟩ :=
                                        reduce_write_local_ok sA lcid inputs sB hB
                                      have hwsA : sA.world_size = st.world_size := by
                                        have hcfg : SameCfg sA st :=
                                          sameCfg_trans
                                            (reduce_collect_loop_sameCfg
                                              (Device.cuda st.local_rank) L _
                                              (sA, evA, inputs) hc)
                                            (sameCfg_setParam st pid _)
                                        exact hcfg.1
                                      obtain ⟨hl1, hl2⟩ :=
                                        remote_remove_loop_local lcid L sB
                                          (s4, e4) h4
                                      constructor
                                      · rw [← htr, ← hev3, reduceCount_append,
                                          reduceCount_append, hm3x, hl2]
                                        rfl
                                      · rw [hl1, hsB, chunk_payload,
                                          get_chunk_setChunk_self sA lcid _ cW hcW,
                                          hm2x, hwsA]
                                        rfl

theorem claim_C2_release_collapse_witness :
    ∃ st1 tr, release_dist S7 0 AccessType.DATA TensorStatus.HOLD_AFTER_BWD
        TrainingStage.BWD true = Except.ok (st1, tr) ∧
      reduceCount tr = 1 ∧
      chunk_payload st1 0 = some [3, 4, 5, 6] ∧
      chunk_payload st1 1 = none ∧
      (∀ x ∈ chunk_tensor_statuses st1 1, x = TensorStatus.FREE) := by
  cases hx : release_dist S7 0 AccessType.DATA TensorStatus.HOLD_AFTER_BWD
      TrainingStage.BWD true with
  | error e =>
      have hsome : (resState2 (release_dist S7 0 AccessType.DATA
          TensorStatus.HOLD_AFTER_BWD TrainingStage.BWD true)).isSome
          = true := by decide
      rw [hx] at hsome
      exact absurd hsome (by simp [resState2])
  | ok r =>
      have h := claim_C2_release_collapse S7 0 AccessType.DATA
        TensorStatus.HOLD_AFTER_BWD TrainingStage.BWD true r.1 r.2 paramC 0 0
        [0, 1]
        (setParam S7 0 (detach_view
          (paramC.set_status TensorStatus.HOLD_AFTER_BWD AccessType.DATA)
          AccessType.DATA))
        (by decide) (by decide) (by decide) (by decide) (by decide) (by decide)
        rfl (by rw [hx])
      have h2 := h.2 (by decide)
      have h3 := h2.2.2 rfl (by decide)
      refine ⟨r.1, r.2, rfl, h3.1, ?_, (h2.1 1 (by decide) (by decide)).1,
        (h2.1 1 (by decide) (by decide)).2⟩
      rw [h3.2]
      have hlists : List.map (fun c =>
          (chunk_payload (setParam S7 0 (detach_view
            (paramC.set_status TensorStatus.HOLD_AFTER_BWD AccessType.DATA)
            AccessType.DATA)) c).getD []) [0, 1]
          = [[1, 2, 3, 4], [5, 6, 7, 8]] := by decide
      rw [hlists]
      norm_num [reduce_scatter_sum, List.zipWith, List.foldl, S7]

end PStar
